import Mathlib

/-!
# Verification of the SCTE-35 splice-information decoder

A shallow embedding of the `scte35` Rust crate (bit reader, enum tables,
splice-descriptor and segmentation-descriptor decoders, and the top-level
splice-information-section frame), together with theorems settling the
frozen specification claims.

Modelling conventions:

* The crate's `Bits` reader wraps `bitter::BigEndianReader`.  Its integer
  reads call `read_bits(n).unwrap()`, which panics when fewer than `n` bits
  remain; a panic is modelled as `Except.error PErr.fatal`.  The byte reads
  call `read_bytes(&mut buf)` and ignore its `bool` result; `bitter`
  documents that on insufficient data `read_bytes` returns `false` and
  leaves the buffer (pre-initialised to zeroes by the caller) and the
  reader untouched, so `Bits.bytes` is total and silently yields a
  zero-filled buffer in that case.
* Machine integers are `Nat` with explicit `% 2^w` truncation where a Rust
  `as` cast could truncate; `isize` bookkeeping fields are `Int`.
* Fallible Rust functions (`Result<_, ParseError>` plus possible panics)
  become `Except PErr (α × Bits)`, threading the reader state explicitly.
* The recursive MID loop and the descriptor loop are defined with a fuel
  parameter (Rust terminates because every iteration consumes at least one
  byte); `PErr.outOfFuel` marks exhaustion and is distinct from every
  behaviour of the source, and all theorems about these loops are
  conditioned on results that exclude it.
-/

set_option maxRecDepth 4000

namespace Scte35

/-- Big-endian bit decomposition of one byte, most significant bit first,
matching the `bitter` big-endian reader that `Bits` wraps. -/
def byteBits (v : Nat) : List Bool :=
  (List.range 8).map (fun i => Nat.testBit v (7 - i))

/-- A byte buffer as a bit string, first byte first, MSB first. -/
def bytesToBits (l : List Nat) : List Bool :=
  l.foldr (fun v acc => byteBits v ++ acc) []

/-- Value of a bit string interpreted MSB-first. -/
def bitsVal (l : List Bool) : Nat :=
  l.foldl (fun acc b => 2 * acc + cond b 1 0) 0

/-- Lower-case hex digit for a value `0..15`. -/
def hexChar (n : Nat) : Char :=
  if n < 10 then Char.ofNat (48 + n) else Char.ofNat (87 + n)

/-- `format!("{:0wx}", v)` for a value below `16 ^ w`: exactly `w`
lower-case hex digits, most significant first. -/
def hexPadChars (w v : Nat) : List Char :=
  (List.range w).map (fun i => hexChar (v / 16 ^ (w - 1 - i) % 16))

/-- ASCII upper-casing of one character; Rust `char::to_uppercase` agrees
with this on the ASCII output of `format!("{:04x}", _)`. -/
def asciiUpperChar (c : Char) : Char :=
  if 97 ≤ c.toNat ∧ c.toNat ≤ 122 then Char.ofNat (c.toNat - 32) else c

/-- ASCII upper-casing of a string. -/
def asciiUpper (s : String) : String :=
  ⟨s.data.map asciiUpperChar⟩

/-- `u8::from_str_radix(&c.to_string(), 16)`: the value of one hex digit,
`none` on a non-hex character. -/
def hexDigitVal (c : Char) : Option Nat :=
  if 48 ≤ c.toNat ∧ c.toNat ≤ 57 then some (c.toNat - 48)
  else if 97 ≤ c.toNat ∧ c.toNat ≤ 102 then some (c.toNat - 87)
  else if 65 ≤ c.toNat ∧ c.toNat ≤ 70 then some (c.toNat - 55)
  else none

/-- Is this byte a UTF-8 continuation byte (`0x80..=0xBF`)? -/
def isUtf8Cont (v : Nat) : Bool :=
  128 ≤ v && v < 192

/-- Decoding state entered after a multi-byte UTF-8 lead byte: number of
continuation bytes still expected, the code-point bits gathered so far,
and the admissible range for the next byte.  The narrowed first-byte
ranges after leads `0xE0`, `0xED`, `0xF0` and `0xF4` exclude overlong
forms, surrogates and code points above U+10FFFF (RFC 3629), exactly as
Rust's `std::str::from_utf8` does; `none` marks an invalid lead
(`0x80..0xC1`, `0xF5..`). -/
def utf8LeadInfo (v : Nat) : Option (Nat × Nat × Nat × Nat) :=
  if v < 194 then none
  else if v < 224 then some (1, v - 192, 128, 192)
  else if v = 224 then some (2, 0, 160, 192)
  else if v = 237 then some (2, 13, 128, 160)
  else if v < 240 then some (2, v - 224, 128, 192)
  else if v = 240 then some (3, 0, 144, 192)
  else if v = 244 then some (3, 4, 128, 144)
  else if v < 245 then some (3, v - 240, 128, 192)
  else none

/-- The UTF-8 validation automaton, one byte per step: `pending`
continuation bytes are still expected, carrying partial code point `code`
and admissible range `[lo, hi)` for the next byte. -/
def utf8Run : Nat → Nat → Nat → Nat → List Nat → Option (List Char)
  | 0, _, _, _, [] => some []
  | _ + 1, _, _, _, [] => none
  | 0, _, _, _, v :: rest =>
    if v < 128 then (utf8Run 0 0 0 0 rest).map (fun cs => Char.ofNat v :: cs)
    else
      match utf8LeadInfo v with
      | some (pending, code, lo, hi) => utf8Run pending code lo hi rest
      | none => none
  | pending + 1, code, lo, hi, v :: rest =>
    if lo ≤ v ∧ v < hi then
      if pending = 0 then
        (utf8Run 0 0 0 0 rest).map
          (fun cs => Char.ofNat (code * 64 + (v - 128)) :: cs)
      else utf8Run pending (code * 64 + (v - 128)) 128 192 rest
    else none

/-- `std::str::from_utf8`: strict UTF-8 decoding; `none` models
`Utf8Error`. -/
def utf8Decode (l : List Nat) : Option (List Char) :=
  utf8Run 0 0 0 0 l

/-! ## Wire-code enums (`splice_command/mod.rs`, `splice_descriptor/mod.rs`,
`splice_descriptor/segmentation_descriptor.rs`, `splice_info_section.rs`,
`atsc.rs`) -/

/-- `SpliceCommandType` (`splice_command/mod.rs`). -/
inductive SpliceCommandType where
  | spliceNull
  | spliceSchedule
  | spliceInsert
  | timeSignal
  | bandwidthReservation
  | privateCommand
deriving DecidableEq

/-- `SpliceCommandType::value`. -/
def SpliceCommandType.value : SpliceCommandType → Nat
  | .spliceNull => 0x00
  | .spliceSchedule => 0x04
  | .spliceInsert => 0x05
  | .timeSignal => 0x06
  | .bandwidthReservation => 0x07
  | .privateCommand => 0xff

/-- `SpliceDescriptorTag` (`splice_descriptor/mod.rs`). -/
inductive SpliceDescriptorTag where
  | availDescriptor
  | dtmfDescriptor
  | segmentationDescriptor
  | timeDescriptor
  | audioDescriptor
deriving DecidableEq

/-- `SpliceDescriptorTag::value`. -/
def SpliceDescriptorTag.value : SpliceDescriptorTag → Nat
  | .availDescriptor => 0x00
  | .dtmfDescriptor => 0x01
  | .segmentationDescriptor => 0x02
  | .timeDescriptor => 0x03
  | .audioDescriptor => 0x04

/-- `SegmentationTypeID` (`segmentation_descriptor.rs`). -/
inductive SegmentationTypeID where
  | notIndicated
  | contentIdentification
  | programStart
  | programEnd
  | programEarlyTermination
  | programBreakaway
  | programResumption
  | programRunoverPlanned
  | programRunoverUnplanned
  | programOverlapStart
  | programBlackoutOverride
  | programJoin
  | chapterStart
  | chapterEnd
  | breakStart
  | breakEnd
  | openingCreditStart
  | openingCreditEnd
  | closingCreditStart
  | closingCreditEnd
  | providerAdvertisementStart
  | providerAdvertisementEnd
  | distributorAdvertisementStart
  | distributorAdvertisementEnd
  | providerPlacementOpportunityStart
  | providerPlacementOpportunityEnd
  | distributorPlacementOpportunityStart
  | distributorPlacementOpportunityEnd
  | providerOverlayPlacementOpportunityStart
  | providerOverlayPlacementOpportunityEnd
  | distributorOverlayPlacementOpportunityStart
  | distributorOverlayPlacementOpportunityEnd
  | providerPromoStart
  | providerPromoEnd
  | distributorPromoStart
  | distributorPromoEnd
  | unscheduledEventStart
  | unscheduledEventEnd
  | alternateContentOpportunityStart
  | alternateContentOpportunityEnd
  | providerAdBlockStart
  | providerAdBlockEnd
  | distributorAdBlockStart
  | distributorAdBlockEnd
  | networkStart
  | networkEnd
deriving DecidableEq

/-- `SegmentationTypeID::value`. -/
def SegmentationTypeID.value : SegmentationTypeID → Nat
  | .notIndicated => 0x00
  | .contentIdentification => 0x01
  | .programStart => 0x10
  | .programEnd => 0x11
  | .programEarlyTermination => 0x12
  | .programBreakaway => 0x13
  | .programResumption => 0x14
  | .programRunoverPlanned => 0x15
  | .programRunoverUnplanned => 0x16
  | .programOverlapStart => 0x17
  | .programBlackoutOverride => 0x18
  | .programJoin => 0x19
  | .chapterStart => 0x20
  | .chapterEnd => 0x21
  | .breakStart => 0x22
  | .breakEnd => 0x23
  | .openingCreditStart => 0x24
  | .openingCreditEnd => 0x25
  | .closingCreditStart => 0x26
  | .closingCreditEnd => 0x27
  | .providerAdvertisementStart => 0x30
  | .providerAdvertisementEnd => 0x31
  | .distributorAdvertisementStart => 0x32
  | .distributorAdvertisementEnd => 0x33
  | .providerPlacementOpportunityStart => 0x34
  | .providerPlacementOpportunityEnd => 0x35
  | .distributorPlacementOpportunityStart => 0x36
  | .distributorPlacementOpportunityEnd => 0x37
  | .providerOverlayPlacementOpportunityStart => 0x38
  | .providerOverlayPlacementOpportunityEnd => 0x39
  | .distributorOverlayPlacementOpportunityStart => 0x3A
  | .distributorOverlayPlacementOpportunityEnd => 0x3B
  | .providerPromoStart => 0x3C
  | .providerPromoEnd => 0x3D
  | .distributorPromoStart => 0x3E
  | .distributorPromoEnd => 0x3F
  | .unscheduledEventStart => 0x40
  | .unscheduledEventEnd => 0x41
  | .alternateContentOpportunityStart => 0x42
  | .alternateContentOpportunityEnd => 0x43
  | .providerAdBlockStart => 0x44
  | .providerAdBlockEnd => 0x45
  | .distributorAdBlockStart => 0x46
  | .distributorAdBlockEnd => 0x47
  | .networkStart => 0x50
  | .networkEnd => 0x51

/-- `SegmentationUPIDType` (`segmentation_descriptor.rs`). -/
inductive SegmentationUPIDType where
  | notUsed
  | userDefined
  | isci
  | adID
  | umid
  | deprecatedISAN
  | isan
  | tid
  | ti
  | adi
  | eidr
  | atscContentIdentifier
  | mpu
  | mid
  | adsInformation
  | uri
  | uuid
deriving DecidableEq

/-- `SegmentationUPIDType::value`. -/
def SegmentationUPIDType.value : SegmentationUPIDType → Nat
  | .notUsed => 0x00
  | .userDefined => 0x01
  | .isci => 0x02
  | .adID => 0x03
  | .umid => 0x04
  | .deprecatedISAN => 0x05
  | .isan => 0x06
  | .tid => 0x07
  | .ti => 0x08
  | .adi => 0x09
  | .eidr => 0x0A
  | .atscContentIdentifier => 0x0B
  | .mpu => 0x0C
  | .mid => 0x0D
  | .adsInformation => 0x0E
  | .uri => 0x0F
  | .uuid => 0x10

/-- `SAPType` (`splice_info_section.rs`). -/
inductive SAPType where
  | type1
  | type2
  | type3
  | unspecified
deriving DecidableEq

/-- `SAPType::value` exactly as in the source: note that `Type3` and
`Unspecified` both map to raw `0x3`. -/
def SAPType.value : SAPType → Nat
  | .type1 => 0x0
  | .type2 => 0x1
  | .type3 => 0x3
  | .unspecified => 0x3

/-- `DeviceRestrictions` (`segmentation_descriptor.rs`). -/
inductive DeviceRestrictions where
  | restrictGroup0
  | restrictGroup1
  | restrictGroup2
  | none
deriving DecidableEq

/-- `DeviceRestrictions::value`. -/
def DeviceRestrictions.value : DeviceRestrictions → Nat
  | .restrictGroup0 => 0
  | .restrictGroup1 => 1
  | .restrictGroup2 => 2
  | .none => 3

/-- `TryFrom<u8> for DeviceRestrictions`, with the error collapsed to
`Option` (the caller immediately applies `unwrap_or(None)`). -/
def DeviceRestrictions.tryFrom (v : Nat) : Option DeviceRestrictions :=
  match v with
  | 0 => some .restrictGroup0
  | 1 => some .restrictGroup1
  | 2 => some .restrictGroup2
  | 3 => some .none
  | _ => Option.none

/-- `AudioCodingMode` (`atsc.rs`). -/
inductive AudioCodingMode where
  | oneAndOne
  | oneZero
  | twoZero
  | threeZero
  | twoOne
  | threeOne
  | twoTwo
  | threeTwo
deriving DecidableEq

/-- `BitStreamMode` (`atsc.rs`). -/
inductive BitStreamMode where
  | completeMain
  | musicAndEffects
  | visuallyImpaired
  | hearingImpaired
  | dialogue
  | commentary
  | emergeny
  | voiceOver
  | karaoke
deriving DecidableEq

/-- `EncryptionAlgorithm` (`splice_info_section.rs`). -/
inductive EncryptionAlgorithm where
  | noEncryption
  | desEcbMode
  | desCbcMode
  | tripleDes
  | userPrivate (value : Nat)
deriving DecidableEq

/-- `EncryptionAlgorithm::from`. -/
def EncryptionAlgorithm.from (value : Nat) : Option EncryptionAlgorithm :=
  if value = 0 then some .noEncryption
  else if value = 1 then some .desEcbMode
  else if value = 2 then some .desCbcMode
  else if value = 3 then some .tripleDes
  else if 4 ≤ value ∧ value ≤ 31 then none
  else if 32 ≤ value ∧ value ≤ 63 then some (.userPrivate value)
  else none

/-! ## Error model (`error.rs`) -/

/-- `ParseError` (`error.rs`).  The `Utf8Error` payload of
`Utf8ConversionError` is dropped (only its static description is kept), and
`DecodeHexError` keeps no payload: the hex decoder is outside the embedded
core and neither field is inspected by any claim. -/
inductive ParseError where
  | unexpectedEndOfData (expectedMinimumBitsLeft actualBitsLeft : Nat)
      (description : String)
  | decodeHexError
  | invalidSectionSyntaxIndicator
  | invalidPrivateIndicator
  | unrecognisedSpliceCommandType (value : Nat)
  | unrecognisedSegmentationUPIDType (value : Nat)
  | unexpectedSegmentationUPIDLength
      (declaredSegmentationUPIDLength expectedSegmentationUPIDLength : Nat)
      (segmentationUPIDType : SegmentationUPIDType)
  | invalidUUIDInSegmentationUPID (description : String)
  | invalidURLInSegmentationUPID (description : String)
  | unrecognisedSegmentationTypeID (value : Nat)
  | invalidSegmentationDescriptorIdentifier (value : Nat)
  | invalidATSCContentIdentifierInUPID (upidLength : Nat)
  | invalidMPUInSegmentationUPID (upidLength : Nat)
  | invalidBitStreamMode (bsmod : Nat) (acmod : Option Nat)
  | unrecognisedAudioCodingMode (value : Nat)
  | unrecognisedSpliceDescriptorTag (value : Nat)
  | encryptedMessageNotSupported
  | unexpectedSpliceCommandLength
      (declaredSpliceCommandLengthInBits actualSpliceCommandLengthInBits : Nat)
      (spliceCommandType : SpliceCommandType)
  | unexpectedDescriptorLoopLength
      (declaredDescriptorLoopLengthInBits actualDescriptorLoopLengthInBits : Nat)
  | unexpectedSpliceDescriptorLength
      (declaredSpliceDescriptorLengthInBits actualSpliceDescriptorLengthInBits : Nat)
      (spliceDescriptorTag : SpliceDescriptorTag)
  | utf8ConversionError (description : String)
deriving DecidableEq

/-- Failure modes of the embedded decoders: a Rust `Err(ParseError)`, a
panic (an `unwrap` of an exhausted bit read), or exhaustion of the fuel
that stands in for Rust's unbounded-but-terminating loops. -/
inductive PErr where
  | parse (e : ParseError)
  | fatal
  | outOfFuel
deriving DecidableEq

/-- `TryFrom<u8> for SpliceCommandType`. -/
def SpliceCommandType.tryFrom (value : Nat) : Except PErr SpliceCommandType :=
  match value with
  | 0x00 => .ok .spliceNull
  | 0x04 => .ok .spliceSchedule
  | 0x05 => .ok .spliceInsert
  | 0x06 => .ok .timeSignal
  | 0x07 => .ok .bandwidthReservation
  | 0xff => .ok .privateCommand
  | _ => .error (.parse (.unrecognisedSpliceCommandType value))

/-- `TryFrom<u8> for SpliceDescriptorTag`. -/
def SpliceDescriptorTag.tryFrom (value : Nat) : Except PErr SpliceDescriptorTag :=
  match value with
  | 0x00 => .ok .availDescriptor
  | 0x01 => .ok .dtmfDescriptor
  | 0x02 => .ok .segmentationDescriptor
  | 0x03 => .ok .timeDescriptor
  | 0x04 => .ok .audioDescriptor
  | _ => .error (.parse (.unrecognisedSpliceDescriptorTag value))

/-- `TryFrom<u8> for SegmentationTypeID`. -/
def SegmentationTypeID.tryFrom (value : Nat) : Except PErr SegmentationTypeID :=
  match value with
  | 0x00 => .ok .notIndicated
  | 0x01 => .ok .contentIdentification
  | 0x10 => .ok .programStart
  | 0x11 => .ok .programEnd
  | 0x12 => .ok .programEarlyTermination
  | 0x13 => .ok .programBreakaway
  | 0x14 => .ok .programResumption
  | 0x15 => .ok .programRunoverPlanned
  | 0x16 => .ok .programRunoverUnplanned
  | 0x17 => .ok .programOverlapStart
  | 0x18 => .ok .programBlackoutOverride
  | 0x19 => .ok .programJoin
  | 0x20 => .ok .chapterStart
  | 0x21 => .ok .chapterEnd
  | 0x22 => .ok .breakStart
  | 0x23 => .ok .breakEnd
  | 0x24 => .ok .openingCreditStart
  | 0x25 => .ok .openingCreditEnd
  | 0x26 => .ok .closingCreditStart
  | 0x27 => .ok .closingCreditEnd
  | 0x30 => .ok .providerAdvertisementStart
  | 0x31 => .ok .providerAdvertisementEnd
  | 0x32 => .ok .distributorAdvertisementStart
  | 0x33 => .ok .distributorAdvertisementEnd
  | 0x34 => .ok .providerPlacementOpportunityStart
  | 0x35 => .ok .providerPlacementOpportunityEnd
  | 0x36 => .ok .distributorPlacementOpportunityStart
  | 0x37 => .ok .distributorPlacementOpportunityEnd
  | 0x38 => .ok .providerOverlayPlacementOpportunityStart
  | 0x39 => .ok .providerOverlayPlacementOpportunityEnd
  | 0x3A => .ok .distributorOverlayPlacementOpportunityStart
  | 0x3B => .ok .distributorOverlayPlacementOpportunityEnd
  | 0x3C => .ok .providerPromoStart
  | 0x3D => .ok .providerPromoEnd
  | 0x3E => .ok .distributorPromoStart
  | 0x3F => .ok .distributorPromoEnd
  | 0x40 => .ok .unscheduledEventStart
  | 0x41 => .ok .unscheduledEventEnd
  | 0x42 => .ok .alternateContentOpportunityStart
  | 0x43 => .ok .alternateContentOpportunityEnd
  | 0x44 => .ok .providerAdBlockStart
  | 0x45 => .ok .providerAdBlockEnd
  | 0x46 => .ok .distributorAdBlockStart
  | 0x47 => .ok .distributorAdBlockEnd
  | 0x50 => .ok .networkStart
  | 0x51 => .ok .networkEnd
  | _ => .error (.parse (.unrecognisedSegmentationTypeID value))

/-- `TryFrom<u8> for SegmentationUPIDType`. -/
def SegmentationUPIDType.tryFrom (value : Nat) : Except PErr SegmentationUPIDType :=
  match value with
  | 0x00 => .ok .notUsed
  | 0x01 => .ok .userDefined
  | 0x02 => .ok .isci
  | 0x03 => .ok .adID
  | 0x04 => .ok .umid
  | 0x05 => .ok .deprecatedISAN
  | 0x06 => .ok .isan
  | 0x07 => .ok .tid
  | 0x08 => .ok .ti
  | 0x09 => .ok .adi
  | 0x0A => .ok .eidr
  | 0x0B => .ok .atscContentIdentifier
  | 0x0C => .ok .mpu
  | 0x0D => .ok .mid
  | 0x0E => .ok .adsInformation
  | 0x0F => .ok .uri
  | 0x10 => .ok .uuid
  | _ => .error (.parse (.unrecognisedSegmentationUPIDType value))

/-- `TryFrom<u8> for AudioCodingMode` (`atsc.rs`). -/
def AudioCodingMode.tryFrom (value : Nat) : Except PErr AudioCodingMode :=
  match value with
  | 0 => .ok .oneAndOne
  | 1 => .ok .oneZero
  | 2 => .ok .twoZero
  | 3 => .ok .threeZero
  | 4 => .ok .twoOne
  | 5 => .ok .threeOne
  | 6 => .ok .twoTwo
  | 7 => .ok .threeTwo
  | _ => .error (.parse (.unrecognisedAudioCodingMode value))

/-- `BitStreamMode::try_from` (`atsc.rs`). -/
def BitStreamMode.tryFrom (bsmod : Nat) (acmod : Option Nat) :
    Except PErr BitStreamMode :=
  match bsmod with
  | 0 => .ok .completeMain
  | 1 => .ok .musicAndEffects
  | 2 => .ok .visuallyImpaired
  | 3 => .ok .hearingImpaired
  | 4 => .ok .dialogue
  | 5 => .ok .commentary
  | 6 => .ok .emergeny
  | 7 =>
    match acmod with
    | some 1 => .ok .voiceOver
    | some 2 | some 3 | some 4 | some 5 | some 6 | some 7 => .ok .karaoke
    | _ => .error (.parse (.invalidBitStreamMode bsmod acmod))
  | _ => .error (.parse (.invalidBitStreamMode bsmod acmod))

/-! ## Bit reader (`bit_reader.rs`) -/

/-- `Bits` (`bit_reader.rs`): the big-endian reader state plus the sideband
list of non-fatal errors. -/
structure Bits where
  data : List Bool
  nonFatalErrors : List ParseError
deriving DecidableEq

/-- `Bits::bits_remaining`. -/
def Bits.bitsRemaining (b : Bits) : Nat :=
  b.data.length

/-- `read_bits(n).unwrap()`: `n` bits MSB-first; a read past the end of the
data is the panic `PErr.fatal`. -/
def Bits.readBits (n : Nat) (b : Bits) : Except PErr (Nat × Bits) :=
  if b.data.length < n then .error .fatal
  else .ok (bitsVal (b.data.take n), ⟨b.data.drop n, b.nonFatalErrors⟩)

/-- `Bits::u8` (`read_bits(n).unwrap() as u8`). -/
def Bits.u8 (n : Nat) (b : Bits) : Except PErr (Nat × Bits) :=
  (b.readBits n).map (fun r => (r.1 % 2 ^ 8, r.2))

/-- `Bits::u16`. -/
def Bits.u16 (n : Nat) (b : Bits) : Except PErr (Nat × Bits) :=
  (b.readBits n).map (fun r => (r.1 % 2 ^ 16, r.2))

/-- `Bits::u32`. -/
def Bits.u32 (n : Nat) (b : Bits) : Except PErr (Nat × Bits) :=
  (b.readBits n).map (fun r => (r.1 % 2 ^ 32, r.2))

/-- `Bits::u64`; every call site has `n ≤ 64`, where `read_bits` cannot
truncate. -/
def Bits.u64 (n : Nat) (b : Bits) : Except PErr (Nat × Bits) :=
  b.readBits n

/-- `Bits::bool` (`u8(1) == 1`). -/
def Bits.bool (b : Bits) : Except PErr (Bool × Bits) :=
  (b.u8 1).map (fun r => (r.1 == 1, r.2))

/-- `Bits::byte` (`u8(8)`). -/
def Bits.byte (b : Bits) : Except PErr (Nat × Bits) :=
  b.u8 8

/-- `Bits::consume`: discarding more bits than remain is a programming
error in the `bitter` lookahead discipline, modelled as the panic. -/
def Bits.consume (n : Nat) (b : Bits) : Except PErr (Unit × Bits) :=
  if b.data.length < n then .error .fatal
  else .ok ((), ⟨b.data.drop n, b.nonFatalErrors⟩)

/-- `Bits::bytes`: `read_bytes` into a zero-initialised buffer with the
`bool` result discarded.  On insufficient data the buffer and reader are
untouched, so the caller receives `n` zero bytes. -/
def Bits.bytes (n : Nat) (b : Bits) : List Nat × Bits :=
  if b.data.length < 8 * n then (List.replicate n 0, b)
  else
    ((List.range n).map (fun i => bitsVal ((b.data.drop (8 * i)).take 8)),
      ⟨b.data.drop (8 * n), b.nonFatalErrors⟩)

/-- `Bits::string`: `bytes(n)` followed by UTF-8 validation. -/
def Bits.string (n : Nat) (errorDescription : String) (b : Bits) :
    Except PErr (String × Bits) :=
  match utf8Decode (b.bytes n).1 with
  | some cs => .ok (⟨cs⟩, (b.bytes n).2)
  | none => .error (.parse (.utf8ConversionError errorDescription))

/-- `Bits::validate`. -/
def Bits.validate (expectedMinimumBitsLeft : Nat) (description : String)
    (b : Bits) : Except PErr (Unit × Bits) :=
  if b.bitsRemaining < expectedMinimumBitsLeft then
    .error (.parse (.unexpectedEndOfData expectedMinimumBitsLeft
      b.bitsRemaining description))
  else .ok ((), b)

/-- `Bits::push_non_fatal_error`. -/
def Bits.pushNonFatalError (e : ParseError) (b : Bits) : Bits :=
  ⟨b.data, b.nonFatalErrors ++ [e]⟩

/-! ## `Except` plumbing lemmas -/

theorem exceptBind_ok {α β : Type} {x : Except PErr α} {f : α → Except PErr β}
    {r : β} : x >>= f = .ok r ↔ ∃ a, x = .ok a ∧ f a = .ok r := by
  cases x <;> simp [Bind.bind, Except.bind]

theorem exceptBind_error {α β : Type} {x : Except PErr α}
    {f : α → Except PErr β} {e : PErr} :
    x >>= f = .error e ↔ x = .error e ∨ ∃ a, x = .ok a ∧ f a = .error e := by
  cases x <;> simp [Bind.bind, Except.bind]

theorem exceptPure_def {α : Type} (a : α) : (pure a : Except PErr α) = .ok a :=
  rfl

theorem exceptMap_ok {α β : Type} {x : Except PErr α} {f : α → β} {r : β} :
    x.map f = .ok r ↔ ∃ a, x = .ok a ∧ f a = r := by
  cases x <;> simp [Except.map]

theorem exceptMap_error {α β : Type} {x : Except PErr α} {f : α → β}
    {e : PErr} : x.map f = .error e ↔ x = .error e := by
  cases x <;> simp [Except.map]

/-! ## Descriptor length frame (`splice_descriptor/mod.rs`) -/

/-- `DescriptorLengthExpectation`; the `isize` fields are `Int`. -/
structure DescriptorLengthExpectation where
  descriptorBitsLength : Nat
  bitsRemainingBeforeDescriptor : Int
  expectedBitsRemainingAfterDescriptor : Int
deriving DecidableEq

/-- `DescriptorLengthExpectation::try_from`. -/
def DescriptorLengthExpectation.tryFrom (b : Bits)
    (validationDescription : String) :
    Except PErr (DescriptorLengthExpectation × Bits) := do
  let (len8, b) ← b.u32 8
  let descriptorBitsLength := len8 * 8
  let (_, b) ← b.validate descriptorBitsLength validationDescription
  let before : Int := (b.bitsRemaining : Int)
  .ok (⟨descriptorBitsLength, before, before - (descriptorBitsLength : Int)⟩, b)

/-- `DescriptorLengthExpectation::validate_non_fatal`. -/
def DescriptorLengthExpectation.validateNonFatal
    (e : DescriptorLengthExpectation) (b : Bits)
    (spliceDescriptorTag : SpliceDescriptorTag) : Bits :=
  if e.expectedBitsRemainingAfterDescriptor ≠ (b.bitsRemaining : Int) then
    b.pushNonFatalError (.unexpectedSpliceDescriptorLength
      e.descriptorBitsLength
      (e.bitsRemainingBeforeDescriptor.toNat - b.bitsRemaining)
      spliceDescriptorTag)
  else b

/-! ## ISAN/EIDR checked hex (`segmentation_descriptor.rs`) -/

/-- `CHAR_ARRAY`: the base-36 alphabet `0-9A-Z`. -/
def charArray : List Char :=
  ['0', '1', '2', '3', '4', '5', '6', '7', '8', '9', 'A', 'B', 'C', 'D',
   'E', 'F', 'G', 'H', 'I', 'J', 'K', 'L', 'M', 'N', 'O', 'P', 'Q', 'R',
   'S', 'T', 'U', 'V', 'W', 'X', 'Y', 'Z']

/-- One step of the fold inside `check_char`. -/
def checkCharFoldStep (adjustedSum d : Nat) : Nat :=
  let sum := adjustedSum + d
  let sum := if sum > 36 then sum - 36 else sum
  let product := sum * 2
  if product ≥ 37 then product - 37 else product

/-- `check_char`: the ISAN v2 check character of the hex groups emitted so
far.  The `expect` on a non-hex character and the `unwrap` of the alphabet
lookup are the panic. -/
def checkChar (isan : List String) : Except PErr Char :=
  match (((isan.filter (fun s => s.data.length > 1)).map
      String.data).flatten).mapM hexDigitVal with
  | none => .error .fatal
  | some ds =>
    if ds.foldl checkCharFoldStep 36 = 1 then .ok '0'
    else
      match charArray.get? (37 - ds.foldl checkCharFoldStep 36) with
      | some c => .ok c
      | none => .error .fatal

/-- `HyphenSeparatedCheckedHexVersion`. -/
inductive HyphenSeparatedCheckedHexVersion where
  | deprecatedISAN
  | versionedISAN
  | eidr
deriving DecidableEq

/-- The `check_indices` of `HyphenSeparatedCheckedHex::read`. -/
def HyphenSeparatedCheckedHexVersion.checkIndices :
    HyphenSeparatedCheckedHexVersion → List Nat
  | .deprecatedISAN => [4]
  | .versionedISAN => [4, 7]
  | .eidr => [5]

/-- The `index_max` of `HyphenSeparatedCheckedHex::read`. -/
def HyphenSeparatedCheckedHexVersion.indexMax :
    HyphenSeparatedCheckedHexVersion → Nat
  | .deprecatedISAN => 4
  | .versionedISAN => 7
  | .eidr => 5

/-- The `for i in 0..=index_max` loop of `HyphenSeparatedCheckedHex::read`,
unrolled by remaining iteration count. -/
def hschSectionsLoop (checkIndices : List Nat) :
    Nat → Nat → List String → Bits → Except PErr (List String × Bits)
  | 0, _, sections, b => .ok (sections, b)
  | count + 1, i, sections, b =>
    if checkIndices.contains i then do
      let c ← checkChar sections
      hschSectionsLoop checkIndices count (i + 1) (sections ++ [c.toString]) b
    else do
      let (v, b) ← b.u16 16
      hschSectionsLoop checkIndices count (i + 1)
        (sections ++ [asciiUpper ⟨hexPadChars 4 v⟩]) b

/-- The `sections` vector built by `HyphenSeparatedCheckedHex::read`. -/
def HyphenSeparatedCheckedHexVersion.sections
    (version : HyphenSeparatedCheckedHexVersion) (b : Bits) :
    Except PErr (List String × Bits) :=
  hschSectionsLoop version.checkIndices (version.indexMax + 1) 0 [] b

/-- `HyphenSeparatedCheckedHex::read`: the sections joined with `-`. -/
def HyphenSeparatedCheckedHexVersion.read
    (version : HyphenSeparatedCheckedHexVersion) (b : Bits) :
    Except PErr (String × Bits) :=
  (version.sections b).map (fun r => (String.intercalate ("-") r.1, r.2))

/-! ## Segmentation UPID (`segmentation_descriptor.rs`, `atsc.rs`) -/

/-- `ATSCContentIdentifier` (`atsc.rs`). -/
structure ATSCContentIdentifier where
  tsid : Nat
  endOfDay : Nat
  uniqueFor : Nat
  contentId : String
deriving DecidableEq

/-- `ATSCContentIdentifier::try_from`. -/
def ATSCContentIdentifier.tryFrom (b : Bits) (upidLength : Nat) :
    Except PErr (ATSCContentIdentifier × Bits) :=
  if upidLength < 4 then
    .error (.parse (.invalidATSCContentIdentifierInUPID upidLength))
  else do
    let (tsid, b) ← b.u16 16
    let (_, b) ← b.consume 2
    let (endOfDay, b) ← b.u8 5
    let (uniqueFor, b) ← b.u16 9
    let (contentId, b) ← b.string (upidLength - 4)
      ("Reading content_id for ATSCContentIdentifier")
    .ok (⟨tsid, endOfDay, uniqueFor, contentId⟩, b)

/-- `ManagedPrivateUPID`. -/
structure ManagedPrivateUPID where
  formatSpecifier : String
  privateData : List Nat
deriving DecidableEq

/-- The byte-at-a-time loop of `ManagedPrivateUPID::try_from`. -/
def readBytesLoop : Nat → Bits → Except PErr (List Nat × Bits)
  | 0, b => .ok ([], b)
  | n + 1, b => do
    let (v, b) ← b.byte
    let (rest, b) ← readBytesLoop n b
    .ok (v :: rest, b)

/-- `ManagedPrivateUPID::try_from`. -/
def ManagedPrivateUPID.tryFrom (b : Bits) (upidLength : Nat) :
    Except PErr (ManagedPrivateUPID × Bits) :=
  if upidLength < 4 then
    .error (.parse (.invalidMPUInSegmentationUPID upidLength))
  else do
    let (formatSpecifier, b) ← b.string 4 ("ManagedPrivateUPID")
    let (privateData, b) ← readBytesLoop (upidLength - 4) b
    .ok (⟨formatSpecifier, privateData⟩, b)

/-- `SegmentationUPID`. -/
inductive SegmentationUPID where
  | notUsed
  | userDefined (s : String)
  | isci (s : String)
  | adID (s : String)
  | umid (s : String)
  | deprecatedISAN (s : String)
  | isan (s : String)
  | tid (s : String)
  | ti (s : String)
  | adi (s : String)
  | eidr (s : String)
  | atscContentIdentifier (a : ATSCContentIdentifier)
  | mpu (m : ManagedPrivateUPID)
  | mid (upids : List SegmentationUPID)
  | adsInformation (s : String)
  | uri (s : String)
  | uuid (s : String)

/-- The free function `validate` of `segmentation_descriptor.rs`. -/
def validate (upidLength expectedLength : Nat)
    (upidType : SegmentationUPIDType) : Except PErr Unit :=
  if upidLength ≠ expectedLength then
    .error (.parse (.unexpectedSegmentationUPIDLength upidLength
      expectedLength upidType))
  else .ok ()

/-- The 8-iteration `u32` loop of the UMID branch. -/
def umidLoop : Nat → Bits → Except PErr (List String × Bits)
  | 0, b => .ok ([], b)
  | n + 1, b => do
    let (v, b) ← b.u32 32
    let (rest, b) ← umidLoop n b
    .ok (asciiUpper ⟨hexPadChars 8 v⟩ :: rest, b)

mutual

/-- `SegmentationUPID::try_from`, with fuel standing in for the
terminating recursion through nested MID lists. -/
def SegmentationUPID.tryFromFuel : Nat → Bits → Except PErr (SegmentationUPID × Bits)
  | 0, _ => .error .outOfFuel
  | fuel + 1, b => do
    let (upidTypeRawValue, b) ← b.byte
    let upidType ← SegmentationUPIDType.tryFrom upidTypeRawValue
    let (upidLength, b) ← b.byte
    let (_, b) ← b.validate (upidLength * 8) ("SegmentationUPID; reading loop")
    SegmentationUPID.tryFromWithTypeFuel fuel upidType upidLength b

/-- `SegmentationUPID::try_from_with_type`.  The fuel pattern-match keeps
the mutual recursion structural; the wrapper supplies enough fuel that the
zero case is unreachable. -/
def SegmentationUPID.tryFromWithTypeFuel :
    Nat → SegmentationUPIDType → Nat → Bits →
      Except PErr (SegmentationUPID × Bits)
  | 0, _, _, _ => .error .outOfFuel
  | fuel + 1, upidType, upidLength, b =>
  match upidType with
  | .notUsed => do
    let _ ← validate upidLength 0 .notUsed
    .ok (.notUsed, b)
  | .userDefined => do
    let (s, b) ← b.string upidLength ("SegmentationUPIDType::UserDefined")
    .ok (.userDefined s, b)
  | .isci => do
    let _ ← validate upidLength 8 .isci
    let (s, b) ← b.string upidLength ("SegmentationUPIDType::ISCI")
    .ok (.isci s, b)
  | .adID => do
    let _ ← validate upidLength 12 .adID
    let (s, b) ← b.string upidLength ("SegmentationUPIDType::AdID")
    .ok (.adID s, b)
  | .umid => do
    let _ ← validate upidLength 32 .umid
    let (groups, b) ← umidLoop 8 b
    .ok (.umid (String.intercalate (".") groups), b)
  | .deprecatedISAN => do
    let _ ← validate upidLength 8 .deprecatedISAN
    let (s, b) ← HyphenSeparatedCheckedHexVersion.deprecatedISAN.read b
    .ok (.deprecatedISAN s, b)
  | .isan => do
    let _ ← validate upidLength 12 .isan
    let (s, b) ← HyphenSeparatedCheckedHexVersion.versionedISAN.read b
    .ok (.isan s, b)
  | .tid => do
    let _ ← validate upidLength 12 .tid
    let (s, b) ← b.string upidLength ("SegmentationUPIDType::TID")
    .ok (.tid s, b)
  | .ti => do
    let _ ← validate upidLength 8 .ti
    let r := b.bytes 8
    .ok (.ti ("0x" ++ asciiUpper ⟨(r.1.map (hexPadChars 2)).flatten⟩), r.2)
  | .adi => do
    let (s, b) ← b.string upidLength ("SegmentationUPIDType::ADI")
    .ok (.adi s, b)
  | .eidr => do
    let _ ← validate upidLength 12 .eidr
    let (v, b) ← b.u16 16
    let decimal := "10." ++ toString v
    let (hexComponents, b) ← HyphenSeparatedCheckedHexVersion.eidr.read b
    .ok (.eidr (decimal ++ "/" ++ hexComponents), b)
  | .atscContentIdentifier => do
    let (a, b) ← ATSCContentIdentifier.tryFrom b upidLength
    .ok (.atscContentIdentifier a, b)
  | .mpu => do
    let (m, b) ← ManagedPrivateUPID.tryFrom b upidLength
    .ok (.mpu m, b)
  | .mid => do
    let bitsRemainingAfterUpid := b.bitsRemaining - upidLength * 8
    let (upids, b) ← SegmentationUPID.midLoopFuel fuel bitsRemainingAfterUpid b
    .ok (.mid upids, b)
  | .adsInformation => do
    let (s, b) ← b.string upidLength ("SegmentationUPIDType::ADSInformation")
    .ok (.adsInformation s, b)
  | .uri => do
    let (s, b) ← b.string upidLength ("SegmentationUPIDType::URI")
    .ok (.uri s, b)
  | .uuid => do
    let _ ← validate upidLength 16 .uuid
    let (s, b) ← b.string 16 ("SegmentationUPIDType::UUID")
    .ok (.uuid s, b)

/-- The `while bits.bits_remaining() > bits_remaining_after_upid` loop of
the MID branch. -/
def SegmentationUPID.midLoopFuel :
    Nat → Nat → Bits → Except PErr (List SegmentationUPID × Bits)
  | 0, _, _ => .error .outOfFuel
  | fuel + 1, target, b =>
    if b.bitsRemaining > target then do
      let (u, b2) ← SegmentationUPID.tryFromFuel fuel b
      let (rest, b3) ← SegmentationUPID.midLoopFuel fuel target b2
      .ok (u :: rest, b3)
    else .ok ([], b)

end

/-- `SegmentationUPID::try_from`, supplied with ample fuel: every cycle
through the three fueled functions consumes at least two bytes of input,
so `3 * bitsRemaining + 3` levels can never be exhausted on any path that
the Rust code completes. -/
def SegmentationUPID.tryFrom (b : Bits) : Except PErr (SegmentationUPID × Bits) :=
  SegmentationUPID.tryFromFuel (3 * b.bitsRemaining + 3) b

/-! ## Segmentation descriptor (`segmentation_descriptor.rs`) -/

/-- `SubSegment`. -/
structure SubSegment where
  subSegmentNum : Nat
  subSegmentsExpected : Nat
deriving DecidableEq

/-- `ComponentSegmentation`. -/
structure ComponentSegmentation where
  componentTag : Nat
  ptsOffset : Nat
deriving DecidableEq

/-- `DeliveryRestrictions`. -/
structure DeliveryRestrictions where
  webDeliveryAllowed : Bool
  noRegionalBlackout : Bool
  archiveAllowed : Bool
  deviceRestrictions : DeviceRestrictions
deriving DecidableEq

/-- `ScheduledEvent` of `segmentation_descriptor.rs`. -/
structure ScheduledEvent where
  deliveryRestrictions : Option DeliveryRestrictions
  componentSegments : Option (List ComponentSegmentation)
  segmentationDuration : Option Nat
  segmentationUpid : SegmentationUPID
  segmentationTypeId : SegmentationTypeID
  segmentNum : Nat
  segmentsExpected : Nat
  subSegment : Option SubSegment

/-- `SegmentationDescriptor`. -/
structure SegmentationDescriptor where
  identifier : Nat
  eventId : Nat
  scheduledEvent : Option ScheduledEvent

/-- `SubSegment::try_from`.  The two `bits.byte()` calls happen only under
the guard `16 ≤ bits_left`, where `read_bits(8).unwrap()` cannot panic, so
the function is total exactly as in the source. -/
def SubSegment.tryFrom (b : Bits) (segmentationTypeId : SegmentationTypeID)
    (bitsLeftAfterDescriptor : Nat) : Option SubSegment × Bits :=
  let bitsLeft := b.bitsRemaining
  if bitsLeft < 16 then (none, b)
  else if bitsLeft - 16 < bitsLeftAfterDescriptor then (none, b)
  else
    match segmentationTypeId with
    | .providerPlacementOpportunityStart
    | .distributorPlacementOpportunityStart
    | .providerOverlayPlacementOpportunityStart
    | .distributorOverlayPlacementOpportunityStart =>
      (some ⟨bitsVal (b.data.take 8), bitsVal ((b.data.drop 8).take 8)⟩,
        ⟨b.data.drop 16, b.nonFatalErrors⟩)
    | _ => (none, b)

/-- The component loop of `ScheduledEvent::try_from`. -/
def componentSegLoop : Nat → Bits → Except PErr (List ComponentSegmentation × Bits)
  | 0, b => .ok ([], b)
  | n + 1, b => do
    let (componentTag, b) ← b.byte
    let (_, b) ← b.consume 7
    let (ptsOffset, b) ← b.u64 33
    let (rest, b) ← componentSegLoop n b
    .ok (⟨componentTag, ptsOffset⟩ :: rest, b)

/-- The delivery-restriction branch of `ScheduledEvent::try_from` (the
`if delivery_not_restricted_flag` block), split out so that the main
function is a linear chain of reads. -/
def readDeliveryRestrictions (deliveryNotRestrictedFlag : Bool) (b : Bits) :
    Except PErr (Option DeliveryRestrictions × Bits) :=
  if deliveryNotRestrictedFlag then do
    let (_, b) ← b.consume 5
    pure ((none : Option DeliveryRestrictions), b)
  else do
    let (webDeliveryAllowed, b) ← b.bool
    let (noRegionalBlackout, b) ← b.bool
    let (archiveAllowed, b) ← b.bool
    let (drRaw, b) ← b.u8 2
    pure (some (⟨webDeliveryAllowed, noRegionalBlackout, archiveAllowed,
      (DeviceRestrictions.tryFrom drRaw).getD .none⟩ : DeliveryRestrictions),
      b)

/-- The component branch of `ScheduledEvent::try_from` (the
`if !program_segmentation_flag` block). -/
def readComponentSegments (programSegmentationFlag : Bool) (b : Bits) :
    Except PErr (Option (List ComponentSegmentation) × Bits) :=
  if programSegmentationFlag then
    pure ((none : Option (List ComponentSegmentation)), b)
  else do
    let (componentCount, b) ← b.byte
    let (components, b) ← componentSegLoop componentCount b
    pure (some components, b)

/-- The duration branch of `ScheduledEvent::try_from` (the
`if segmentation_duration_flag` block). -/
def readSegmentationDuration (segmentationDurationFlag : Bool) (b : Bits) :
    Except PErr (Option Nat × Bits) :=
  if segmentationDurationFlag then do
    let (v, b) ← b.u64 40
    pure (some v, b)
  else pure ((none : Option Nat), b)

/-- `ScheduledEvent::try_from` of `segmentation_descriptor.rs`. -/
def ScheduledEvent.tryFrom (b : Bits) (bitsLeftAfterDescriptor : Nat) :
    Except PErr (ScheduledEvent × Bits) := do
  let (programSegmentationFlag, b) ← b.bool
  let (segmentationDurationFlag, b) ← b.bool
  let (deliveryNotRestrictedFlag, b) ← b.bool
  let (deliveryRestrictions, b) ← readDeliveryRestrictions
    deliveryNotRestrictedFlag b
  let (componentSegments, b) ← readComponentSegments
    programSegmentationFlag b
  let (segmentationDuration, b) ← readSegmentationDuration
    segmentationDurationFlag b
  let (segmentationUpid, b) ← SegmentationUPID.tryFrom b
  let (typeIdRaw, b) ← b.byte
  let segmentationTypeId ← SegmentationTypeID.tryFrom typeIdRaw
  let (segmentNum, b) ← b.byte
  let (segmentsExpected, b) ← b.byte
  let r := SubSegment.tryFrom b segmentationTypeId bitsLeftAfterDescriptor
  .ok (⟨deliveryRestrictions, componentSegments, segmentationDuration,
    segmentationUpid, segmentationTypeId, segmentNum, segmentsExpected,
    r.1⟩, r.2)

/-- The scheduled-event branch of `SegmentationDescriptor::try_from` (the
`if !segmentation_event_cancelled` block), split out so that the main
function is a linear chain of reads. -/
def readScheduledEvent (segmentationEventCancelled : Bool)
    (bitsLeftAfterDescriptor : Nat) (b : Bits) :
    Except PErr (Option ScheduledEvent × Bits) :=
  if segmentationEventCancelled then
    pure ((none : Option ScheduledEvent), b)
  else do
    let (ev, b) ← ScheduledEvent.tryFrom b bitsLeftAfterDescriptor
    pure (some ev, b)

/-- `SegmentationDescriptor::try_from`. -/
def SegmentationDescriptor.tryFrom (b : Bits) :
    Except PErr (SegmentationDescriptor × Bits) := do
  let (expectation, b) ← DescriptorLengthExpectation.tryFrom b
    ("SegmentationDescriptor")
  let (identifier, b) ← b.u32 32
  if identifier ≠ 1129661769 then
    .error (.parse (.invalidSegmentationDescriptorIdentifier identifier))
  else do
    let (eventId, b) ← b.u32 32
    let (segmentationEventCancelled, b) ← b.bool
    let (_, b) ← b.consume 7
    let (scheduledEvent, b) ← readScheduledEvent segmentationEventCancelled
      expectation.expectedBitsRemainingAfterDescriptor.toNat b
    let b := expectation.validateNonFatal b .segmentationDescriptor
    .ok (⟨identifier, eventId, scheduledEvent⟩, b)

/-! ## Other descriptors (`avail_descriptor.rs`, `dtmf_descriptor.rs`,
`time_descriptor.rs`, `audio_descriptor.rs`) -/

/-- `AvailDescriptor`. -/
structure AvailDescriptor where
  identifier : Nat
  providerAvailId : Nat
deriving DecidableEq

/-- `AvailDescriptor::try_from`. -/
def AvailDescriptor.tryFrom (b : Bits) : Except PErr (AvailDescriptor × Bits) := do
  let (expectation, b) ← DescriptorLengthExpectation.tryFrom b
    ("AvailDescriptor")
  let (identifier, b) ← b.u32 32
  let (providerAvailId, b) ← b.u32 32
  let b := expectation.validateNonFatal b .availDescriptor
  .ok (⟨identifier, providerAvailId⟩, b)

/-- `DTMFDescriptor`. -/
structure DTMFDescriptor where
  identifier : Nat
  preroll : Nat
  dtmfChars : String
deriving DecidableEq

/-- `DTMFDescriptor::try_from`. -/
def DTMFDescriptor.tryFrom (b : Bits) : Except PErr (DTMFDescriptor × Bits) := do
  let (expectation, b) ← DescriptorLengthExpectation.tryFrom b
    ("DTMFDescriptor")
  let (identifier, b) ← b.u32 32
  let (preroll, b) ← b.byte
  let (dtmfCount, b) ← b.u8 3
  let (_, b) ← b.consume 5
  let (dtmfChars, b) ← b.string dtmfCount ("DTMFDescriptor dtmf_chars")
  let b := expectation.validateNonFatal b .dtmfDescriptor
  .ok (⟨identifier, preroll, dtmfChars⟩, b)

/-- `TimeDescriptor`. -/
structure TimeDescriptor where
  identifier : Nat
  taiSeconds : Nat
  taiNs : Nat
  utcOffset : Nat
deriving DecidableEq

/-- `TimeDescriptor::try_from`. -/
def TimeDescriptor.tryFrom (b : Bits) : Except PErr (TimeDescriptor × Bits) := do
  let (expectation, b) ← DescriptorLengthExpectation.tryFrom b
    ("TimeDescriptor")
  let (identifier, b) ← b.u32 32
  let (taiSeconds, b) ← b.u64 48
  let (taiNs, b) ← b.u32 32
  let (utcOffset, b) ← b.u16 16
  let b := expectation.validateNonFatal b .timeDescriptor
  .ok (⟨identifier, taiSeconds, taiNs, utcOffset⟩, b)

/-- `MaxNumberOfEncodedChannels` (`audio_descriptor.rs`). -/
inductive MaxNumberOfEncodedChannels where
  | one
  | two
  | three
  | four
  | five
  | six
  | unknown (value : Nat)
deriving DecidableEq

/-- `MaxNumberOfEncodedChannels::new`. -/
def MaxNumberOfEncodedChannels.new (value : Nat) : MaxNumberOfEncodedChannels :=
  match value with
  | 0 => .one
  | 1 => .two
  | 2 => .three
  | 3 => .four
  | 4 => .five
  | 5 => .six
  | x => .unknown x

/-- `NumChannels` (`audio_descriptor.rs`). -/
inductive NumChannels where
  | audioCodingMode (m : AudioCodingMode)
  | maxNumberOfEncodedChannels (m : MaxNumberOfEncodedChannels)
deriving DecidableEq

/-- `Component` (`audio_descriptor.rs`). -/
structure AudioComponent where
  componentTag : Nat
  isoCode : Nat
  bitStreamMode : BitStreamMode
  numChannels : NumChannels
  fullSrvcAudio : Bool
deriving DecidableEq

/-- `Component::try_from` (`audio_descriptor.rs`). -/
def AudioComponent.tryFrom (b : Bits) : Except PErr (AudioComponent × Bits) := do
  let (componentTag, b) ← b.byte
  let (isoCode, b) ← b.u32 24
  let (bsmod, b) ← b.u8 3
  let (flag, b) ← b.bool
  if flag then do
    let (acmod, b) ← b.u8 3
    let audioCodingMode ← AudioCodingMode.tryFrom acmod
    let bitStreamMode ← BitStreamMode.tryFrom bsmod (some acmod)
    let numChannels := NumChannels.audioCodingMode audioCodingMode
    let (fullSrvcAudio, b) ← b.bool
    .ok (⟨componentTag, isoCode, bitStreamMode, numChannels, fullSrvcAudio⟩, b)
  else do
    let (maxRaw, b) ← b.u8 3
    let maxChannels := MaxNumberOfEncodedChannels.new maxRaw
    let bitStreamMode ← BitStreamMode.tryFrom bsmod none
    let numChannels := NumChannels.maxNumberOfEncodedChannels maxChannels
    let (fullSrvcAudio, b) ← b.bool
    .ok (⟨componentTag, isoCode, bitStreamMode, numChannels, fullSrvcAudio⟩, b)

/-- `AudioDescriptor`. -/
structure AudioDescriptor where
  identifier : Nat
  components : List AudioComponent
deriving DecidableEq

/-- The component loop of `AudioDescriptor::try_from`. -/
def audioComponentLoop : Nat → Bits → Except PErr (List AudioComponent × Bits)
  | 0, b => .ok ([], b)
  | n + 1, b => do
    let (c, b) ← AudioComponent.tryFrom b
    let (rest, b) ← audioComponentLoop n b
    .ok (c :: rest, b)

/-- `AudioDescriptor::try_from`. -/
def AudioDescriptor.tryFrom (b : Bits) : Except PErr (AudioDescriptor × Bits) := do
  let (expectation, b) ← DescriptorLengthExpectation.tryFrom b
    ("AudioDescriptor")
  let (identifier, b) ← b.u32 32
  let (audioCount, b) ← b.u8 4
  let (_, b) ← b.consume 4
  let (components, b) ← audioComponentLoop audioCount b
  let b := expectation.validateNonFatal b .audioDescriptor
  .ok (⟨identifier, components⟩, b)

/-- `SpliceDescriptor` (`splice_descriptor/mod.rs`). -/
inductive SpliceDescriptor where
  | availDescriptor (d : AvailDescriptor)
  | dtmfDescriptor (d : DTMFDescriptor)
  | segmentationDescriptor (d : SegmentationDescriptor)
  | timeDescriptor (d : TimeDescriptor)
  | audioDescriptor (d : AudioDescriptor)

/-- `SpliceDescriptor::tag`. -/
def SpliceDescriptor.tag : SpliceDescriptor → SpliceDescriptorTag
  | .availDescriptor _ => .availDescriptor
  | .dtmfDescriptor _ => .dtmfDescriptor
  | .segmentationDescriptor _ => .segmentationDescriptor
  | .timeDescriptor _ => .timeDescriptor
  | .audioDescriptor _ => .audioDescriptor

/-- `SpliceDescriptor::try_from`. -/
def SpliceDescriptor.tryFrom (b : Bits) : Except PErr (SpliceDescriptor × Bits) := do
  let (tagRaw, b) ← b.byte
  let tag ← SpliceDescriptorTag.tryFrom tagRaw
  match tag with
  | .availDescriptor => do
    let (d, b) ← AvailDescriptor.tryFrom b
    .ok (.availDescriptor d, b)
  | .dtmfDescriptor => do
    let (d, b) ← DTMFDescriptor.tryFrom b
    .ok (.dtmfDescriptor d, b)
  | .segmentationDescriptor => do
    let (d, b) ← SegmentationDescriptor.tryFrom b
    .ok (.segmentationDescriptor d, b)
  | .timeDescriptor => do
    let (d, b) ← TimeDescriptor.tryFrom b
    .ok (.timeDescriptor d, b)
  | .audioDescriptor => do
    let (d, b) ← AudioDescriptor.tryFrom b
    .ok (.audioDescriptor d, b)

/-- The `while` loop of `try_splice_descriptors_from`, with fuel for the
same reason as the MID loop (each iteration consumes at least one byte). -/
def spliceDescriptorsLoop :
    Nat → Nat → Bits → Except PErr (List SpliceDescriptor × Bits)
  | 0, _, _ => .error .outOfFuel
  | fuel + 1, expectedEnd, b =>
    if b.bitsRemaining > expectedEnd then do
      let (d, b2) ← SpliceDescriptor.tryFrom b
      let (rest, b3) ← spliceDescriptorsLoop fuel expectedEnd b2
      .ok (d :: rest, b3)
    else .ok ([], b)

/-- `try_splice_descriptors_from` (`splice_descriptor/mod.rs`). -/
def trySpliceDescriptorsFrom (b : Bits) (descriptorLoopLength : Nat) :
    Except PErr (List SpliceDescriptor × Bits) := do
  let (_, b) ← b.validate (descriptorLoopLength * 8)
    ("SpliceDescriptor; reading loop")
  let expectedEnd := b.bitsRemaining - descriptorLoopLength * 8
  spliceDescriptorsLoop (b.bitsRemaining + 1) expectedEnd b

/-! ## Time primitives (`time.rs`) and splice commands (`splice_command/`) -/

/-- `SpliceTime` (`time.rs`). -/
structure SpliceTime where
  ptsTime : Option Nat
deriving DecidableEq

/-- `BreakDuration` (`time.rs`). -/
structure BreakDuration where
  autoReturn : Bool
  duration : Nat
deriving DecidableEq

/-- `SpliceTime::new` (`time.rs`), which validates before every read; the
`Bits`-based `SpliceTime::try_from` called by `TimeSignal::try_from` is not
in the source tree and is modelled by the same algorithm. -/
def SpliceTime.tryFrom (b : Bits) : Except PErr (SpliceTime × Bits) := do
  let (_, b) ← b.validate 1 ("SpliceTime; reading timeSpecifiedFlag")
  let (flagBit, b) ← b.readBits 1
  if flagBit ≠ 0 then do
    let (_, b) ← b.validate 39 ("SpliceTime; timeSpecifiedFlag == 1")
    let (_, b) ← b.consume 6
    let (ptsTime, b) ← b.readBits 33
    .ok (⟨some ptsTime⟩, b)
  else do
    let (_, b) ← b.validate 7 ("SpliceTime; timeSpecifiedFlag == 0")
    let (_, b) ← b.consume 7
    .ok (⟨none⟩, b)

/-- `BreakDuration::new` (`time.rs`), likewise standing in for the missing
`Bits`-based `BreakDuration::try_from`. -/
def BreakDuration.tryFrom (b : Bits) : Except PErr (BreakDuration × Bits) := do
  let (_, b) ← b.validate 40 ("BreakDuration")
  let (autoReturnBit, b) ← b.readBits 1
  let (_, b) ← b.consume 6
  let (duration, b) ← b.readBits 33
  .ok (⟨autoReturnBit ≠ 0, duration⟩, b)

/-- `TimeSignal` (`time_signal.rs`). -/
structure TimeSignal where
  spliceTime : SpliceTime
deriving DecidableEq

/-- `TimeSignal::try_from`. -/
def TimeSignal.tryFrom (b : Bits) : Except PErr (TimeSignal × Bits) := do
  let (st, b) ← SpliceTime.tryFrom b
  .ok (⟨st⟩, b)

/-- `PrivateCommand` (`private_command.rs`). -/
structure PrivateCommand where
  identifier : String
  privateBytes : List Nat
deriving DecidableEq

/-- `PrivateCommand::try_from`.  When `splice_command_length < 4` the Rust
`splice_command_length - 4` underflows: a panic in debug builds, and in
release builds a wrapped loop that exhausts the reader and panics inside
`byte()`; both are the fatal outcome. -/
def PrivateCommand.tryFrom (b : Bits) (spliceCommandLength : Nat) :
    Except PErr (PrivateCommand × Bits) := do
  let (_, b) ← b.validate (spliceCommandLength * 8)
    ("PrivateCommand; validating splice_command_length")
  let (identifier, b) ← b.string 4 ("Reading identifier for PrivateCommand")
  if spliceCommandLength < 4 then .error .fatal
  else do
    let (privateBytes, b) ← readBytesLoop (spliceCommandLength - 4) b
    .ok (⟨identifier, privateBytes⟩, b)

/-- `ProgramMode` of `splice_schedule.rs`. -/
structure SpliceSchedule.ProgramMode where
  utcSpliceTime : Nat
deriving DecidableEq

/-- `ComponentMode` of `splice_schedule.rs`. -/
structure SpliceSchedule.ComponentMode where
  componentTag : Nat
  utcSpliceTime : Nat
deriving DecidableEq

/-- `SpliceMode` of `splice_schedule.rs`. -/
inductive SpliceSchedule.SpliceMode where
  | programSpliceMode (m : SpliceSchedule.ProgramMode)
  | componentSpliceMode (ms : List SpliceSchedule.ComponentMode)
deriving DecidableEq

/-- `ScheduledEvent` of `splice_schedule.rs`. -/
structure SpliceSchedule.ScheduledEvent where
  outOfNetworkIndicator : Bool
  spliceMode : SpliceSchedule.SpliceMode
  breakDuration : Option BreakDuration
  uniqueProgramId : Nat
  availNum : Nat
  availsExpected : Nat
deriving DecidableEq

/-- `Event` of `splice_schedule.rs`. -/
structure SpliceSchedule.Event where
  eventId : Nat
  scheduledEvent : Option SpliceSchedule.ScheduledEvent
deriving DecidableEq

/-- `SpliceSchedule`. -/
structure SpliceSchedule where
  events : List SpliceSchedule.Event
deriving DecidableEq

/-- The component loop of `ScheduledEvent::try_from` in
`splice_schedule.rs`. -/
def spliceScheduleComponentLoop :
    Nat → Bits → Except PErr (List SpliceSchedule.ComponentMode × Bits)
  | 0, b => .ok ([], b)
  | n + 1, b => do
    let (componentTag, b) ← b.byte
    let (utcSpliceTime, b) ← b.u32 32
    let (rest, b) ← spliceScheduleComponentLoop n b
    .ok (⟨componentTag, utcSpliceTime⟩ :: rest, b)

/-- `ScheduledEvent::try_from` of `splice_schedule.rs`. -/
def SpliceSchedule.ScheduledEvent.tryFrom (b : Bits) :
    Except PErr (SpliceSchedule.ScheduledEvent × Bits) := do
  let (outOfNetworkIndicator, b) ← b.bool
  let (programSpliceFlag, b) ← b.bool
  let (durationFlag, b) ← b.bool
  let (_, b) ← b.consume 5
  let (spliceMode, b) ←
    if programSpliceFlag then do
      let (utc, b) ← b.u32 32
      pure (SpliceSchedule.SpliceMode.programSpliceMode ⟨utc⟩, b)
    else do
      let (componentCount, b) ← b.byte
      let (components, b) ← spliceScheduleComponentLoop componentCount b
      pure (SpliceSchedule.SpliceMode.componentSpliceMode components, b)
  let (breakDuration, b) ←
    if durationFlag then do
      let (d, b) ← BreakDuration.tryFrom b
      pure (some d, b)
    else pure ((none : Option BreakDuration), b)
  let (uniqueProgramId, b) ← b.u16 16
  let (availNum, b) ← b.byte
  let (availsExpected, b) ← b.byte
  .ok (⟨outOfNetworkIndicator, spliceMode, breakDuration, uniqueProgramId,
    availNum, availsExpected⟩, b)

/-- `Event::try_from` of `splice_schedule.rs`. -/
def SpliceSchedule.Event.tryFrom (b : Bits) :
    Except PErr (SpliceSchedule.Event × Bits) := do
  let (eventId, b) ← b.u32 32
  let (isCancelled, b) ← b.bool
  let (_, b) ← b.consume 7
  if isCancelled then .ok (⟨eventId, none⟩, b)
  else do
    let (ev, b) ← SpliceSchedule.ScheduledEvent.tryFrom b
    .ok (⟨eventId, some ev⟩, b)

/-- The event loop of `SpliceSchedule::try_from`. -/
def spliceScheduleEventLoop :
    Nat → Bits → Except PErr (List SpliceSchedule.Event × Bits)
  | 0, b => .ok ([], b)
  | n + 1, b => do
    let (e, b) ← SpliceSchedule.Event.tryFrom b
    let (rest, b) ← spliceScheduleEventLoop n b
    .ok (e :: rest, b)

/-- `SpliceSchedule::try_from`. -/
def SpliceSchedule.tryFrom (b : Bits) : Except PErr (SpliceSchedule × Bits) := do
  let (spliceCount, b) ← b.byte
  let (events, b) ← spliceScheduleEventLoop spliceCount b
  .ok (⟨events⟩, b)

/-- `ProgramMode` of `splice_insert.rs`. -/
structure SpliceInsert.ProgramMode where
  spliceTime : Option SpliceTime
deriving DecidableEq

/-- `ComponentMode` of `splice_insert.rs`. -/
structure SpliceInsert.ComponentMode where
  componentTag : Nat
  spliceTime : Option SpliceTime
deriving DecidableEq

/-- `SpliceMode` of `splice_insert.rs`. -/
inductive SpliceInsert.SpliceMode where
  | programSpliceMode (m : SpliceInsert.ProgramMode)
  | componentSpliceMode (ms : List SpliceInsert.ComponentMode)
deriving DecidableEq

/-- `ScheduledEvent` of `splice_insert.rs`. -/
structure SpliceInsert.ScheduledEvent where
  outOfNetworkIndicator : Bool
  isImmediateSplice : Bool
  spliceMode : SpliceInsert.SpliceMode
  breakDuration : Option BreakDuration
  uniqueProgramId : Nat
  availNum : Nat
  availsExpected : Nat
deriving DecidableEq

/-- `SpliceInsert` (`splice_insert.rs`). -/
structure SpliceInsert where
  eventId : Nat
  scheduledEvent : Option SpliceInsert.ScheduledEvent
deriving DecidableEq

/-- Modelled from the spec: the component loop of the `SpliceInsert`
decoder (§4.3.2): each component reads a tag and, unless the splice is
immediate, one `SpliceTime`. -/
def spliceInsertComponentLoop (spliceImmediate : Bool) :
    Nat → Bits → Except PErr (List SpliceInsert.ComponentMode × Bits)
  | 0, b => .ok ([], b)
  | n + 1, b => do
    let (componentTag, b) ← b.byte
    let (spliceTime, b) ←
      if spliceImmediate then pure ((none : Option SpliceTime), b)
      else do
        let (st, b) ← SpliceTime.tryFrom b
        pure (some st, b)
    let (rest, b) ← spliceInsertComponentLoop spliceImmediate n b
    .ok (⟨componentTag, spliceTime⟩ :: rest, b)

/-- Modelled from the spec: `SpliceInsert::try_from` is absent from the
source tree (`splice_insert.rs` holds only the data model); §4.3.2 gives
the wire shape — the `SpliceSchedule` event shape with `SpliceTime`s in
place of 32-bit UTC values, an extra `splice_immediate_flag` after
`duration_flag`, 4 reserved bits, and no `SpliceTime` anywhere when the
immediate flag is set. -/
def SpliceInsert.tryFrom (b : Bits) : Except PErr (SpliceInsert × Bits) := do
  let (eventId, b) ← b.u32 32
  let (isCancelled, b) ← b.bool
  let (_, b) ← b.consume 7
  if isCancelled then .ok (⟨eventId, none⟩, b)
  else do
    let (outOfNetworkIndicator, b) ← b.bool
    let (programSpliceFlag, b) ← b.bool
    let (durationFlag, b) ← b.bool
    let (spliceImmediateFlag, b) ← b.bool
    let (_, b) ← b.consume 4
    let (spliceMode, b) ←
      if programSpliceFlag then
        if spliceImmediateFlag then
          pure (SpliceInsert.SpliceMode.programSpliceMode ⟨none⟩, b)
        else do
          let (st, b) ← SpliceTime.tryFrom b
          pure (SpliceInsert.SpliceMode.programSpliceMode ⟨some st⟩, b)
      else do
        let (componentCount, b) ← b.byte
        let (components, b) ← spliceInsertComponentLoop spliceImmediateFlag
          componentCount b
        pure (SpliceInsert.SpliceMode.componentSpliceMode components, b)
    let (breakDuration, b) ←
      if durationFlag then do
        let (d, b) ← BreakDuration.tryFrom b
        pure (some d, b)
      else pure ((none : Option BreakDuration), b)
    let (uniqueProgramId, b) ← b.u16 16
    let (availNum, b) ← b.byte
    let (availsExpected, b) ← b.byte
    .ok (⟨eventId, some ⟨outOfNetworkIndicator, spliceImmediateFlag,
      spliceMode, breakDuration, uniqueProgramId, availNum,
      availsExpected⟩⟩, b)

/-- `SpliceCommand` (`splice_command/mod.rs`). -/
inductive SpliceCommand where
  | spliceNull
  | spliceSchedule (c : SpliceSchedule)
  | spliceInsert (c : SpliceInsert)
  | timeSignal (c : TimeSignal)
  | bandwidthReservation
  | privateCommand (c : PrivateCommand)
deriving DecidableEq

/-- `SpliceCommand::command_type`. -/
def SpliceCommand.commandType : SpliceCommand → SpliceCommandType
  | .spliceNull => .spliceNull
  | .spliceSchedule _ => .spliceSchedule
  | .spliceInsert _ => .spliceInsert
  | .timeSignal _ => .timeSignal
  | .bandwidthReservation => .bandwidthReservation
  | .privateCommand _ => .privateCommand

/-- `SpliceCommand::try_from`. -/
def SpliceCommand.tryFrom (b : Bits) (spliceCommandLength : Nat) :
    Except PErr (SpliceCommand × Bits) := do
  let (commandTypeRaw, b) ← b.byte
  let commandType ← SpliceCommandType.tryFrom commandTypeRaw
  match commandType with
  | .spliceNull => .ok (.spliceNull, b)
  | .spliceSchedule => do
    let (c, b) ← SpliceSchedule.tryFrom b
    .ok (.spliceSchedule c, b)
  | .spliceInsert => do
    let (c, b) ← SpliceInsert.tryFrom b
    .ok (.spliceInsert c, b)
  | .timeSignal => do
    let (c, b) ← TimeSignal.tryFrom b
    .ok (.timeSignal c, b)
  | .bandwidthReservation => .ok (.bandwidthReservation, b)
  | .privateCommand => do
    let (c, b) ← PrivateCommand.tryFrom b spliceCommandLength
    .ok (.privateCommand c, b)

/-! ## Splice info section (`splice_info_section.rs`) -/

/-- `EncryptedPacket` (`splice_info_section.rs`); never constructed by the
decoder, which rejects encrypted sections. -/
structure EncryptedPacket where
  encryptionAlgorithm : Option EncryptionAlgorithm
  cwIndex : Nat
  alignmentStuffing : Nat
  eCrc32 : Nat
deriving DecidableEq

/-- `SpliceInfoSection` (`splice_info_section.rs`). -/
structure SpliceInfoSection where
  tableId : Nat
  sapType : SAPType
  protocolVersion : Nat
  encryptedPacket : Option EncryptedPacket
  ptsAdjustment : Nat
  tier : Nat
  spliceCommand : SpliceCommand
  spliceDescriptors : List SpliceDescriptor
  crc32 : Nat
  nonFatalErrors : List ParseError

/-- Modelled from the spec: the decoding of the 2-bit `sap_type` field is
inside the missing `SpliceInfoSection::from` body; §9 prescribes raw `0x0`
→ `Type1`, `0x1` → `Type2`, `0x2` → `Type3`, `0x3` → `Unspecified`. -/
def sapTypeFromRaw (v : Nat) : SAPType :=
  match v with
  | 0x0 => .type1
  | 0x1 => .type2
  | 0x2 => .type3
  | _ => .unspecified

/-- Modelled from the spec: the body of `SpliceInfoSection::from` is
`todo!()` in the source tree; the steps follow §4.2 (header, indicator
checks, section-length validation, encryption gate, command dispatch with
the non-fatal length comparison, descriptor loop, stuffing skip, CRC
capture).  The command-length anomaly counts only the bits consumed after
the command-type byte, matching the repository test expecting
`actual = 0` for `SpliceNull`. -/
def SpliceInfoSection.fromBits (b : Bits) : Except PErr SpliceInfoSection := do
  let (tableId, b) ← b.byte
  let (sectionSyntaxIndicator, b) ← b.bool
  if sectionSyntaxIndicator then .error (.parse .invalidSectionSyntaxIndicator)
  else do
  let (privateIndicator, b) ← b.bool
  if privateIndicator then .error (.parse .invalidPrivateIndicator)
  else do
  let (sapRaw, b) ← b.u8 2
  let (sectionLength, b) ← b.u16 12
  let (_, b) ← b.validate (sectionLength * 8) ("SpliceInfoSection; section_length")
  let expectedSectionEnd := b.bitsRemaining - sectionLength * 8
  let (protocolVersion, b) ← b.byte
  let (encryptedPacketFlag, b) ← b.bool
  let (_encryptionAlgorithmRaw, b) ← b.u8 6
  if encryptedPacketFlag then .error (.parse .encryptedMessageNotSupported)
  else do
  let (ptsAdjustment, b) ← b.u64 33
  let (_cwIndex, b) ← b.byte
  let (tier, b) ← b.u16 12
  let (spliceCommandLength, b) ← b.u32 12
  let bitsRemainingBeforeCommand := b.bitsRemaining
  let (spliceCommand, b) ← SpliceCommand.tryFrom b spliceCommandLength
  let actualCommandBits := (bitsRemainingBeforeCommand - 8) - b.bitsRemaining
  let b :=
    if actualCommandBits ≠ spliceCommandLength * 8 then
      b.pushNonFatalError (.unexpectedSpliceCommandLength
        (spliceCommandLength * 8) actualCommandBits spliceCommand.commandType)
    else b
  let (descriptorLoopLength, b) ← b.u32 16
  let (spliceDescriptors, b) ← trySpliceDescriptorsFrom b descriptorLoopLength
  let stuffing := b.bitsRemaining - (expectedSectionEnd + 32)
  let (_, b) ← b.consume stuffing
  let (crc32, b) ← b.u32 32
  .ok ⟨tableId, sapTypeFromRaw sapRaw, protocolVersion, none, ptsAdjustment,
    tier, spliceCommand, spliceDescriptors, crc32, b.nonFatalErrors⟩

/-- The entry point: wrap the input bytes in a fresh reader. -/
def SpliceInfoSection.from (data : List Nat) : Except PErr SpliceInfoSection :=
  SpliceInfoSection.fromBits ⟨bytesToBits data, []⟩

/-! ## Claim-support definitions -/

/-- Does a failure carry `InvalidSegmentationDescriptorIdentifier`? -/
def IsISDI (e : PErr) : Prop :=
  ∃ v, e = .parse (.invalidSegmentationDescriptorIdentifier v)

/-- Spec-side restatement of the adjusted-product fold of the claim: over
the hex digits of the concatenated groups, with initial adjusted sum 36,
per digit `d` take `s = adjusted_sum + d`, subtract 36 if `s > 36`, double
to `p = s * 2` and subtract 37 if `p ≥ 37`, carrying `p` forward. -/
def checkCharSpecFold (groups : List String) : Nat :=
  (((groups.map String.data).flatten).map
      (fun c => (hexDigitVal c).getD 0)).foldl
    (fun adjustedSum d =>
      let s := adjustedSum + d
      let s := if s > 36 then s - 36 else s
      let p := s * 2
      if p ≥ 37 then p - 37 else p) 36

/-- Spec-side restatement of the check-character computation, following the
claim's words: fold the hex digits of the concatenated groups per
`checkCharSpecFold`; emit `'0'` when the final adjusted product is 1 and
otherwise the character at index `37 − adjusted_product` of `0-9A-Z`. -/
def checkCharSpec (groups : List String) : Char :=
  if checkCharSpecFold groups = 1 then '0'
  else charArray.getD (37 - checkCharSpecFold groups) '0'

/-- The `k`-th 16-bit group of a bit string, rendered as the decoder does:
four zero-padded lower-case hex digits, upper-cased. -/
def hexGroupAt (l : List Bool) (k : Nat) : String :=
  asciiUpper ⟨hexPadChars 4 (bitsVal ((l.drop (16 * k)).take 16) % 2 ^ 16)⟩

/-- Concrete reader for the C1 witness: a cancelled segmentation
descriptor with the CUEI identifier and event id 1. -/
def c1Input : Bits :=
  ⟨bytesToBits [0x09, 0x43, 0x55, 0x45, 0x49, 0x00, 0x00, 0x00, 0x01, 0x80], []⟩

/-- Concrete reader of 96 zero bits for C4. -/
def c4Input : Bits :=
  ⟨List.replicate 96 false, []⟩

/-- Concrete scheduled-event body for the C6 witness: program
segmentation, no duration, delivery not restricted, `NotUsed` UPID, type
0x34, one expected segment, and a trailing sub-segment `(2, 3)`. -/
def c6Input : Bits :=
  ⟨bytesToBits [0xA0, 0x00, 0x00, 0x34, 0x01, 0x01, 0x02, 0x03], []⟩

/-- The event that parsing `c6Input` produces. -/
def c6Event : ScheduledEvent :=
  ⟨none, none, none, .notUsed, .providerPlacementOpportunityStart, 1, 1,
    some ⟨2, 3⟩⟩

/-- Concrete reader for C7: a MID UPID declaring one byte of payload
followed by a two-byte child (`UserDefined` of length 0). -/
def c7Input : Bits :=
  ⟨bytesToBits [0x0D, 0x01, 0x01, 0x00], []⟩

/-- Concrete reader for the C9 witness: an avail descriptor declaring nine
body bytes whose body decoder consumes eight, followed by one extra
byte. -/
def c9Input : Bits :=
  ⟨bytesToBits [0x00, 0x09, 0x00, 0x00, 0x00, 0x00, 0x00, 0x00, 0x00,
    0x00, 0xAA], []⟩

/-- Concrete input for the C2 witness: a well-formed five-byte header with
the `encrypted_packet` flag set. -/
def c2Input : List Nat :=
  [0xFC, 0x30, 0x02, 0x00, 0x80]

/-- The five 16-bit groups of the S3 EIDR sample, for the C8 witness. -/
def c8Groups : List String :=
  ["8BE5", "E3F6", "0000", "0000", "0000"]

/-! ## Toolbox: characterizations of the reader operations -/

theorem bitsVal_aux (l : List Bool) (a : Nat) :
    l.foldl (fun acc b => 2 * acc + cond b 1 0) a < (a + 1) * 2 ^ l.length := by
  induction l generalizing a with
  | nil => simp
  | cons x xs ih =>
    have h := ih (2 * a + cond x 1 0)
    calc (x :: xs).foldl (fun acc b => 2 * acc + cond b 1 0) a
        = xs.foldl (fun acc b => 2 * acc + cond b 1 0) (2 * a + cond x 1 0) := rfl
      _ < (2 * a + cond x 1 0 + 1) * 2 ^ xs.length := h
      _ ≤ (a + 1) * 2 ^ (x :: xs).length := by
          have hx : cond x 1 0 ≤ 1 := by cases x <;> simp
          simp only [List.length_cons, pow_succ]
          nlinarith [Nat.pos_pow_of_pos xs.length (show 0 < 2 by norm_num)]

theorem bitsVal_lt (l : List Bool) : bitsVal l < 2 ^ l.length := by
  have := bitsVal_aux l 0
  simpa [bitsVal] using this

theorem readBits_ok_iff {n : Nat} {b : Bits} {r : Nat × Bits} :
    b.readBits n = .ok r ↔ n ≤ b.data.length ∧
      r = (bitsVal (b.data.take n), ⟨b.data.drop n, b.nonFatalErrors⟩) := by
  unfold Bits.readBits
  split
  · next h =>
    constructor
    · intro hh; exact absurd hh (by simp)
    · rintro ⟨h1, -⟩; omega
  · next h =>
    constructor
    · intro hh; exact ⟨by omega, (Except.ok.inj hh).symm⟩
    · rintro ⟨-, rfl⟩; rfl

theorem readBits_error_iff {n : Nat} {b : Bits} {e : PErr} :
    b.readBits n = .error e ↔ b.data.length < n ∧ e = .fatal := by
  unfold Bits.readBits
  split
  · next h =>
    constructor
    · intro hh; exact ⟨h, (Except.error.inj hh).symm⟩
    · rintro ⟨-, rfl⟩; rfl
  · next h =>
    constructor
    · intro hh; exact absurd hh (by simp)
    · rintro ⟨h1, -⟩; omega

theorem u8_ok_iff {n : Nat} {b : Bits} {r : Nat × Bits} :
    b.u8 n = .ok r ↔ n ≤ b.data.length ∧
      r = (bitsVal (b.data.take n) % 2 ^ 8,
        ⟨b.data.drop n, b.nonFatalErrors⟩) := by
  constructor
  · intro h
    obtain ⟨a, ha, hf⟩ := exceptMap_ok.mp h
    obtain ⟨hn, rfl⟩ := readBits_ok_iff.mp ha
    exact ⟨hn, hf.symm⟩
  · rintro ⟨hn, rfl⟩
    exact exceptMap_ok.mpr ⟨_, readBits_ok_iff.mpr ⟨hn, rfl⟩, rfl⟩
theorem u16_ok_iff {n : Nat} {b : Bits} {r : Nat × Bits} :
    b.u16 n = .ok r ↔ n ≤ b.data.length ∧
      r = (bitsVal (b.data.take n) % 2 ^ 16,
        ⟨b.data.drop n, b.nonFatalErrors⟩) := by
  constructor
  · intro h
    obtain ⟨a, ha, hf⟩ := exceptMap_ok.mp h
    obtain ⟨hn, rfl⟩ := readBits_ok_iff.mp ha
    exact ⟨hn, hf.symm⟩
  · rintro ⟨hn, rfl⟩
    exact exceptMap_ok.mpr ⟨_, readBits_ok_iff.mpr ⟨hn, rfl⟩, rfl⟩
theorem u32_ok_iff {n : Nat} {b : Bits} {r : Nat × Bits} :
    b.u32 n = .ok r ↔ n ≤ b.data.length ∧
      r = (bitsVal (b.data.take n) % 2 ^ 32,
        ⟨b.data.drop n, b.nonFatalErrors⟩) := by
  constructor
  · intro h
    obtain ⟨a, ha, hf⟩ := exceptMap_ok.mp h
    obtain ⟨hn, rfl⟩ := readBits_ok_iff.mp ha
    exact ⟨hn, hf.symm⟩
  · rintro ⟨hn, rfl⟩
    exact exceptMap_ok.mpr ⟨_, readBits_ok_iff.mpr ⟨hn, rfl⟩, rfl⟩
theorem u64_ok_iff {n : Nat} {b : Bits} {r : Nat × Bits} :
    b.u64 n = .ok r ↔ n ≤ b.data.length ∧
      r = (bitsVal (b.data.take n), ⟨b.data.drop n, b.nonFatalErrors⟩) :=
  readBits_ok_iff

theorem byte_ok_iff {b : Bits} {r : Nat × Bits} :
    b.byte = .ok r ↔ 8 ≤ b.data.length ∧
      r = (bitsVal (b.data.take 8) % 2 ^ 8,
        ⟨b.data.drop 8, b.nonFatalErrors⟩) :=
  u8_ok_iff

theorem bool_ok_iff {b : Bits} {r : Bool × Bits} :
    b.bool = .ok r ↔ 1 ≤ b.data.length ∧
      r = (bitsVal (b.data.take 1) % 2 ^ 8 == 1,
        ⟨b.data.drop 1, b.nonFatalErrors⟩) := by
  constructor
  · intro h
    obtain ⟨a, ha, hf⟩ := exceptMap_ok.mp h
    obtain ⟨hn, rfl⟩ := u8_ok_iff.mp ha
    exact ⟨hn, hf.symm⟩
  · rintro ⟨hn, rfl⟩
    exact exceptMap_ok.mpr ⟨_, u8_ok_iff.mpr ⟨hn, rfl⟩, rfl⟩

theorem consume_ok_iff {n : Nat} {b : Bits} {r : Unit × Bits} :
    b.consume n = .ok r ↔ n ≤ b.data.length ∧
      r = ((), ⟨b.data.drop n, b.nonFatalErrors⟩) := by
  unfold Bits.consume
  split
  · next h =>
    constructor
    · intro hh; exact absurd hh (by simp)
    · rintro ⟨h1, -⟩; omega
  · next h =>
    constructor
    · intro hh; exact ⟨by omega, (Except.ok.inj hh).symm⟩
    · rintro ⟨-, rfl⟩; rfl

theorem validate_ok_iff {n : Nat} {d : String} {b : Bits} {r : Unit × Bits} :
    b.validate n d = .ok r ↔ n ≤ b.data.length ∧ r = ((), b) := by
  unfold Bits.validate Bits.bitsRemaining
  split
  · next h =>
    constructor
    · intro hh; exact absurd hh (by simp)
    · rintro ⟨h1, -⟩; omega
  · next h =>
    constructor
    · intro hh; exact ⟨by omega, (Except.ok.inj hh).symm⟩
    · rintro ⟨-, rfl⟩; rfl

end Scte35

namespace Scte35

theorem u8_error_iff {n : Nat} {b : Bits} {e : PErr} :
    b.u8 n = .error e ↔ b.data.length < n ∧ e = .fatal := by
  constructor
  · intro h; exact readBits_error_iff.mp (exceptMap_error.mp h)
  · intro h; exact exceptMap_error.mpr (readBits_error_iff.mpr h)

theorem u16_error_iff {n : Nat} {b : Bits} {e : PErr} :
    b.u16 n = .error e ↔ b.data.length < n ∧ e = .fatal := by
  constructor
  · intro h; exact readBits_error_iff.mp (exceptMap_error.mp h)
  · intro h; exact exceptMap_error.mpr (readBits_error_iff.mpr h)

theorem u32_error_iff {n : Nat} {b : Bits} {e : PErr} :
    b.u32 n = .error e ↔ b.data.length < n ∧ e = .fatal := by
  constructor
  · intro h; exact readBits_error_iff.mp (exceptMap_error.mp h)
  · intro h; exact exceptMap_error.mpr (readBits_error_iff.mpr h)

theorem u64_error_iff {n : Nat} {b : Bits} {e : PErr} :
    b.u64 n = .error e ↔ b.data.length < n ∧ e = .fatal :=
  readBits_error_iff

theorem byte_error_iff {b : Bits} {e : PErr} :
    b.byte = .error e ↔ b.data.length < 8 ∧ e = .fatal :=
  u8_error_iff

theorem bool_error_iff {b : Bits} {e : PErr} :
    b.bool = .error e ↔ b.data.length < 1 ∧ e = .fatal := by
  constructor
  · intro h; exact u8_error_iff.mp (exceptMap_error.mp h)
  · intro h; exact exceptMap_error.mpr (u8_error_iff.mpr h)

theorem consume_error_iff {n : Nat} {b : Bits} {e : PErr} :
    b.consume n = .error e ↔ b.data.length < n ∧ e = .fatal := by
  unfold Bits.consume
  split
  · next h =>
    constructor
    · intro hh; exact ⟨h, (Except.error.inj hh).symm⟩
    · rintro ⟨-, rfl⟩; rfl
  · next h =>
    constructor
    · intro hh; exact absurd hh (by simp)
    · rintro ⟨h1, -⟩; omega

theorem validate_error_iff {n : Nat} {d : String} {b : Bits} {e : PErr} :
    b.validate n d = .error e ↔ b.data.length < n ∧
      e = .parse (.unexpectedEndOfData n b.data.length d) := by
  unfold Bits.validate Bits.bitsRemaining
  split
  · next h =>
    constructor
    · intro hh; exact ⟨h, (Except.error.inj hh).symm⟩
    · rintro ⟨-, rfl⟩; rfl
  · next h =>
    constructor
    · intro hh; exact absurd hh (by simp)
    · rintro ⟨h1, -⟩; omega

theorem bytes_insufficient {n : Nat} {b : Bits} (h : b.data.length < 8 * n) :
    b.bytes n = (List.replicate n 0, b) := by
  unfold Bits.bytes
  rw [if_pos h]

theorem bytes_state {n : Nat} {b : Bits} :
    (b.bytes n).2.nonFatalErrors = b.nonFatalErrors ∧
      (b.bytes n).2.data.length ≤ b.data.length := by
  unfold Bits.bytes
  split <;> simp

set_option maxHeartbeats 1000000 in
theorem utf8Decode_replicate_zero (n : Nat) :
    utf8Decode (List.replicate n 0) = some (List.replicate n (Char.ofNat 0)) := by
  induction n with
  | zero => rfl
  | succ k ih =>
    have step : utf8Decode (List.replicate (k + 1) 0) =
        (utf8Decode (List.replicate k 0)).map
          (fun cs => Char.ofNat 0 :: cs) := by
      unfold utf8Decode
      rw [List.replicate_succ, utf8Run.eq_3]
      norm_num
    rw [step, ih]
    simp [List.replicate_succ]

theorem string_ok_state {n : Nat} {d : String} {b : Bits} {s : String}
    {b2 : Bits} (h : b.string n d = .ok (s, b2)) :
    b2.nonFatalErrors = b.nonFatalErrors ∧ b2.data.length ≤ b.data.length := by
  unfold Bits.string at h
  split at h
  · injection h with h2
    injection h2 with hs hb
    rw [← hb]
    exact bytes_state
  · exact absurd h (by simp)

theorem string_error_iff {n : Nat} {d : String} {b : Bits} {e : PErr} :
    b.string n d = .error e ↔ utf8Decode (b.bytes n).1 = none ∧
      e = .parse (.utf8ConversionError d) := by
  unfold Bits.string
  split
  · next heq => simp [heq]
  · next heq =>
    constructor
    · intro hh; exact ⟨heq, (Except.error.inj hh).symm⟩
    · rintro ⟨-, rfl⟩; rfl

theorem string_insufficient {n : Nat} {d : String} {b : Bits}
    (h : b.data.length < 8 * n) :
    b.string n d = .ok (⟨List.replicate n (Char.ofNat 0)⟩, b) := by
  unfold Bits.string
  rw [bytes_insufficient h]
  simp [utf8Decode_replicate_zero]

end Scte35

namespace Scte35

/-- C10: for every variant of the wire-code enums `SpliceCommandType`,
`SpliceDescriptorTag`, `SegmentationTypeID` and `SegmentationUPIDType`,
decoding the accessor's raw value round-trips: `try_from (t.value()) = Ok t`. -/
theorem c10_wire_code_round_trip :
    (∀ t : SpliceCommandType, SpliceCommandType.tryFrom t.value = .ok t) ∧
    (∀ t : SpliceDescriptorTag, SpliceDescriptorTag.tryFrom t.value = .ok t) ∧
    (∀ t : SegmentationTypeID, SegmentationTypeID.tryFrom t.value = .ok t) ∧
    (∀ t : SegmentationUPIDType, SegmentationUPIDType.tryFrom t.value = .ok t) := by
  refine ⟨fun t => ?_, fun t => ?_, fun t => ?_, fun t => ?_⟩ <;> cases t <;> rfl

/-- C5 (code bug): the claim (and §9 of the spec) want `SAPType::value`
to return 0x2 for `Type3`, but the source returns 0x3 for both `Type3`
and `Unspecified`; the spec-modelled decode direction does map raw 0x2 to
`Type3` and raw 0x3 to `Unspecified`. -/
theorem c5_sap_type_value_bug :
    SAPType.value .type3 = 0x3 ∧ SAPType.value .type3 ≠ 0x2 ∧
    SAPType.value .unspecified = 0x3 ∧
    sapTypeFromRaw 0x2 = .type3 ∧ sapTypeFromRaw 0x3 = .unspecified := by
  refine ⟨rfl, by decide, rfl, rfl, rfl⟩

/-- C3 (counterexample): with no bits remaining, `Bits::bytes(1)` silently
yields the zero-filled buffer and `Bits::string(1, _)` silently yields a
NUL string — neither is treated as fatal, contradicting the claim for the
byte-oriented reads. -/
theorem c3_counterexample :
    Bits.bytes 1 ⟨[], []⟩ = ([0], ⟨[], []⟩) ∧
    Bits.string 1 ("any read") ⟨[], []⟩ = .ok (⟨[Char.ofNat 0]⟩, ⟨[], []⟩) :=
  ⟨rfl, rfl⟩

/-- C3 (amended): the integer reads (`u8`/`u16`/`u32`/`u64`, and the
underlying `read_bits`) are fatal when fewer bits remain than requested
and never yield a value; `bytes(n)` and `string(n, _)` instead silently
return a zero-filled buffer (resp. NUL string) and leave the reader
unchanged, so callers must pre-validate them. -/
theorem c3_amended (n : Nat) (d : String) (b : Bits) :
    (b.data.length < n →
      b.readBits n = .error .fatal ∧ b.u8 n = .error .fatal ∧
      b.u16 n = .error .fatal ∧ b.u32 n = .error .fatal ∧
      b.u64 n = .error .fatal) ∧
    (b.data.length < 8 * n →
      b.bytes n = (List.replicate n 0, b) ∧
      b.string n d = .ok (⟨List.replicate n (Char.ofNat 0)⟩, b)) := by
  constructor
  · intro h
    refine ⟨readBits_error_iff.mpr ⟨h, rfl⟩, u8_error_iff.mpr ⟨h, rfl⟩,
      u16_error_iff.mpr ⟨h, rfl⟩, u32_error_iff.mpr ⟨h, rfl⟩,
      u64_error_iff.mpr ⟨h, rfl⟩⟩
  · intro h
    exact ⟨bytes_insufficient h, string_insufficient h⟩

/-- Witness for C3's amended theorem at `n = 1` on an empty reader. -/
theorem c3_amended_witness :
    Bits.readBits 1 ⟨[], []⟩ = .error .fatal ∧
    Bits.bytes 1 ⟨[], []⟩ = (List.replicate 1 0, ⟨[], []⟩) :=
  ⟨((c3_amended 1 ("any read") ⟨[], []⟩).1 (by decide)).1,
    ((c3_amended 1 ("any read") ⟨[], []⟩).2 (by decide)).1⟩

end Scte35

namespace Scte35

theorem hexDigitVal_le {c : Char} {d : Nat} (h : hexDigitVal c = some d) :
    d ≤ 15 := by
  unfold hexDigitVal at h
  split_ifs at h <;> simp_all <;> omega

theorem mapM_hexDigitVal_eq_some {l : List Char}
    (h : ∀ c ∈ l, (hexDigitVal c).isSome) :
    l.mapM hexDigitVal = some (l.map (fun c => (hexDigitVal c).getD 0)) := by
  induction l with
  | nil => rfl
  | cons x xs ih =>
    obtain ⟨d, hd⟩ := Option.isSome_iff_exists.mp (h x (by simp))
    rw [List.mapM_cons, hd, ih (fun c hc => h c (by simp [hc]))]
    simp [hd]

theorem checkCharFold_bounds (ds : List Nat) (hds : ∀ d ∈ ds, d ≤ 15) :
    ∀ a, 1 ≤ a → a ≤ 36 →
      1 ≤ ds.foldl checkCharFoldStep a ∧ ds.foldl checkCharFoldStep a ≤ 36 := by
  induction ds with
  | nil => intro a h1 h2; exact ⟨h1, h2⟩
  | cons d ds ih =>
    intro a h1 h2
    have hd : d ≤ 15 := hds d (by simp)
    have hstep : 1 ≤ checkCharFoldStep a d ∧ checkCharFoldStep a d ≤ 36 := by
      simp only [checkCharFoldStep]
      split_ifs <;> omega
    simpa using ih (fun x hx => hds x (by simp [hx])) (checkCharFoldStep a d)
      hstep.1 hstep.2

theorem checkChar_spec_aux (gs : List String)
    (h : ∀ c ∈ ((gs.filter (fun s => s.data.length > 1)).map String.data).flatten,
      (hexDigitVal c).isSome) :
    checkChar gs = .ok (checkCharSpec (gs.filter (fun s => s.data.length > 1))) := by
  unfold checkChar checkCharSpec checkCharSpecFold
  rw [mapM_hexDigitVal_eq_some h]
  dsimp only
  have hfoldfun : (fun adjustedSum d =>
      let s := adjustedSum + d
      let s := if s > 36 then s - 36 else s
      let p := s * 2
      if p ≥ 37 then p - 37 else p) = checkCharFoldStep := rfl
  rw [hfoldfun]
  set ds := (((gs.filter (fun s => s.data.length > 1)).map
    String.data).flatten).map (fun c => (hexDigitVal c).getD 0) with hds
  have hall : ∀ d ∈ ds, d ≤ 15 := by
    intro d hd
    rw [hds] at hd
    obtain ⟨c, hc, hcd⟩ := List.mem_map.mp hd
    obtain ⟨v, hv⟩ := Option.isSome_iff_exists.mp (h c hc)
    rw [← hcd, hv]
    simpa using hexDigitVal_le hv
  have hbounds := checkCharFold_bounds ds hall 36 (by norm_num) (by norm_num)
  by_cases h1 : ds.foldl checkCharFoldStep 36 = 1
  · simp [h1]
  · rw [if_neg h1, if_neg h1]
    cases hg : charArray.get? (37 - ds.foldl checkCharFoldStep 36) with
    | none =>
      have hlen : charArray.length = 36 := by rfl
      have := List.get?_eq_none.mp hg
      omega
    | some c =>
      have hgd : charArray.getD (37 - ds.foldl checkCharFoldStep 36) '0' = c := by
        simp only [List.getD, ← List.get?_eq_getElem?, hg, Option.getD_some]
      rw [hgd]

theorem checkChar_ok_of_hex {gs : List String}
    (h : ∀ c ∈ ((gs.filter (fun s => s.data.length > 1)).map
      String.data).flatten, (hexDigitVal c).isSome) :
    ∃ c, checkChar gs = .ok c :=
  ⟨_, checkChar_spec_aux gs h⟩

/-- C8: the check characters of the hyphen-separated checked-hex decoder
are computed from the concatenation of the already-emitted 4-hex-digit
groups (the sections longer than one character) by exactly the fold the
claim describes, with `'0'` for adjusted product 1 and
`alphabet[37 − adjusted_product]` otherwise. -/
theorem c8_check_char_follows_spec (gs : List String)
    (h : ∀ c ∈ ((gs.filter (fun s => s.data.length > 1)).map
      String.data).flatten, (hexDigitVal c).isSome) :
    checkChar gs = .ok (checkCharSpec (gs.filter (fun s => s.data.length > 1))) :=
  checkChar_spec_aux gs h

/-- Witness for C8 on the five 16-bit groups of the S3 EIDR sample; the
resulting check character `'B'` matches the repository's expected
`EIDR("10.5239/8BE5-E3F6-0000-0000-0000-B")`. -/
theorem c8_check_char_witness : checkChar c8Groups = .ok 'B' := by
  have h := c8_check_char_follows_spec c8Groups (by decide)
  rw [h]
  rfl

end Scte35

namespace Scte35

theorem hexDigit_upper_all : ∀ m, m < 16 →
    (hexDigitVal (asciiUpperChar (hexChar m))).isSome := by decide

theorem hexGroupAt_data (l : List Bool) (k : Nat) :
    (hexGroupAt l k).data =
      (hexPadChars 4 (bitsVal ((l.drop (16 * k)).take 16) % 2 ^ 16)).map
        asciiUpperChar := rfl

theorem hexGroupAt_length (l : List Bool) (k : Nat) :
    (hexGroupAt l k).data.length = 4 := by
  rw [hexGroupAt_data]
  simp [hexPadChars]

theorem hexGroupAt_chars_hex (l : List Bool) (k : Nat) :
    ∀ c ∈ (hexGroupAt l k).data, (hexDigitVal c).isSome := by
  intro c hc
  rw [hexGroupAt_data] at hc
  obtain ⟨c0, hc0, rfl⟩ := List.mem_map.mp hc
  simp only [hexPadChars, List.mem_map, List.mem_range] at hc0
  obtain ⟨i, -, rfl⟩ := hc0
  exact hexDigit_upper_all _ (Nat.mod_lt _ (by norm_num))

theorem u16_step (l : List Bool) (nf : List ParseError) (k : Nat)
    (h : 16 * k + 16 ≤ l.length) :
    Bits.u16 16 ⟨l.drop (16 * k), nf⟩ =
      .ok (bitsVal ((l.drop (16 * k)).take 16) % 2 ^ 16,
           ⟨l.drop (16 * (k + 1)), nf⟩) := by
  have harith : 16 * k + 16 = 16 * (k + 1) := by ring
  have hd : (l.drop (16 * k)).drop 16 = l.drop (16 * (k + 1)) := by
    rw [List.drop_drop, harith]
  rw [u16_ok_iff]
  exact ⟨by simp only [List.length_drop]; omega, by rw [← hd]⟩

end Scte35

namespace Scte35

theorem hsch_done (ci : List Nat) (i : Nat) (sections : List String) (b : Bits) :
    hschSectionsLoop ci 0 i sections b = .ok (sections, b) := rfl

theorem hsch_step_read (ci : List Nat) (count i : Nat) (sections : List String)
    (b : Bits) (hni : i ∉ ci) {v : Nat} {b2 : Bits}
    (hread : b.u16 16 = .ok (v, b2)) :
    hschSectionsLoop ci (count + 1) i sections b =
      hschSectionsLoop ci count (i + 1)
        (sections ++ [asciiUpper ⟨hexPadChars 4 v⟩]) b2 := by
  rw [hschSectionsLoop]
  rw [if_neg (by simpa using hni)]
  rw [hread]
  rfl

theorem hsch_step_check (ci : List Nat) (count i : Nat)
    (sections : List String) (b : Bits) (hci : i ∈ ci)
    {c : Char} (hc : checkChar sections = .ok c) :
    hschSectionsLoop ci (count + 1) i sections b =
      hschSectionsLoop ci count (i + 1) (sections ++ [c.toString]) b := by
  rw [hschSectionsLoop]
  rw [if_pos (by simpa using hci)]
  rw [hc]
  rfl

end Scte35

namespace Scte35

theorem char_toString_data (c : Char) : (Char.toString c).data = [c] := rfl

theorem hex_groups_hyp_of_mem (l : List Bool) (gs : List String)
    (hgs : ∀ g ∈ gs, (∃ k, g = hexGroupAt l k) ∨ g.data.length ≤ 1) :
    ∀ c ∈ ((gs.filter (fun s => s.data.length > 1)).map String.data).flatten,
      (hexDigitVal c).isSome := by
  intro c hc
  rw [List.mem_flatten] at hc
  obtain ⟨lc, hlc, hclc⟩ := hc
  rw [List.mem_map] at hlc
  obtain ⟨g, hg, rfl⟩ := hlc
  obtain ⟨hmem, hpred⟩ := List.mem_filter.mp hg
  rcases hgs g hmem with ⟨k, rfl⟩ | hshort
  · exact hexGroupAt_chars_hex l k c hclc
  · simp only [decide_eq_true_eq] at hpred
    omega

end Scte35

namespace Scte35

theorem u16_step_at (l : List Bool) (nf : List ParseError) (j : Nat)
    (h : j + 16 ≤ l.length) :
    Bits.u16 16 ⟨l.drop j, nf⟩ =
      .ok (bitsVal ((l.drop j).take 16) % 2 ^ 16, ⟨l.drop (j + 16), nf⟩) := by
  have hd : (l.drop j).drop 16 = l.drop (j + 16) := List.drop_drop ..
  rw [u16_ok_iff]
  exact ⟨by simp only [List.length_drop]; omega, by rw [← hd]⟩

theorem c4_dep_aux (l : List Bool) (nf : List ParseError)
    (hlen : 64 ≤ l.length) :
    ∃ c1 : Char,
      checkChar [hexGroupAt l 0, hexGroupAt l 1, hexGroupAt l 2,
        hexGroupAt l 3] = .ok c1 ∧
      HyphenSeparatedCheckedHexVersion.deprecatedISAN.sections ⟨l, nf⟩ =
        .ok ([hexGroupAt l 0, hexGroupAt l 1, hexGroupAt l 2,
          hexGroupAt l 3, c1.toString], ⟨l.drop 64, nf⟩) := by
  have h0 : Bits.u16 16 ⟨l, nf⟩ =
      .ok (bitsVal (l.take 16) % 2 ^ 16, ⟨l.drop 16, nf⟩) :=
    u16_ok_iff.mpr ⟨by show 16 ≤ l.length; omega, rfl⟩
  obtain ⟨c1, hc1⟩ := checkChar_ok_of_hex (hex_groups_hyp_of_mem l
    [hexGroupAt l 0, hexGroupAt l 1, hexGroupAt l 2, hexGroupAt l 3] (by
      intro g hg
      simp only [List.mem_cons, List.not_mem_nil, or_false] at hg
      rcases hg with rfl | rfl | rfl | rfl
      exacts [Or.inl ⟨0, rfl⟩, Or.inl ⟨1, rfl⟩, Or.inl ⟨2, rfl⟩,
        Or.inl ⟨3, rfl⟩]))
  refine ⟨c1, hc1, ?_⟩
  show hschSectionsLoop [4] 5 0 [] ⟨l, nf⟩ = _
  rw [hsch_step_read [4] 4 0 [] ⟨l, nf⟩ (by decide) h0]
  rw [hsch_step_read [4] 3 1 _ _ (by decide) (u16_step_at l nf 16 (by omega))]
  rw [hsch_step_read [4] 2 2 _ _ (by decide) (u16_step_at l nf 32 (by omega))]
  rw [hsch_step_read [4] 1 3 _ _ (by decide) (u16_step_at l nf 48 (by omega))]
  have hsec : ([] : List String) ++
      [asciiUpper ⟨hexPadChars 4 (bitsVal (l.take 16) % 2 ^ 16)⟩] ++
      [asciiUpper ⟨hexPadChars 4 (bitsVal ((l.drop 16).take 16) % 2 ^ 16)⟩] ++
      [asciiUpper ⟨hexPadChars 4 (bitsVal ((l.drop 32).take 16) % 2 ^ 16)⟩] ++
      [asciiUpper ⟨hexPadChars 4 (bitsVal ((l.drop 48).take 16) % 2 ^ 16)⟩] =
      [hexGroupAt l 0, hexGroupAt l 1, hexGroupAt l 2, hexGroupAt l 3] := rfl
  rw [hsec, show (48 + 16 : Nat) = 64 from rfl]
  rw [hsch_step_check [4] 0 4 _ _ (by decide) hc1]
  rfl

end Scte35

namespace Scte35

theorem c4_ver_aux (l : List Bool) (nf : List ParseError)
    (hlen : 96 ≤ l.length) :
    ∃ c1 c2 : Char,
      checkChar [hexGroupAt l 0, hexGroupAt l 1, hexGroupAt l 2,
        hexGroupAt l 3] = .ok c1 ∧
      checkChar [hexGroupAt l 0, hexGroupAt l 1, hexGroupAt l 2,
        hexGroupAt l 3, c1.toString, hexGroupAt l 4, hexGroupAt l 5] =
        .ok c2 ∧
      HyphenSeparatedCheckedHexVersion.versionedISAN.sections ⟨l, nf⟩ =
        .ok ([hexGroupAt l 0, hexGroupAt l 1, hexGroupAt l 2,
          hexGroupAt l 3, c1.toString, hexGroupAt l 4, hexGroupAt l 5,
          c2.toString], ⟨l.drop 96, nf⟩) := by
  have h0 : Bits.u16 16 ⟨l, nf⟩ =
      .ok (bitsVal (l.take 16) % 2 ^ 16, ⟨l.drop 16, nf⟩) :=
    u16_ok_iff.mpr ⟨by show 16 ≤ l.length; omega, rfl⟩
  obtain ⟨c1, hc1⟩ := checkChar_ok_of_hex (hex_groups_hyp_of_mem l
    [hexGroupAt l 0, hexGroupAt l 1, hexGroupAt l 2, hexGroupAt l 3] (by
      intro g hg
      simp only [List.mem_cons, List.not_mem_nil, or_false] at hg
      rcases hg with rfl | rfl | rfl | rfl
      exacts [Or.inl ⟨0, rfl⟩, Or.inl ⟨1, rfl⟩, Or.inl ⟨2, rfl⟩,
        Or.inl ⟨3, rfl⟩]))
  obtain ⟨c2, hc2⟩ := checkChar_ok_of_hex (hex_groups_hyp_of_mem l
    [hexGroupAt l 0, hexGroupAt l 1, hexGroupAt l 2, hexGroupAt l 3,
      c1.toString, hexGroupAt l 4, hexGroupAt l 5] (by
      intro g hg
      simp only [List.mem_cons, List.not_mem_nil, or_false] at hg
      rcases hg with rfl | rfl | rfl | rfl | rfl | rfl | rfl
      exacts [Or.inl ⟨0, rfl⟩, Or.inl ⟨1, rfl⟩, Or.inl ⟨2, rfl⟩,
        Or.inl ⟨3, rfl⟩, Or.inr (by rw [char_toString_data]; simp),
        Or.inl ⟨4, rfl⟩, Or.inl ⟨5, rfl⟩]))
  refine ⟨c1, c2, hc1, hc2, ?_⟩
  show hschSectionsLoop [4, 7] 8 0 [] ⟨l, nf⟩ = _
  rw [hsch_step_read [4, 7] 7 0 [] ⟨l, nf⟩ (by decide) h0]
  rw [hsch_step_read [4, 7] 6 1 _ _ (by decide) (u16_step_at l nf 16 (by omega))]
  rw [hsch_step_read [4, 7] 5 2 _ _ (by decide) (u16_step_at l nf 32 (by omega))]
  rw [hsch_step_read [4, 7] 4 3 _ _ (by decide) (u16_step_at l nf 48 (by omega))]
  have hsec : ([] : List String) ++
      [asciiUpper ⟨hexPadChars 4 (bitsVal (l.take 16) % 2 ^ 16)⟩] ++
      [asciiUpper ⟨hexPadChars 4 (bitsVal ((l.drop 16).take 16) % 2 ^ 16)⟩] ++
      [asciiUpper ⟨hexPadChars 4 (bitsVal ((l.drop 32).take 16) % 2 ^ 16)⟩] ++
      [asciiUpper ⟨hexPadChars 4 (bitsVal ((l.drop 48).take 16) % 2 ^ 16)⟩] =
      [hexGroupAt l 0, hexGroupAt l 1, hexGroupAt l 2, hexGroupAt l 3] := rfl
  rw [hsec, show (48 + 16 : Nat) = 64 from rfl]
  rw [hsch_step_check [4, 7] 3 4 _ _ (by decide) hc1]
  rw [hsch_step_read [4, 7] 2 5 _ _ (by decide) (u16_step_at l nf 64 (by omega))]
  rw [show (64 + 16 : Nat) = 80 from rfl]
  rw [hsch_step_read [4, 7] 1 6 _ _ (by decide) (u16_step_at l nf 80 (by omega))]
  have hsec2 : [hexGroupAt l 0, hexGroupAt l 1, hexGroupAt l 2,
      hexGroupAt l 3] ++ [c1.toString] ++
      [asciiUpper ⟨hexPadChars 4 (bitsVal ((l.drop 64).take 16) % 2 ^ 16)⟩] ++
      [asciiUpper ⟨hexPadChars 4 (bitsVal ((l.drop 80).take 16) % 2 ^ 16)⟩] =
      [hexGroupAt l 0, hexGroupAt l 1, hexGroupAt l 2, hexGroupAt l 3,
        c1.toString, hexGroupAt l 4, hexGroupAt l 5] := rfl
  rw [hsec2, show (80 + 16 : Nat) = 96 from rfl]
  rw [hsch_step_check [4, 7] 0 7 _ _ (by decide) hc2]
  rfl

theorem c4_eidr_aux (l : List Bool) (nf : List ParseError)
    (hlen : 80 ≤ l.length) :
    ∃ c1 : Char,
      checkChar [hexGroupAt l 0, hexGroupAt l 1, hexGroupAt l 2,
        hexGroupAt l 3, hexGroupAt l 4] = .ok c1 ∧
      HyphenSeparatedCheckedHexVersion.eidr.sections ⟨l, nf⟩ =
        .ok ([hexGroupAt l 0, hexGroupAt l 1, hexGroupAt l 2,
          hexGroupAt l 3, hexGroupAt l 4, c1.toString],
          ⟨l.drop 80, nf⟩) := by
  have h0 : Bits.u16 16 ⟨l, nf⟩ =
      .ok (bitsVal (l.take 16) % 2 ^ 16, ⟨l.drop 16, nf⟩) :=
    u16_ok_iff.mpr ⟨by show 16 ≤ l.length; omega, rfl⟩
  obtain ⟨c1, hc1⟩ := checkChar_ok_of_hex (hex_groups_hyp_of_mem l
    [hexGroupAt l 0, hexGroupAt l 1, hexGroupAt l 2, hexGroupAt l 3,
      hexGroupAt l 4] (by
      intro g hg
      simp only [List.mem_cons, List.not_mem_nil, or_false] at hg
      rcases hg with rfl | rfl | rfl | rfl | rfl
      exacts [Or.inl ⟨0, rfl⟩, Or.inl ⟨1, rfl⟩, Or.inl ⟨2, rfl⟩,
        Or.inl ⟨3, rfl⟩, Or.inl ⟨4, rfl⟩]))
  refine ⟨c1, hc1, ?_⟩
  show hschSectionsLoop [5] 6 0 [] ⟨l, nf⟩ = _
  rw [hsch_step_read [5] 5 0 [] ⟨l, nf⟩ (by decide) h0]
  rw [hsch_step_read [5] 4 1 _ _ (by decide) (u16_step_at l nf 16 (by omega))]
  rw [hsch_step_read [5] 3 2 _ _ (by decide) (u16_step_at l nf 32 (by omega))]
  rw [hsch_step_read [5] 2 3 _ _ (by decide) (u16_step_at l nf 48 (by omega))]
  rw [show (48 + 16 : Nat) = 64 from rfl]
  rw [hsch_step_read [5] 1 4 _ _ (by decide) (u16_step_at l nf 64 (by omega))]
  have hsec : ([] : List String) ++
      [asciiUpper ⟨hexPadChars 4 (bitsVal (l.take 16) % 2 ^ 16)⟩] ++
      [asciiUpper ⟨hexPadChars 4 (bitsVal ((l.drop 16).take 16) % 2 ^ 16)⟩] ++
      [asciiUpper ⟨hexPadChars 4 (bitsVal ((l.drop 32).take 16) % 2 ^ 16)⟩] ++
      [asciiUpper ⟨hexPadChars 4 (bitsVal ((l.drop 48).take 16) % 2 ^ 16)⟩] ++
      [asciiUpper ⟨hexPadChars 4 (bitsVal ((l.drop 64).take 16) % 2 ^ 16)⟩] =
      [hexGroupAt l 0, hexGroupAt l 1, hexGroupAt l 2, hexGroupAt l 3,
        hexGroupAt l 4] := rfl
  rw [hsec, show (64 + 16 : Nat) = 80 from rfl]
  rw [hsch_step_check [5] 0 5 _ _ (by decide) hc1]
  rfl

end Scte35

namespace Scte35

theorem hexChar_upper_mem : ∀ m, m < 16 →
    asciiUpperChar (hexChar m) ∈ ("0123456789ABCDEF").data := by decide

theorem hexGroupAt_chars_upper (l : List Bool) (k : Nat) :
    ∀ c ∈ (hexGroupAt l k).data, c ∈ ("0123456789ABCDEF").data := by
  intro c hc
  rw [hexGroupAt_data] at hc
  obtain ⟨c0, hc0, rfl⟩ := List.mem_map.mp hc
  simp only [hexPadChars, List.mem_map, List.mem_range] at hc0
  obtain ⟨i, -, rfl⟩ := hc0
  exact hexChar_upper_mem _ (Nat.mod_lt _ (by norm_num))

/-- C4, corrected: the hyphen-separated checked-hex section builder emits
exactly five sections for DeprecatedISAN (check character at index 4),
exactly eight sections for VersionedISAN (check characters at indices 4
and 7), and exactly six sections for Eidr (check character at index 5) —
not six, eight and seven as the claim states.  Every non-check section is
the next 16-bit read rendered as a 4-character uppercase hex group. -/
theorem c4_hsch_section_counts (b : Bits) :
    (∀ k : Nat, (hexGroupAt b.data k).data.length = 4 ∧
      ∀ c ∈ (hexGroupAt b.data k).data, c ∈ ("0123456789ABCDEF").data) ∧
    (64 ≤ b.data.length → ∃ c1 : Char,
      checkChar [hexGroupAt b.data 0, hexGroupAt b.data 1,
        hexGroupAt b.data 2, hexGroupAt b.data 3] = .ok c1 ∧
      HyphenSeparatedCheckedHexVersion.deprecatedISAN.sections b =
        .ok ([hexGroupAt b.data 0, hexGroupAt b.data 1, hexGroupAt b.data 2,
          hexGroupAt b.data 3, c1.toString],
          ⟨b.data.drop 64, b.nonFatalErrors⟩)) ∧
    (96 ≤ b.data.length → ∃ c1 c2 : Char,
      checkChar [hexGroupAt b.data 0, hexGroupAt b.data 1,
        hexGroupAt b.data 2, hexGroupAt b.data 3] = .ok c1 ∧
      checkChar [hexGroupAt b.data 0, hexGroupAt b.data 1,
        hexGroupAt b.data 2, hexGroupAt b.data 3, c1.toString,
        hexGroupAt b.data 4, hexGroupAt b.data 5] = .ok c2 ∧
      HyphenSeparatedCheckedHexVersion.versionedISAN.sections b =
        .ok ([hexGroupAt b.data 0, hexGroupAt b.data 1, hexGroupAt b.data 2,
          hexGroupAt b.data 3, c1.toString, hexGroupAt b.data 4,
          hexGroupAt b.data 5, c2.toString],
          ⟨b.data.drop 96, b.nonFatalErrors⟩)) ∧
    (80 ≤ b.data.length → ∃ c1 : Char,
      checkChar [hexGroupAt b.data 0, hexGroupAt b.data 1,
        hexGroupAt b.data 2, hexGroupAt b.data 3, hexGroupAt b.data 4] =
        .ok c1 ∧
      HyphenSeparatedCheckedHexVersion.eidr.sections b =
        .ok ([hexGroupAt b.data 0, hexGroupAt b.data 1, hexGroupAt b.data 2,
          hexGroupAt b.data 3, hexGroupAt b.data 4, c1.toString],
          ⟨b.data.drop 80, b.nonFatalErrors⟩)) := by
  obtain ⟨l, nf⟩ := b
  refine ⟨fun k => ⟨hexGroupAt_length l k, hexGroupAt_chars_upper l k⟩,
    ?_, ?_, ?_⟩
  · intro h
    obtain ⟨c1, hc1, hs⟩ := c4_dep_aux l nf h
    exact ⟨c1, hc1, hs⟩
  · intro h
    obtain ⟨c1, c2, hc1, hc2, hs⟩ := c4_ver_aux l nf h
    exact ⟨c1, c2, hc1, hc2, hs⟩
  · intro h
    obtain ⟨c1, hc1, hs⟩ := c4_eidr_aux l nf h
    exact ⟨c1, hc1, hs⟩

/-- Counterexample for C4 as claimed: on 96 zero bits the DeprecatedISAN
variant yields 5 hyphen-joined sections, not 6, and the Eidr variant
yields 6, not 7. -/
theorem c4_counterexample :
    HyphenSeparatedCheckedHexVersion.deprecatedISAN.sections c4Input =
      .ok (["0000", "0000", "0000", "0000", "9"],
        ⟨List.replicate 32 false, []⟩) ∧
    (["0000", "0000", "0000", "0000", "9"] : List String).length ≠ 6 ∧
    HyphenSeparatedCheckedHexVersion.eidr.sections c4Input =
      .ok (["0000", "0000", "0000", "0000", "0000", "X"],
        ⟨List.replicate 16 false, []⟩) ∧
    (["0000", "0000", "0000", "0000", "0000", "X"] : List String).length ≠ 7 :=
  ⟨rfl, by decide, rfl, by decide⟩

/-- Witness for C4's corrected statement at the 96-zero-bit input. -/
theorem c4_witness :
    (64 ≤ c4Input.data.length ∧ ∃ c1 : Char,
      checkChar [hexGroupAt c4Input.data 0, hexGroupAt c4Input.data 1,
        hexGroupAt c4Input.data 2, hexGroupAt c4Input.data 3] = .ok c1 ∧
      HyphenSeparatedCheckedHexVersion.deprecatedISAN.sections c4Input =
        .ok ([hexGroupAt c4Input.data 0, hexGroupAt c4Input.data 1,
          hexGroupAt c4Input.data 2, hexGroupAt c4Input.data 3,
          c1.toString],
          ⟨c4Input.data.drop 64, c4Input.nonFatalErrors⟩)) ∧
    (80 ≤ c4Input.data.length ∧ ∃ c1 : Char,
      checkChar [hexGroupAt c4Input.data 0, hexGroupAt c4Input.data 1,
        hexGroupAt c4Input.data 2, hexGroupAt c4Input.data 3,
        hexGroupAt c4Input.data 4] = .ok c1 ∧
      HyphenSeparatedCheckedHexVersion.eidr.sections c4Input =
        .ok ([hexGroupAt c4Input.data 0, hexGroupAt c4Input.data 1,
          hexGroupAt c4Input.data 2, hexGroupAt c4Input.data 3,
          hexGroupAt c4Input.data 4, c1.toString],
          ⟨c4Input.data.drop 80, c4Input.nonFatalErrors⟩)) :=
  ⟨⟨by decide, (c4_hsch_section_counts c4Input).2.1 (by decide)⟩,
   ⟨by decide, (c4_hsch_section_counts c4Input).2.2.2 (by decide)⟩⟩

end Scte35

namespace Scte35

theorem subSegment_tryFrom_eq (b : Bits) (tid : SegmentationTypeID)
    (blaft : Nat) :
    SubSegment.tryFrom b tid blaft =
      (if b.bitsRemaining < 16 then (none, b)
       else if b.bitsRemaining - 16 < blaft then (none, b)
       else
        match tid with
        | .providerPlacementOpportunityStart
        | .distributorPlacementOpportunityStart
        | .providerOverlayPlacementOpportunityStart
        | .distributorOverlayPlacementOpportunityStart =>
          (some ⟨bitsVal (b.data.take 8), bitsVal ((b.data.drop 8).take 8)⟩,
            ⟨b.data.drop 16, b.nonFatalErrors⟩)
        | _ => (none, b)) := rfl

theorem subSegment_gate_isSome (b : Bits) (tid : SegmentationTypeID)
    (blaft : Nat) :
    (SubSegment.tryFrom b tid blaft).1.isSome ↔
      (tid.value = 0x34 ∨ tid.value = 0x36 ∨ tid.value = 0x38 ∨
        tid.value = 0x3A) ∧
      16 ≤ b.bitsRemaining ∧ blaft ≤ b.bitsRemaining - 16 := by
  rw [subSegment_tryFrom_eq]
  split_ifs with h1 h2
  · simp only [Option.isSome_none, Bool.false_eq_true, false_iff]
    intro hc
    omega
  · simp only [Option.isSome_none, Bool.false_eq_true, false_iff]
    intro hc
    omega
  · cases tid <;>
      simp only [SegmentationTypeID.value, Option.isSome_some,
        Option.isSome_none, Bool.false_eq_true, false_iff, true_iff] <;>
      first
        | (refine ⟨by norm_num, by omega, by omega⟩)
        | (intro hc; rcases hc with ⟨hv, -, -⟩;
           rcases hv with hv | hv | hv | hv <;> norm_num at hv)

theorem subSegment_gate_none_state (b : Bits) (tid : SegmentationTypeID)
    (blaft : Nat) (h : (SubSegment.tryFrom b tid blaft).1 = none) :
    (SubSegment.tryFrom b tid blaft).2 = b := by
  rw [subSegment_tryFrom_eq] at h ⊢
  split_ifs at h ⊢ with h1 h2
  · rfl
  · rfl
  · cases tid <;> simp_all

theorem scheduledEvent_subSegment (b : Bits) (blaft : Nat)
    (ev : ScheduledEvent) (bf : Bits)
    (h : ScheduledEvent.tryFrom b blaft = .ok (ev, bf)) :
    ∃ bmid : Bits,
      ev.subSegment =
        (SubSegment.tryFrom bmid ev.segmentationTypeId blaft).1 ∧
      bf = (SubSegment.tryFrom bmid ev.segmentationTypeId blaft).2 := by
  unfold ScheduledEvent.tryFrom at h
  rw [exceptBind_ok] at h
  obtain ⟨⟨psf, bA⟩, -, h⟩ := h
  rw [exceptBind_ok] at h
  obtain ⟨⟨sdf, bB⟩, -, h⟩ := h
  rw [exceptBind_ok] at h
  obtain ⟨⟨dnr, bC⟩, -, h⟩ := h
  rw [exceptBind_ok] at h
  obtain ⟨⟨dr, bD⟩, -, h⟩ := h
  rw [exceptBind_ok] at h
  obtain ⟨⟨cs, bE⟩, -, h⟩ := h
  rw [exceptBind_ok] at h
  obtain ⟨⟨sd, bF⟩, -, h⟩ := h
  rw [exceptBind_ok] at h
  obtain ⟨⟨upid, bG⟩, -, h⟩ := h
  rw [exceptBind_ok] at h
  obtain ⟨⟨tidRaw, bH⟩, -, h⟩ := h
  rw [exceptBind_ok] at h
  obtain ⟨tid, -, h⟩ := h
  rw [exceptBind_ok] at h
  obtain ⟨⟨sn, bI⟩, -, h⟩ := h
  rw [exceptBind_ok] at h
  obtain ⟨⟨se, bJ⟩, -, h⟩ := h
  injection h with h2
  injection h2 with hev hbf
  subst hev
  exact ⟨bJ, rfl, hbf.symm⟩

end Scte35

namespace Scte35

/-- C6: `SubSegment::try_from` returns `Some` exactly when the
segmentation type is one of the four placement-opportunity-start codes
(0x34, 0x36, 0x38, 0x3A), at least 16 bits remain, and consuming those 16
bits would not cross the descriptor's expected end; otherwise it returns
`None` with the reader untouched.  Every successfully parsed scheduled
event obtains its `sub_segment` field and final reader state from exactly
this gate, so parsing succeeds whether or not the gate fires. -/
theorem c6_sub_segment_gate :
    (∀ (b : Bits) (tid : SegmentationTypeID) (blaft : Nat),
      ((SubSegment.tryFrom b tid blaft).1.isSome ↔
        (tid.value = 0x34 ∨ tid.value = 0x36 ∨ tid.value = 0x38 ∨
          tid.value = 0x3A) ∧
        16 ≤ b.bitsRemaining ∧ blaft ≤ b.bitsRemaining - 16) ∧
      ((SubSegment.tryFrom b tid blaft).1 = none →
        (SubSegment.tryFrom b tid blaft).2 = b)) ∧
    (∀ (b : Bits) (blaft : Nat) (ev : ScheduledEvent) (bf : Bits),
      ScheduledEvent.tryFrom b blaft = .ok (ev, bf) →
      ∃ bmid : Bits,
        ev.subSegment =
          (SubSegment.tryFrom bmid ev.segmentationTypeId blaft).1 ∧
        bf = (SubSegment.tryFrom bmid ev.segmentationTypeId blaft).2) :=
  ⟨fun b tid blaft => ⟨subSegment_gate_isSome b tid blaft,
    subSegment_gate_none_state b tid blaft⟩,
   scheduledEvent_subSegment⟩

/-- Witness for C6 at a concrete scheduled event carrying sub-segment
`(2, 3)`, and at a concrete reader where the gate declines. -/
theorem c6_witness :
    (ScheduledEvent.tryFrom c6Input 0 = .ok (c6Event, ⟨[], []⟩) ∧
     ∃ bmid : Bits,
       c6Event.subSegment =
         (SubSegment.tryFrom bmid c6Event.segmentationTypeId 0).1 ∧
       (⟨[], []⟩ : Bits) =
         (SubSegment.tryFrom bmid c6Event.segmentationTypeId 0).2) ∧
    ((SubSegment.tryFrom ⟨[], []⟩ .programStart 0).1 = none ∧
     (SubSegment.tryFrom ⟨[], []⟩ .programStart 0).2 = ⟨[], []⟩) :=
  ⟨⟨rfl, c6_sub_segment_gate.2 c6Input 0 c6Event ⟨[], []⟩ rfl⟩,
   ⟨rfl, (c6_sub_segment_gate.1 ⟨[], []⟩ .programStart 0).2 rfl⟩⟩

end Scte35

namespace Scte35

/-! ### Error-shape sweep: no sub-parser of the segmentation descriptor
body can produce `invalidSegmentationDescriptorIdentifier`. -/

theorem notISDI_fatal : ¬ IsISDI .fatal := by
  rintro ⟨v, h⟩
  exact PErr.noConfusion h

theorem notISDI_outOfFuel : ¬ IsISDI .outOfFuel := by
  rintro ⟨v, h⟩
  exact PErr.noConfusion h

theorem notISDI_parse {pe : ParseError}
    (hpe : ∀ v, pe ≠ .invalidSegmentationDescriptorIdentifier v) :
    ¬ IsISDI (.parse pe) := by
  rintro ⟨v, h⟩
  injection h with h2
  exact hpe v h2

theorem bindErr {α β : Type} {x : Except PErr α} {f : α → Except PErr β}
    {e : PErr} (h : x >>= f = .error e)
    (hx : ∀ e', x = .error e' → ¬ IsISDI e')
    (hf : ∀ a, f a = .error e → ¬ IsISDI e) : ¬ IsISDI e := by
  rcases exceptBind_error.mp h with h | ⟨a, -, h⟩
  · exact hx e h
  · exact hf a h

theorem exceptBind_pure_ok {α β : Type} (a : α) (f : α → Except PErr β) :
    (Except.ok a >>= f) = f a := rfl

theorem errShape_readBits {n : Nat} {b : Bits} {e : PErr}
    (h : b.readBits n = .error e) : ¬ IsISDI e :=
  (readBits_error_iff.mp h).2 ▸ notISDI_fatal

theorem errShape_u8 {n : Nat} {b : Bits} {e : PErr}
    (h : b.u8 n = .error e) : ¬ IsISDI e :=
  (u8_error_iff.mp h).2 ▸ notISDI_fatal

theorem errShape_u16 {n : Nat} {b : Bits} {e : PErr}
    (h : b.u16 n = .error e) : ¬ IsISDI e :=
  (u16_error_iff.mp h).2 ▸ notISDI_fatal

theorem errShape_u32 {n : Nat} {b : Bits} {e : PErr}
    (h : b.u32 n = .error e) : ¬ IsISDI e :=
  (u32_error_iff.mp h).2 ▸ notISDI_fatal

theorem errShape_u64 {n : Nat} {b : Bits} {e : PErr}
    (h : b.u64 n = .error e) : ¬ IsISDI e :=
  (u64_error_iff.mp h).2 ▸ notISDI_fatal

theorem errShape_byte {b : Bits} {e : PErr}
    (h : b.byte = .error e) : ¬ IsISDI e :=
  (byte_error_iff.mp h).2 ▸ notISDI_fatal

theorem errShape_bool {b : Bits} {e : PErr}
    (h : b.bool = .error e) : ¬ IsISDI e :=
  (bool_error_iff.mp h).2 ▸ notISDI_fatal

theorem errShape_consume {n : Nat} {b : Bits} {e : PErr}
    (h : b.consume n = .error e) : ¬ IsISDI e :=
  (consume_error_iff.mp h).2 ▸ notISDI_fatal

theorem errShape_bitsValidate {n : Nat} {d : String} {b : Bits} {e : PErr}
    (h : b.validate n d = .error e) : ¬ IsISDI e :=
  (validate_error_iff.mp h).2 ▸
    notISDI_parse (fun v h2 => ParseError.noConfusion h2)

theorem errShape_string {n : Nat} {d : String} {b : Bits} {e : PErr}
    (h : b.string n d = .error e) : ¬ IsISDI e :=
  (string_error_iff.mp h).2 ▸
    notISDI_parse (fun v h2 => ParseError.noConfusion h2)

theorem errShape_checkChar {gs : List String} {e : PErr}
    (h : checkChar gs = .error e) : ¬ IsISDI e := by
  unfold checkChar at h
  split at h
  · injection h with h2
    exact h2 ▸ notISDI_fatal
  · split at h
    · exact Except.noConfusion h
    · split at h
      · exact Except.noConfusion h
      · injection h with h2
        exact h2 ▸ notISDI_fatal

theorem errShape_freeValidate {a b : Nat} {t : SegmentationUPIDType}
    {e : PErr} (h : validate a b t = .error e) : ¬ IsISDI e := by
  unfold validate at h
  split at h
  · injection h with h2
    exact h2 ▸ notISDI_parse (fun v h3 => ParseError.noConfusion h3)
  · exact Except.noConfusion h

theorem errShape_upidType {v : Nat} {e : PErr}
    (h : SegmentationUPIDType.tryFrom v = .error e) : ¬ IsISDI e := by
  unfold SegmentationUPIDType.tryFrom at h
  split at h
  all_goals
    first
      | exact Except.noConfusion h
      | (injection h with h2;
         exact h2 ▸ notISDI_parse (fun w h3 => ParseError.noConfusion h3))

theorem errShape_typeID {v : Nat} {e : PErr}
    (h : SegmentationTypeID.tryFrom v = .error e) : ¬ IsISDI e := by
  unfold SegmentationTypeID.tryFrom at h
  split at h
  all_goals
    first
      | exact Except.noConfusion h
      | (injection h with h2;
         exact h2 ▸ notISDI_parse (fun w h3 => ParseError.noConfusion h3))

theorem errShape_hschLoop (ci : List Nat) : ∀ (count i : Nat)
    (sections : List String) (b : Bits) (e : PErr),
    hschSectionsLoop ci count i sections b = .error e → ¬ IsISDI e := by
  intro count
  induction count with
  | zero => intro i sections b e h; exact Except.noConfusion h
  | succ count ih =>
    intro i sections b e h
    unfold hschSectionsLoop at h
    split at h
    · refine bindErr h (fun e' h' => errShape_checkChar h') ?_
      intro c h
      exact ih (i + 1) (sections ++ [c.toString]) b e h
    · refine bindErr h (fun e' h' => errShape_u16 h') ?_
      rintro ⟨v, b2⟩ h
      exact ih (i + 1) (sections ++ [asciiUpper ⟨hexPadChars 4 v⟩]) b2 e h

theorem errShape_hschRead {ver : HyphenSeparatedCheckedHexVersion}
    {b : Bits} {e : PErr} (h : ver.read b = .error e) : ¬ IsISDI e :=
  errShape_hschLoop ver.checkIndices (ver.indexMax + 1) 0 [] b e
    (exceptMap_error.mp h)

theorem errShape_umidLoop : ∀ (n : Nat) (b : Bits) (e : PErr),
    umidLoop n b = .error e → ¬ IsISDI e := by
  intro n
  induction n with
  | zero => intro b e h; exact Except.noConfusion h
  | succ n ih =>
    intro b e h
    unfold umidLoop at h
    refine bindErr h (fun e' h' => errShape_u32 h') ?_
    rintro ⟨v, b1⟩ h
    refine bindErr h (fun e' h' => ih b1 e' h') ?_
    rintro ⟨rest, b2⟩ h
    exact Except.noConfusion h

theorem errShape_readBytesLoop : ∀ (n : Nat) (b : Bits) (e : PErr),
    readBytesLoop n b = .error e → ¬ IsISDI e := by
  intro n
  induction n with
  | zero => intro b e h; exact Except.noConfusion h
  | succ n ih =>
    intro b e h
    unfold readBytesLoop at h
    refine bindErr h (fun e' h' => errShape_byte h') ?_
    rintro ⟨v, b1⟩ h
    refine bindErr h (fun e' h' => ih b1 e' h') ?_
    rintro ⟨rest, b2⟩ h
    exact Except.noConfusion h

theorem errShape_atsc {b : Bits} {n : Nat} {e : PErr}
    (h : ATSCContentIdentifier.tryFrom b n = .error e) : ¬ IsISDI e := by
  unfold ATSCContentIdentifier.tryFrom at h
  split at h
  · injection h with h2
    exact h2 ▸ notISDI_parse (fun w h3 => ParseError.noConfusion h3)
  · refine bindErr h (fun e' h' => errShape_u16 h') ?_
    rintro ⟨tsid, b1⟩ h
    refine bindErr h (fun e' h' => errShape_consume h') ?_
    rintro ⟨u, b2⟩ h
    refine bindErr h (fun e' h' => errShape_u8 h') ?_
    rintro ⟨eod, b3⟩ h
    refine bindErr h (fun e' h' => errShape_u16 h') ?_
    rintro ⟨uf, b4⟩ h
    refine bindErr h (fun e' h' => errShape_string h') ?_
    rintro ⟨cid, b5⟩ h
    exact Except.noConfusion h

theorem errShape_mpu {b : Bits} {n : Nat} {e : PErr}
    (h : ManagedPrivateUPID.tryFrom b n = .error e) : ¬ IsISDI e := by
  unfold ManagedPrivateUPID.tryFrom at h
  split at h
  · injection h with h2
    exact h2 ▸ notISDI_parse (fun w h3 => ParseError.noConfusion h3)
  · refine bindErr h (fun e' h' => errShape_string h') ?_
    rintro ⟨fs, b1⟩ h
    refine bindErr h (fun e' h' => errShape_readBytesLoop _ b1 e' h') ?_
    rintro ⟨pd, b2⟩ h
    exact Except.noConfusion h

end Scte35

namespace Scte35

theorem errShape_upidFuel : ∀ (fuel : Nat),
    (∀ (b : Bits) (e : PErr),
      SegmentationUPID.tryFromFuel fuel b = .error e → ¬ IsISDI e) ∧
    (∀ (t : SegmentationUPIDType) (L : Nat) (b : Bits) (e : PErr),
      SegmentationUPID.tryFromWithTypeFuel fuel t L b = .error e →
        ¬ IsISDI e) ∧
    (∀ (tgt : Nat) (b : Bits) (e : PErr),
      SegmentationUPID.midLoopFuel fuel tgt b = .error e → ¬ IsISDI e) := by
  intro fuel
  induction fuel with
  | zero =>
    refine ⟨fun b e h => ?_, fun t L b e h => ?_, fun tgt b e h => ?_⟩ <;>
      (injection h with h2; exact h2 ▸ notISDI_outOfFuel)
  | succ fuel ih =>
    obtain ⟨ih1, ih2, ih3⟩ := ih
    refine ⟨fun b e h => ?_, fun t L b e h => ?_, fun tgt b e h => ?_⟩
    · unfold SegmentationUPID.tryFromFuel at h
      refine bindErr h (fun e' h' => errShape_byte h') ?_
      rintro ⟨raw, b1⟩ h
      refine bindErr h (fun e' h' => errShape_upidType h') ?_
      intro t h
      refine bindErr h (fun e' h' => errShape_byte h') ?_
      rintro ⟨L, b2⟩ h
      refine bindErr h (fun e' h' => errShape_bitsValidate h') ?_
      rintro ⟨u, b3⟩ h
      exact ih2 t L b3 e h
    · unfold SegmentationUPID.tryFromWithTypeFuel at h
      cases t
      case notUsed =>
        refine bindErr h (fun e' h' => errShape_freeValidate h') ?_
        intro u h
        exact Except.noConfusion h
      case userDefined =>
        refine bindErr h (fun e' h' => errShape_string h') ?_
        rintro ⟨s, b1⟩ h
        exact Except.noConfusion h
      case isci =>
        refine bindErr h (fun e' h' => errShape_freeValidate h') ?_
        intro u h
        refine bindErr h (fun e' h' => errShape_string h') ?_
        rintro ⟨s, b1⟩ h
        exact Except.noConfusion h
      case adID =>
        refine bindErr h (fun e' h' => errShape_freeValidate h') ?_
        intro u h
        refine bindErr h (fun e' h' => errShape_string h') ?_
        rintro ⟨s, b1⟩ h
        exact Except.noConfusion h
      case umid =>
        refine bindErr h (fun e' h' => errShape_freeValidate h') ?_
        intro u h
        refine bindErr h (fun e' h' => errShape_umidLoop 8 b e' h') ?_
        rintro ⟨gs, b1⟩ h
        exact Except.noConfusion h
      case deprecatedISAN =>
        refine bindErr h (fun e' h' => errShape_freeValidate h') ?_
        intro u h
        refine bindErr h (fun e' h' => errShape_hschRead h') ?_
        rintro ⟨s, b1⟩ h
        exact Except.noConfusion h
      case isan =>
        refine bindErr h (fun e' h' => errShape_freeValidate h') ?_
        intro u h
        refine bindErr h (fun e' h' => errShape_hschRead h') ?_
        rintro ⟨s, b1⟩ h
        exact Except.noConfusion h
      case tid =>
        refine bindErr h (fun e' h' => errShape_freeValidate h') ?_
        intro u h
        refine bindErr h (fun e' h' => errShape_string h') ?_
        rintro ⟨s, b1⟩ h
        exact Except.noConfusion h
      case ti =>
        refine bindErr h (fun e' h' => errShape_freeValidate h') ?_
        intro u h
        exact Except.noConfusion h
      case adi =>
        refine bindErr h (fun e' h' => errShape_string h') ?_
        rintro ⟨s, b1⟩ h
        exact Except.noConfusion h
      case eidr =>
        refine bindErr h (fun e' h' => errShape_freeValidate h') ?_
        intro u h
        refine bindErr h (fun e' h' => errShape_u16 h') ?_
        rintro ⟨v, b1⟩ h
        refine bindErr h (fun e' h' => errShape_hschRead h') ?_
        rintro ⟨s, b2⟩ h
        exact Except.noConfusion h
      case atscContentIdentifier =>
        refine bindErr h (fun e' h' => errShape_atsc h') ?_
        rintro ⟨a, b1⟩ h
        exact Except.noConfusion h
      case mpu =>
        refine bindErr h (fun e' h' => errShape_mpu h') ?_
        rintro ⟨m, b1⟩ h
        exact Except.noConfusion h
      case mid =>
        refine bindErr h (fun e' h' => ih3 _ b e' h') ?_
        rintro ⟨us, b1⟩ h
        exact Except.noConfusion h
      case adsInformation =>
        refine bindErr h (fun e' h' => errShape_string h') ?_
        rintro ⟨s, b1⟩ h
        exact Except.noConfusion h
      case uri =>
        refine bindErr h (fun e' h' => errShape_string h') ?_
        rintro ⟨s, b1⟩ h
        exact Except.noConfusion h
      case uuid =>
        refine bindErr h (fun e' h' => errShape_freeValidate h') ?_
        intro u h
        refine bindErr h (fun e' h' => errShape_string h') ?_
        rintro ⟨s, b1⟩ h
        exact Except.noConfusion h
    · unfold SegmentationUPID.midLoopFuel at h
      split at h
      · refine bindErr h (fun e' h' => ih1 b e' h') ?_
        rintro ⟨u, b1⟩ h
        refine bindErr h (fun e' h' => ih3 tgt b1 e' h') ?_
        rintro ⟨rest, b2⟩ h
        exact Except.noConfusion h
      · exact Except.noConfusion h

theorem errShape_upidTryFrom {b : Bits} {e : PErr}
    (h : SegmentationUPID.tryFrom b = .error e) : ¬ IsISDI e :=
  (errShape_upidFuel (3 * b.bitsRemaining + 3)).1 b e h

theorem errShape_componentSegLoop : ∀ (n : Nat) (b : Bits) (e : PErr),
    componentSegLoop n b = .error e → ¬ IsISDI e := by
  intro n
  induction n with
  | zero => intro b e h; exact Except.noConfusion h
  | succ n ih =>
    intro b e h
    unfold componentSegLoop at h
    refine bindErr h (fun e' h' => errShape_byte h') ?_
    rintro ⟨ct, b1⟩ h
    refine bindErr h (fun e' h' => errShape_consume h') ?_
    rintro ⟨u, b2⟩ h
    refine bindErr h (fun e' h' => errShape_u64 h') ?_
    rintro ⟨po, b3⟩ h
    refine bindErr h (fun e' h' => ih b3 e' h') ?_
    rintro ⟨rest, b4⟩ h
    exact Except.noConfusion h

theorem errShape_readDeliveryRestrictions {f : Bool} {b : Bits} {e : PErr}
    (h : readDeliveryRestrictions f b = .error e) : ¬ IsISDI e := by
  unfold readDeliveryRestrictions at h
  split at h
  · refine bindErr h (fun e' h' => errShape_consume h') ?_
    rintro ⟨u, b1⟩ h
    exact Except.noConfusion h
  · refine bindErr h (fun e' h' => errShape_bool h') ?_
    rintro ⟨w, b1⟩ h
    refine bindErr h (fun e' h' => errShape_bool h') ?_
    rintro ⟨nr, b2⟩ h
    refine bindErr h (fun e' h' => errShape_bool h') ?_
    rintro ⟨ar, b3⟩ h
    refine bindErr h (fun e' h' => errShape_u8 h') ?_
    rintro ⟨dr, b4⟩ h
    exact Except.noConfusion h

theorem errShape_readComponentSegments {f : Bool} {b : Bits} {e : PErr}
    (h : readComponentSegments f b = .error e) : ¬ IsISDI e := by
  unfold readComponentSegments at h
  split at h
  · exact Except.noConfusion h
  · refine bindErr h (fun e' h' => errShape_byte h') ?_
    rintro ⟨cc, b1⟩ h
    refine bindErr h (fun e' h' => errShape_componentSegLoop cc b1 e' h') ?_
    rintro ⟨cs, b2⟩ h
    exact Except.noConfusion h

theorem errShape_readSegmentationDuration {f : Bool} {b : Bits} {e : PErr}
    (h : readSegmentationDuration f b = .error e) : ¬ IsISDI e := by
  unfold readSegmentationDuration at h
  split at h
  · refine bindErr h (fun e' h' => errShape_u64 h') ?_
    rintro ⟨v, b1⟩ h
    exact Except.noConfusion h
  · exact Except.noConfusion h

theorem errShape_scheduledEvent {b : Bits} {blaft : Nat} {e : PErr}
    (h : ScheduledEvent.tryFrom b blaft = .error e) : ¬ IsISDI e := by
  unfold ScheduledEvent.tryFrom at h
  refine bindErr h (fun e' h' => errShape_bool h') ?_
  rintro ⟨psf, b1⟩ h
  refine bindErr h (fun e' h' => errShape_bool h') ?_
  rintro ⟨sdf, b2⟩ h
  refine bindErr h (fun e' h' => errShape_bool h') ?_
  rintro ⟨dnr, b3⟩ h
  refine bindErr h (fun e' h' => errShape_readDeliveryRestrictions h') ?_
  rintro ⟨dr, b4⟩ h
  refine bindErr h (fun e' h' => errShape_readComponentSegments h') ?_
  rintro ⟨cs, b5⟩ h
  refine bindErr h (fun e' h' => errShape_readSegmentationDuration h') ?_
  rintro ⟨sd, b6⟩ h
  refine bindErr h (fun e' h' => errShape_upidTryFrom h') ?_
  rintro ⟨upid, b7⟩ h
  refine bindErr h (fun e' h' => errShape_byte h') ?_
  rintro ⟨tr, b8⟩ h
  refine bindErr h (fun e' h' => errShape_typeID h') ?_
  intro tid h
  refine bindErr h (fun e' h' => errShape_byte h') ?_
  rintro ⟨sn, b9⟩ h
  refine bindErr h (fun e' h' => errShape_byte h') ?_
  rintro ⟨se, b10⟩ h
  exact Except.noConfusion h

theorem errShape_readScheduledEvent {f : Bool} {blaft : Nat} {b : Bits}
    {e : PErr} (h : readScheduledEvent f blaft b = .error e) : ¬ IsISDI e := by
  unfold readScheduledEvent at h
  split at h
  · exact Except.noConfusion h
  · refine bindErr h (fun e' h' => errShape_scheduledEvent h') ?_
    rintro ⟨ev, b1⟩ h
    exact Except.noConfusion h

theorem errShape_dle {b : Bits} {d : String} {e : PErr}
    (h : DescriptorLengthExpectation.tryFrom b d = .error e) : ¬ IsISDI e := by
  unfold DescriptorLengthExpectation.tryFrom at h
  refine bindErr h (fun e' h' => errShape_u32 h') ?_
  rintro ⟨len8, b1⟩ h
  refine bindErr h (fun e' h' => errShape_bitsValidate h') ?_
  rintro ⟨u, b2⟩ h
  exact Except.noConfusion h

end Scte35

namespace Scte35

/-- C1: `SegmentationDescriptor::try_from` fails with
`InvalidSegmentationDescriptorIdentifier(v)` exactly when the 32-bit
identifier read after the descriptor-length frame is some `v ≠ 0x43554549`
(no other part of the descriptor parse can produce this error), and every
successfully parsed segmentation descriptor has identifier 0x43554549. -/
theorem c1_identifier_check (b : Bits) :
    (∀ v : Nat,
      SegmentationDescriptor.tryFrom b =
        .error (.parse (.invalidSegmentationDescriptorIdentifier v)) ↔
      v ≠ 1129661769 ∧
      ∃ (exp : DescriptorLengthExpectation) (b1 b2 : Bits),
        DescriptorLengthExpectation.tryFrom b ("SegmentationDescriptor") =
          .ok (exp, b1) ∧ b1.u32 32 = .ok (v, b2)) ∧
    (∀ (d : SegmentationDescriptor) (bf : Bits),
      SegmentationDescriptor.tryFrom b = .ok (d, bf) →
      d.identifier = 1129661769) := by
  constructor
  · intro v
    constructor
    · intro h
      unfold SegmentationDescriptor.tryFrom at h
      rcases exceptBind_error.mp h with h | ⟨⟨exp, b1⟩, hdle, h⟩
      · exact absurd ⟨v, rfl⟩ (errShape_dle h)
      · rcases exceptBind_error.mp h with h | ⟨⟨ident, b2⟩, hu32, h⟩
        · exact absurd ⟨v, rfl⟩ (errShape_u32 h)
        · simp only [] at h
          split at h
          · next hne =>
            injection h with h2
            injection h2 with h3
            injection h3 with h4
            subst h4
            exact ⟨hne, exp, b1, b2, hdle, hu32⟩
          · exfalso
            rcases exceptBind_error.mp h with h | ⟨⟨eid, b3⟩, -, h⟩
            · exact absurd ⟨v, rfl⟩ (errShape_u32 h)
            rcases exceptBind_error.mp h with h | ⟨⟨sec, b4⟩, -, h⟩
            · exact absurd ⟨v, rfl⟩ (errShape_bool h)
            rcases exceptBind_error.mp h with h | ⟨⟨u7, b5⟩, -, h⟩
            · exact absurd ⟨v, rfl⟩ (errShape_consume h)
            rcases exceptBind_error.mp h with h | ⟨⟨sev, b6⟩, -, h⟩
            · exact absurd ⟨v, rfl⟩ (errShape_readScheduledEvent h)
            exact Except.noConfusion h
    · rintro ⟨hne, exp, b1, b2, hdle, hu32⟩
      unfold SegmentationDescriptor.tryFrom
      rw [hdle]
      simp only [exceptBind_pure_ok]
      rw [hu32]
      simp only [exceptBind_pure_ok]
      rw [if_pos hne]
  · intro d bf h
    unfold SegmentationDescriptor.tryFrom at h
    rw [exceptBind_ok] at h
    obtain ⟨⟨exp, b1⟩, -, h⟩ := h
    rw [exceptBind_ok] at h
    obtain ⟨⟨ident, b2⟩, -, h⟩ := h
    simp only [] at h
    split at h
    · exact Except.noConfusion h
    · next hne =>
      rw [exceptBind_ok] at h
      obtain ⟨⟨eid, b3⟩, -, h⟩ := h
      rw [exceptBind_ok] at h
      obtain ⟨⟨sec, b4⟩, -, h⟩ := h
      rw [exceptBind_ok] at h
      obtain ⟨⟨u7, b5⟩, -, h⟩ := h
      rw [exceptBind_ok] at h
      obtain ⟨⟨sev, b6⟩, -, h⟩ := h
      injection h with h2
      injection h2 with hd hbf
      rw [← hd]
      exact not_not.mp hne

/-- Witness for C1: a cancelled CUEI descriptor parses with identifier
0x43554549, and the same descriptor with a zero identifier fails with
`InvalidSegmentationDescriptorIdentifier(0)`. -/
theorem c1_witness :
    (SegmentationDescriptor.tryFrom c1Input =
      .ok (⟨1129661769, 1, none⟩, ⟨[], []⟩) ∧
     (⟨1129661769, 1, none⟩ : SegmentationDescriptor).identifier =
       1129661769) ∧
    SegmentationDescriptor.tryFrom
        ⟨bytesToBits [0x09, 0x00, 0x00, 0x00, 0x00, 0x00, 0x00, 0x00,
          0x01, 0x80], []⟩ =
      .error (.parse (.invalidSegmentationDescriptorIdentifier 0)) :=
  ⟨⟨rfl, (c1_identifier_check c1Input).2 _ _ rfl⟩,
   ((c1_identifier_check _).1 0).mpr ⟨by decide, ⟨72, 72, 0⟩,
     ⟨bytesToBits [0x00, 0x00, 0x00, 0x00, 0x00, 0x00, 0x00, 0x01, 0x80],
       []⟩,
     ⟨bytesToBits [0x00, 0x00, 0x00, 0x01, 0x80], []⟩, rfl, rfl⟩⟩

end Scte35

namespace Scte35

theorem midLoop_exit_bound : ∀ (fuel target : Nat) (b : Bits)
    (us : List SegmentationUPID) (b2 : Bits),
    SegmentationUPID.midLoopFuel fuel target b = .ok (us, b2) →
    b2.data.length ≤ target := by
  intro fuel
  induction fuel with
  | zero => intro target b us b2 h; exact Except.noConfusion h
  | succ fuel ih =>
    intro target b us b2 h
    unfold SegmentationUPID.midLoopFuel at h
    split at h
    · rw [exceptBind_ok] at h
      obtain ⟨⟨u, bA⟩, -, h⟩ := h
      rw [exceptBind_ok] at h
      obtain ⟨⟨rest, bB⟩, hrec, h⟩ := h
      injection h with h2
      injection h2 with hus hb2
      subst hb2
      exact ih target bA rest bB hrec
    · next hc =>
      injection h with h2
      injection h2 with hus hb2
      subst hb2
      simpa [Bits.bitsRemaining, not_lt] using hc

theorem midConsume_fuel : ∀ (fuel : Nat) (b : Bits)
    (cs : List SegmentationUPID) (b2 : Bits),
    SegmentationUPID.tryFromFuel fuel b = .ok (.mid cs, b2) →
    b2.data.length + 16 + 8 * (bitsVal ((b.data.drop 8).take 8) % 2 ^ 8)
      ≤ b.data.length := by
  intro fuel b cs b2 h
  cases fuel with
  | zero => exact Except.noConfusion h
  | succ fuel =>
    unfold SegmentationUPID.tryFromFuel at h
    rw [exceptBind_ok] at h
    obtain ⟨⟨raw, bA⟩, hbyte1, h⟩ := h
    rw [exceptBind_ok] at h
    obtain ⟨t, -, h⟩ := h
    rw [exceptBind_ok] at h
    obtain ⟨⟨L, bB⟩, hbyte2, h⟩ := h
    rw [exceptBind_ok] at h
    obtain ⟨⟨u, bC⟩, hval, h⟩ := h
    obtain ⟨hlen1, hr1⟩ := byte_ok_iff.mp hbyte1
    injection hr1 with hraw hbA
    obtain ⟨hlen2, hr2⟩ := byte_ok_iff.mp hbyte2
    injection hr2 with hL hbB
    obtain ⟨hlen3, hr3⟩ := validate_ok_iff.mp hval
    injection hr3 with hu hbC
    subst hbA
    subst hbB
    subst hbC
    subst hL
    subst hu
    simp only [] at h
    cases fuel with
    | zero => exact Except.noConfusion h
    | succ fuel2 =>
      cases t
      case mid =>
        unfold SegmentationUPID.tryFromWithTypeFuel at h
        rw [exceptBind_ok] at h
        obtain ⟨⟨us, bf⟩, hloop, h⟩ := h
        injection h with h2
        injection h2 with hus hb2
        subst hb2
        have hbound := midLoop_exit_bound fuel2 _ _ _ _ hloop
        simp only [Bits.bitsRemaining] at hbound hlen3 ⊢
        simp only [List.length_drop] at hbound hlen2 hlen3 ⊢
        omega
      all_goals
        (unfold SegmentationUPID.tryFromWithTypeFuel at h
         repeat
           (rw [exceptBind_ok] at h
            obtain ⟨a, -, h⟩ := h
            first
              | obtain ⟨_, _⟩ := a
              | obtain ⟨⟩ := a
            simp only [] at h)
         injection h with h2
         injection h2 with hupid hrest
         exact SegmentationUPID.noConfusion hupid)

/-- C7, corrected: for every successfully parsed `SegmentationUPID::MID`
with declared `upid_length` L, the recursive child-UPID loop consumes at
least the declared L bytes after the 2-byte header — but not necessarily
exactly L: a child whose own header crosses the declared boundary makes
the loop overshoot, as the counterexample shows. -/
theorem c7_mid_consumes_at_least (b : Bits) (cs : List SegmentationUPID)
    (b2 : Bits) (h : SegmentationUPID.tryFrom b = .ok (.mid cs, b2)) :
    b2.data.length + 16 + 8 * (bitsVal ((b.data.drop 8).take 8) % 2 ^ 8)
      ≤ b.data.length := by
  unfold SegmentationUPID.tryFrom at h
  exact midConsume_fuel _ b cs b2 h

/-- Counterexample to C7 as claimed: a MID declaring L = 1 payload byte
whose single child (a two-byte `UserDefined` header) makes the loop
consume 2 bytes, so Σ(child upid_length + 2) = 2 ≠ 1 = L and the total
consumed is 32 bits, not the 24 the exact-consumption claim predicts. -/
theorem c7_counterexample :
    SegmentationUPID.tryFrom c7Input = .ok (.mid [.userDefined ""], ⟨[], []⟩) ∧
    bitsVal ((c7Input.data.drop 8).take 8) % 2 ^ 8 = 1 ∧
    c7Input.data.length = 32 ∧
    (16 + 8 * 1 : Nat) ≠ 32 - 0 :=
  ⟨rfl, by decide, by decide, by decide⟩

/-- Witness for C7's corrected bound at the same concrete MID input. -/
theorem c7_witness :
    SegmentationUPID.tryFrom c7Input = .ok (.mid [.userDefined ""], ⟨[], []⟩) ∧
    (⟨[], []⟩ : Bits).data.length + 16 +
      8 * (bitsVal ((c7Input.data.drop 8).take 8) % 2 ^ 8) ≤
      c7Input.data.length :=
  ⟨rfl, c7_mid_consumes_at_least c7Input [.userDefined ""] ⟨[], []⟩ rfl⟩

end Scte35

namespace Scte35

/-! ### State sweep: every descriptor-body sub-parser leaves the non-fatal
error list unchanged and never grows the remaining data. -/

theorem stateStep {bA bB bC : Bits}
    (h1 : bB.nonFatalErrors = bA.nonFatalErrors ∧
      bB.data.length ≤ bA.data.length)
    (h2 : bC.nonFatalErrors = bB.nonFatalErrors ∧
      bC.data.length ≤ bB.data.length) :
    bC.nonFatalErrors = bA.nonFatalErrors ∧
      bC.data.length ≤ bA.data.length :=
  ⟨h2.1.trans h1.1, h2.2.trans h1.2⟩

theorem state_u8 {n : Nat} {b : Bits} {v : Nat} {b2 : Bits}
    (h : b.u8 n = .ok (v, b2)) :
    b2.nonFatalErrors = b.nonFatalErrors ∧
      b2.data.length ≤ b.data.length := by
  obtain ⟨-, hr⟩ := u8_ok_iff.mp h
  injection hr with hv hb2
  subst hb2
  exact ⟨rfl, by simp only [List.length_drop]; omega⟩

theorem state_u16 {n : Nat} {b : Bits} {v : Nat} {b2 : Bits}
    (h : b.u16 n = .ok (v, b2)) :
    b2.nonFatalErrors = b.nonFatalErrors ∧
      b2.data.length ≤ b.data.length := by
  obtain ⟨-, hr⟩ := u16_ok_iff.mp h
  injection hr with hv hb2
  subst hb2
  exact ⟨rfl, by simp only [List.length_drop]; omega⟩

theorem state_u32 {n : Nat} {b : Bits} {v : Nat} {b2 : Bits}
    (h : b.u32 n = .ok (v, b2)) :
    b2.nonFatalErrors = b.nonFatalErrors ∧
      b2.data.length ≤ b.data.length := by
  obtain ⟨-, hr⟩ := u32_ok_iff.mp h
  injection hr with hv hb2
  subst hb2
  exact ⟨rfl, by simp only [List.length_drop]; omega⟩

theorem state_u64 {n : Nat} {b : Bits} {v : Nat} {b2 : Bits}
    (h : b.u64 n = .ok (v, b2)) :
    b2.nonFatalErrors = b.nonFatalErrors ∧
      b2.data.length ≤ b.data.length := by
  obtain ⟨-, hr⟩ := u64_ok_iff.mp h
  injection hr with hv hb2
  subst hb2
  exact ⟨rfl, by simp only [List.length_drop]; omega⟩

theorem state_byte {b : Bits} {v : Nat} {b2 : Bits}
    (h : b.byte = .ok (v, b2)) :
    b2.nonFatalErrors = b.nonFatalErrors ∧
      b2.data.length ≤ b.data.length :=
  state_u8 h

theorem state_bool {b : Bits} {v : Bool} {b2 : Bits}
    (h : b.bool = .ok (v, b2)) :
    b2.nonFatalErrors = b.nonFatalErrors ∧
      b2.data.length ≤ b.data.length := by
  obtain ⟨-, hr⟩ := bool_ok_iff.mp h
  injection hr with hv hb2
  subst hb2
  exact ⟨rfl, by simp only [List.length_drop]; omega⟩

theorem state_consume {n : Nat} {b : Bits} {v : Unit} {b2 : Bits}
    (h : b.consume n = .ok (v, b2)) :
    b2.nonFatalErrors = b.nonFatalErrors ∧
      b2.data.length ≤ b.data.length := by
  obtain ⟨-, hr⟩ := consume_ok_iff.mp h
  injection hr with hv hb2
  subst hb2
  exact ⟨rfl, by simp only [List.length_drop]; omega⟩

theorem state_bitsValidate {n : Nat} {d : String} {b : Bits} {v : Unit}
    {b2 : Bits} (h : b.validate n d = .ok (v, b2)) :
    b2.nonFatalErrors = b.nonFatalErrors ∧
      b2.data.length ≤ b.data.length := by
  obtain ⟨-, hr⟩ := validate_ok_iff.mp h
  injection hr with hv hb2
  subst hb2
  exact ⟨rfl, le_refl _⟩

theorem state_string {n : Nat} {d : String} {b : Bits} {s : String}
    {b2 : Bits} (h : b.string n d = .ok (s, b2)) :
    b2.nonFatalErrors = b.nonFatalErrors ∧
      b2.data.length ≤ b.data.length :=
  string_ok_state h

theorem state_subSegment (b : Bits) (tid : SegmentationTypeID)
    (blaft : Nat) :
    (SubSegment.tryFrom b tid blaft).2.nonFatalErrors = b.nonFatalErrors ∧
    (SubSegment.tryFrom b tid blaft).2.data.length ≤ b.data.length := by
  rw [subSegment_tryFrom_eq]
  split_ifs
  · exact ⟨rfl, le_refl _⟩
  · exact ⟨rfl, le_refl _⟩
  · cases tid <;>
      first
        | exact ⟨rfl, le_refl _⟩
        | exact ⟨rfl, by simp only [List.length_drop]; omega⟩

theorem state_hschLoop (ci : List Nat) : ∀ (count i : Nat)
    (sections : List String) (b : Bits) (v : List String) (b2 : Bits),
    hschSectionsLoop ci count i sections b = .ok (v, b2) →
    b2.nonFatalErrors = b.nonFatalErrors ∧
      b2.data.length ≤ b.data.length := by
  intro count
  induction count with
  | zero =>
    intro i sections b v b2 h
    injection h with h2
    injection h2 with hv hb2
    subst hb2
    exact ⟨rfl, le_refl _⟩
  | succ count ih =>
    intro i sections b v b2 h
    unfold hschSectionsLoop at h
    split at h
    · rw [exceptBind_ok] at h
      obtain ⟨c, -, h⟩ := h
      exact ih (i + 1) (sections ++ [c.toString]) b v b2 h
    · rw [exceptBind_ok] at h
      obtain ⟨⟨w, bA⟩, hw, h⟩ := h
      exact stateStep (state_u16 hw)
        (ih (i + 1) (sections ++ [asciiUpper ⟨hexPadChars 4 w⟩]) bA v b2 h)

theorem state_hschRead {ver : HyphenSeparatedCheckedHexVersion} {b : Bits}
    {s : String} {b2 : Bits} (h : ver.read b = .ok (s, b2)) :
    b2.nonFatalErrors = b.nonFatalErrors ∧
      b2.data.length ≤ b.data.length := by
  obtain ⟨⟨secs, bA⟩, hsec, hr⟩ := exceptMap_ok.mp h
  injection hr with hs hb2
  subst hb2
  exact state_hschLoop ver.checkIndices (ver.indexMax + 1) 0 [] b secs bA hsec

theorem state_umidLoop : ∀ (n : Nat) (b : Bits) (v : List String)
    (b2 : Bits), umidLoop n b = .ok (v, b2) →
    b2.nonFatalErrors = b.nonFatalErrors ∧
      b2.data.length ≤ b.data.length := by
  intro n
  induction n with
  | zero =>
    intro b v b2 h
    injection h with h2
    injection h2 with hv hb2
    subst hb2
    exact ⟨rfl, le_refl _⟩
  | succ n ih =>
    intro b v b2 h
    unfold umidLoop at h
    rw [exceptBind_ok] at h
    obtain ⟨⟨w, bA⟩, hw, h⟩ := h
    rw [exceptBind_ok] at h
    obtain ⟨⟨rest, bB⟩, hrest, h⟩ := h
    injection h with h2
    injection h2 with hv hb2
    subst hb2
    exact stateStep (state_u32 hw) (ih bA rest bB hrest)

theorem state_readBytesLoop : ∀ (n : Nat) (b : Bits) (v : List Nat)
    (b2 : Bits), readBytesLoop n b = .ok (v, b2) →
    b2.nonFatalErrors = b.nonFatalErrors ∧
      b2.data.length ≤ b.data.length := by
  intro n
  induction n with
  | zero =>
    intro b v b2 h
    injection h with h2
    injection h2 with hv hb2
    subst hb2
    exact ⟨rfl, le_refl _⟩
  | succ n ih =>
    intro b v b2 h
    unfold readBytesLoop at h
    rw [exceptBind_ok] at h
    obtain ⟨⟨w, bA⟩, hw, h⟩ := h
    rw [exceptBind_ok] at h
    obtain ⟨⟨rest, bB⟩, hrest, h⟩ := h
    injection h with h2
    injection h2 with hv hb2
    subst hb2
    exact stateStep (state_byte hw) (ih bA rest bB hrest)

theorem state_atsc {b : Bits} {n : Nat} {a : ATSCContentIdentifier}
    {b2 : Bits} (h : ATSCContentIdentifier.tryFrom b n = .ok (a, b2)) :
    b2.nonFatalErrors = b.nonFatalErrors ∧
      b2.data.length ≤ b.data.length := by
  unfold ATSCContentIdentifier.tryFrom at h
  split at h
  · exact Except.noConfusion h
  · rw [exceptBind_ok] at h
    obtain ⟨⟨tsid, bA⟩, h1, h⟩ := h
    rw [exceptBind_ok] at h
    obtain ⟨⟨u, bB⟩, h2, h⟩ := h
    rw [exceptBind_ok] at h
    obtain ⟨⟨eod, bC⟩, h3, h⟩ := h
    rw [exceptBind_ok] at h
    obtain ⟨⟨uf, bD⟩, h4, h⟩ := h
    rw [exceptBind_ok] at h
    obtain ⟨⟨cid, bE⟩, h5, h⟩ := h
    injection h with hh
    injection hh with hv hb2
    subst hb2
    exact stateStep (state_u16 h1) (stateStep (state_consume h2)
      (stateStep (state_u8 h3) (stateStep (state_u16 h4) (state_string h5))))

theorem state_mpu {b : Bits} {n : Nat} {m : ManagedPrivateUPID} {b2 : Bits}
    (h : ManagedPrivateUPID.tryFrom b n = .ok (m, b2)) :
    b2.nonFatalErrors = b.nonFatalErrors ∧
      b2.data.length ≤ b.data.length := by
  unfold ManagedPrivateUPID.tryFrom at h
  split at h
  · exact Except.noConfusion h
  · rw [exceptBind_ok] at h
    obtain ⟨⟨fs, bA⟩, h1, h⟩ := h
    rw [exceptBind_ok] at h
    obtain ⟨⟨pd, bB⟩, h2, h⟩ := h
    injection h with hh
    injection hh with hv hb2
    subst hb2
    exact stateStep (state_string h1) (state_readBytesLoop _ bA pd bB h2)

end Scte35

namespace Scte35

theorem state_upidFuel : ∀ (fuel : Nat),
    (∀ (b : Bits) (u : SegmentationUPID) (b2 : Bits),
      SegmentationUPID.tryFromFuel fuel b = .ok (u, b2) →
      b2.nonFatalErrors = b.nonFatalErrors ∧
        b2.data.length ≤ b.data.length) ∧
    (∀ (t : SegmentationUPIDType) (L : Nat) (b : Bits)
      (u : SegmentationUPID) (b2 : Bits),
      SegmentationUPID.tryFromWithTypeFuel fuel t L b = .ok (u, b2) →
      b2.nonFatalErrors = b.nonFatalErrors ∧
        b2.data.length ≤ b.data.length) ∧
    (∀ (tgt : Nat) (b : Bits) (us : List SegmentationUPID) (b2 : Bits),
      SegmentationUPID.midLoopFuel fuel tgt b = .ok (us, b2) →
      b2.nonFatalErrors = b.nonFatalErrors ∧
        b2.data.length ≤ b.data.length) := by
  intro fuel
  induction fuel with
  | zero =>
    exact ⟨fun b u b2 h => Except.noConfusion h,
      fun t L b u b2 h => Except.noConfusion h,
      fun tgt b us b2 h => Except.noConfusion h⟩
  | succ fuel ih =>
    obtain ⟨ih1, ih2, ih3⟩ := ih
    refine ⟨fun b u b2 h => ?_, fun t L b u b2 h => ?_,
      fun tgt b us b2 h => ?_⟩
    · unfold SegmentationUPID.tryFromFuel at h
      rw [exceptBind_ok] at h
      obtain ⟨⟨raw, bA⟩, h1, h⟩ := h
      rw [exceptBind_ok] at h
      obtain ⟨t, -, h⟩ := h
      rw [exceptBind_ok] at h
      obtain ⟨⟨L, bB⟩, h2, h⟩ := h
      rw [exceptBind_ok] at h
      obtain ⟨⟨w, bC⟩, h3, h⟩ := h
      exact stateStep (state_byte h1) (stateStep (state_byte h2)
        (stateStep (state_bitsValidate h3) (ih2 t L bC u b2 h)))
    · unfold SegmentationUPID.tryFromWithTypeFuel at h
      cases t
      case notUsed =>
        rw [exceptBind_ok] at h
        obtain ⟨w, -, h⟩ := h
        injection h with hh
        injection hh with hv hb2
        subst hb2
        exact ⟨rfl, le_refl _⟩
      case userDefined =>
        rw [exceptBind_ok] at h
        obtain ⟨⟨s, bA⟩, h1, h⟩ := h
        injection h with hh
        injection hh with hv hb2
        subst hb2
        exact state_string h1
      case isci =>
        rw [exceptBind_ok] at h
        obtain ⟨w, -, h⟩ := h
        obtain ⟨⟩ := w
        simp only [] at h
        rw [exceptBind_ok] at h
        obtain ⟨⟨s, bA⟩, h1, h⟩ := h
        injection h with hh
        injection hh with hv hb2
        subst hb2
        exact state_string h1
      case adID =>
        rw [exceptBind_ok] at h
        obtain ⟨w, -, h⟩ := h
        obtain ⟨⟩ := w
        simp only [] at h
        rw [exceptBind_ok] at h
        obtain ⟨⟨s, bA⟩, h1, h⟩ := h
        injection h with hh
        injection hh with hv hb2
        subst hb2
        exact state_string h1
      case umid =>
        rw [exceptBind_ok] at h
        obtain ⟨w, -, h⟩ := h
        obtain ⟨⟩ := w
        simp only [] at h
        rw [exceptBind_ok] at h
        obtain ⟨⟨gs, bA⟩, h1, h⟩ := h
        injection h with hh
        injection hh with hv hb2
        subst hb2
        exact state_umidLoop 8 b gs bA h1
      case deprecatedISAN =>
        rw [exceptBind_ok] at h
        obtain ⟨w, -, h⟩ := h
        obtain ⟨⟩ := w
        simp only [] at h
        rw [exceptBind_ok] at h
        obtain ⟨⟨s, bA⟩, h1, h⟩ := h
        injection h with hh
        injection hh with hv hb2
        subst hb2
        exact state_hschRead h1
      case isan =>
        rw [exceptBind_ok] at h
        obtain ⟨w, -, h⟩ := h
        obtain ⟨⟩ := w
        simp only [] at h
        rw [exceptBind_ok] at h
        obtain ⟨⟨s, bA⟩, h1, h⟩ := h
        injection h with hh
        injection hh with hv hb2
        subst hb2
        exact state_hschRead h1
      case tid =>
        rw [exceptBind_ok] at h
        obtain ⟨w, -, h⟩ := h
        obtain ⟨⟩ := w
        simp only [] at h
        rw [exceptBind_ok] at h
        obtain ⟨⟨s, bA⟩, h1, h⟩ := h
        injection h with hh
        injection hh with hv hb2
        subst hb2
        exact state_string h1
      case ti =>
        rw [exceptBind_ok] at h
        obtain ⟨w, -, h⟩ := h
        obtain ⟨⟩ := w
        simp only [] at h
        injection h with hh
        injection hh with hv hb2
        subst hb2
        exact bytes_state
      case adi =>
        rw [exceptBind_ok] at h
        obtain ⟨⟨s, bA⟩, h1, h⟩ := h
        injection h with hh
        injection hh with hv hb2
        subst hb2
        exact state_string h1
      case eidr =>
        rw [exceptBind_ok] at h
        obtain ⟨w, -, h⟩ := h
        obtain ⟨⟩ := w
        simp only [] at h
        rw [exceptBind_ok] at h
        obtain ⟨⟨v16, bA⟩, h1, h⟩ := h
        rw [exceptBind_ok] at h
        obtain ⟨⟨s, bB⟩, h2, h⟩ := h
        injection h with hh
        injection hh with hv hb2
        subst hb2
        exact stateStep (state_u16 h1) (state_hschRead h2)
      case atscContentIdentifier =>
        rw [exceptBind_ok] at h
        obtain ⟨⟨a, bA⟩, h1, h⟩ := h
        injection h with hh
        injection hh with hv hb2
        subst hb2
        exact state_atsc h1
      case mpu =>
        rw [exceptBind_ok] at h
        obtain ⟨⟨m, bA⟩, h1, h⟩ := h
        injection h with hh
        injection hh with hv hb2
        subst hb2
        exact state_mpu h1
      case mid =>
        rw [exceptBind_ok] at h
        obtain ⟨⟨us, bA⟩, h1, h⟩ := h
        injection h with hh
        injection hh with hv hb2
        subst hb2
        exact ih3 _ b us bA h1
      case adsInformation =>
        rw [exceptBind_ok] at h
        obtain ⟨⟨s, bA⟩, h1, h⟩ := h
        injection h with hh
        injection hh with hv hb2
        subst hb2
        exact state_string h1
      case uri =>
        rw [exceptBind_ok] at h
        obtain ⟨⟨s, bA⟩, h1, h⟩ := h
        injection h with hh
        injection hh with hv hb2
        subst hb2
        exact state_string h1
      case uuid =>
        rw [exceptBind_ok] at h
        obtain ⟨w, -, h⟩ := h
        obtain ⟨⟩ := w
        simp only [] at h
        rw [exceptBind_ok] at h
        obtain ⟨⟨s, bA⟩, h1, h⟩ := h
        injection h with hh
        injection hh with hv hb2
        subst hb2
        exact state_string h1
    · unfold SegmentationUPID.midLoopFuel at h
      split at h
      · rw [exceptBind_ok] at h
        obtain ⟨⟨u, bA⟩, h1, h⟩ := h
        rw [exceptBind_ok] at h
        obtain ⟨⟨rest, bB⟩, h2, h⟩ := h
        injection h with hh
        injection hh with hv hb2
        subst hb2
        exact stateStep (ih1 b u bA h1) (ih3 tgt bA rest bB h2)
      · injection h with hh
        injection hh with hv hb2
        subst hb2
        exact ⟨rfl, le_refl _⟩

theorem state_upidTryFrom {b : Bits} {u : SegmentationUPID} {b2 : Bits}
    (h : SegmentationUPID.tryFrom b = .ok (u, b2)) :
    b2.nonFatalErrors = b.nonFatalErrors ∧
      b2.data.length ≤ b.data.length := by
  unfold SegmentationUPID.tryFrom at h
  exact (state_upidFuel _).1 b u b2 h

theorem state_componentSegLoop : ∀ (n : Nat) (b : Bits)
    (v : List ComponentSegmentation) (b2 : Bits),
    componentSegLoop n b = .ok (v, b2) →
    b2.nonFatalErrors = b.nonFatalErrors ∧
      b2.data.length ≤ b.data.length := by
  intro n
  induction n with
  | zero =>
    intro b v b2 h
    injection h with h2
    injection h2 with hv hb2
    subst hb2
    exact ⟨rfl, le_refl _⟩
  | succ n ih =>
    intro b v b2 h
    unfold componentSegLoop at h
    rw [exceptBind_ok] at h
    obtain ⟨⟨ct, bA⟩, h1, h⟩ := h
    rw [exceptBind_ok] at h
    obtain ⟨⟨w, bB⟩, h2, h⟩ := h
    rw [exceptBind_ok] at h
    obtain ⟨⟨po, bC⟩, h3, h⟩ := h
    rw [exceptBind_ok] at h
    obtain ⟨⟨rest, bD⟩, h4, h⟩ := h
    injection h with hh
    injection hh with hv hb2
    subst hb2
    exact stateStep (state_byte h1) (stateStep (state_consume h2)
      (stateStep (state_u64 h3) (ih bC rest bD h4)))

theorem state_readDeliveryRestrictions {f : Bool} {b : Bits}
    {v : Option DeliveryRestrictions} {b2 : Bits}
    (h : readDeliveryRestrictions f b = .ok (v, b2)) :
    b2.nonFatalErrors = b.nonFatalErrors ∧
      b2.data.length ≤ b.data.length := by
  unfold readDeliveryRestrictions at h
  split at h
  · rw [exceptBind_ok] at h
    obtain ⟨⟨w, bA⟩, h1, h⟩ := h
    injection h with hh
    injection hh with hv hb2
    subst hb2
    exact state_consume h1
  · rw [exceptBind_ok] at h
    obtain ⟨⟨w1, bA⟩, h1, h⟩ := h
    rw [exceptBind_ok] at h
    obtain ⟨⟨w2, bB⟩, h2, h⟩ := h
    rw [exceptBind_ok] at h
    obtain ⟨⟨w3, bC⟩, h3, h⟩ := h
    rw [exceptBind_ok] at h
    obtain ⟨⟨w4, bD⟩, h4, h⟩ := h
    injection h with hh
    injection hh with hv hb2
    subst hb2
    exact stateStep (state_bool h1) (stateStep (state_bool h2)
      (stateStep (state_bool h3) (state_u8 h4)))

theorem state_readComponentSegments {f : Bool} {b : Bits}
    {v : Option (List ComponentSegmentation)} {b2 : Bits}
    (h : readComponentSegments f b = .ok (v, b2)) :
    b2.nonFatalErrors = b.nonFatalErrors ∧
      b2.data.length ≤ b.data.length := by
  unfold readComponentSegments at h
  split at h
  · injection h with hh
    injection hh with hv hb2
    subst hb2
    exact ⟨rfl, le_refl _⟩
  · rw [exceptBind_ok] at h
    obtain ⟨⟨cc, bA⟩, h1, h⟩ := h
    rw [exceptBind_ok] at h
    obtain ⟨⟨cs, bB⟩, h2, h⟩ := h
    injection h with hh
    injection hh with hv hb2
    subst hb2
    exact stateStep (state_byte h1) (state_componentSegLoop cc bA cs bB h2)

theorem state_readSegmentationDuration {f : Bool} {b : Bits}
    {v : Option Nat} {b2 : Bits}
    (h : readSegmentationDuration f b = .ok (v, b2)) :
    b2.nonFatalErrors = b.nonFatalErrors ∧
      b2.data.length ≤ b.data.length := by
  unfold readSegmentationDuration at h
  split at h
  · rw [exceptBind_ok] at h
    obtain ⟨⟨w, bA⟩, h1, h⟩ := h
    injection h with hh
    injection hh with hv hb2
    subst hb2
    exact state_u64 h1
  · injection h with hh
    injection hh with hv hb2
    subst hb2
    exact ⟨rfl, le_refl _⟩

theorem state_scheduledEvent {b : Bits} {blaft : Nat} {ev : ScheduledEvent}
    {b2 : Bits} (h : ScheduledEvent.tryFrom b blaft = .ok (ev, b2)) :
    b2.nonFatalErrors = b.nonFatalErrors ∧
      b2.data.length ≤ b.data.length := by
  unfold ScheduledEvent.tryFrom at h
  rw [exceptBind_ok] at h
  obtain ⟨⟨psf, bA⟩, h1, h⟩ := h
  rw [exceptBind_ok] at h
  obtain ⟨⟨sdf, bB⟩, h2, h⟩ := h
  rw [exceptBind_ok] at h
  obtain ⟨⟨dnr, bC⟩, h3, h⟩ := h
  rw [exceptBind_ok] at h
  obtain ⟨⟨dr, bD⟩, h4, h⟩ := h
  rw [exceptBind_ok] at h
  obtain ⟨⟨cs, bE⟩, h5, h⟩ := h
  rw [exceptBind_ok] at h
  obtain ⟨⟨sd, bF⟩, h6, h⟩ := h
  rw [exceptBind_ok] at h
  obtain ⟨⟨upid, bG⟩, h7, h⟩ := h
  rw [exceptBind_ok] at h
  obtain ⟨⟨tr, bH⟩, h8, h⟩ := h
  rw [exceptBind_ok] at h
  obtain ⟨tid, -, h⟩ := h
  rw [exceptBind_ok] at h
  obtain ⟨⟨sn, bI⟩, h9, h⟩ := h
  rw [exceptBind_ok] at h
  obtain ⟨⟨se, bJ⟩, h10, h⟩ := h
  injection h with hh
  injection hh with hv hb2
  subst hb2
  exact stateStep (state_bool h1) (stateStep (state_bool h2)
    (stateStep (state_bool h3) (stateStep (state_readDeliveryRestrictions h4)
      (stateStep (state_readComponentSegments h5)
        (stateStep (state_readSegmentationDuration h6)
          (stateStep (state_upidTryFrom h7) (stateStep (state_byte h8)
            (stateStep (state_byte h9) (stateStep (state_byte h10)
              (state_subSegment bJ tid blaft))))))))))

theorem state_readScheduledEvent {f : Bool} {blaft : Nat} {b : Bits}
    {v : Option ScheduledEvent} {b2 : Bits}
    (h : readScheduledEvent f blaft b = .ok (v, b2)) :
    b2.nonFatalErrors = b.nonFatalErrors ∧
      b2.data.length ≤ b.data.length := by
  unfold readScheduledEvent at h
  split at h
  · injection h with hh
    injection hh with hv hb2
    subst hb2
    exact ⟨rfl, le_refl _⟩
  · rw [exceptBind_ok] at h
    obtain ⟨⟨ev, bA⟩, h1, h⟩ := h
    injection h with hh
    injection hh with hv hb2
    subst hb2
    exact state_scheduledEvent h1

theorem state_audioComponent {b : Bits} {c : AudioComponent} {b2 : Bits}
    (h : AudioComponent.tryFrom b = .ok (c, b2)) :
    b2.nonFatalErrors = b.nonFatalErrors ∧
      b2.data.length ≤ b.data.length := by
  unfold AudioComponent.tryFrom at h
  rw [exceptBind_ok] at h
  obtain ⟨⟨ct, bA⟩, h1, h⟩ := h
  rw [exceptBind_ok] at h
  obtain ⟨⟨iso, bB⟩, h2, h⟩ := h
  rw [exceptBind_ok] at h
  obtain ⟨⟨bsm, bC⟩, h3, h⟩ := h
  rw [exceptBind_ok] at h
  obtain ⟨⟨fl, bD⟩, h4, h⟩ := h
  simp only [] at h
  split at h
  · rw [exceptBind_ok] at h
    obtain ⟨⟨acm, bE⟩, h5, h⟩ := h
    rw [exceptBind_ok] at h
    obtain ⟨a1, -, h⟩ := h
    rw [exceptBind_ok] at h
    obtain ⟨a2, -, h⟩ := h
    rw [exceptBind_ok] at h
    obtain ⟨⟨fsa, bF⟩, h6, h⟩ := h
    injection h with hh
    injection hh with hv hb2
    subst hb2
    exact stateStep (state_byte h1) (stateStep (state_u32 h2)
      (stateStep (state_u8 h3) (stateStep (state_bool h4)
        (stateStep (state_u8 h5) (state_bool h6)))))
  · rw [exceptBind_ok] at h
    obtain ⟨⟨mx, bE⟩, h5, h⟩ := h
    rw [exceptBind_ok] at h
    obtain ⟨a2, -, h⟩ := h
    rw [exceptBind_ok] at h
    obtain ⟨⟨fsa, bF⟩, h6, h⟩ := h
    injection h with hh
    injection hh with hv hb2
    subst hb2
    exact stateStep (state_byte h1) (stateStep (state_u32 h2)
      (stateStep (state_u8 h3) (stateStep (state_bool h4)
        (stateStep (state_u8 h5) (state_bool h6)))))

theorem state_audioComponentLoop : ∀ (n : Nat) (b : Bits)
    (v : List AudioComponent) (b2 : Bits),
    audioComponentLoop n b = .ok (v, b2) →
    b2.nonFatalErrors = b.nonFatalErrors ∧
      b2.data.length ≤ b.data.length := by
  intro n
  induction n with
  | zero =>
    intro b v b2 h
    injection h with h2
    injection h2 with hv hb2
    subst hb2
    exact ⟨rfl, le_refl _⟩
  | succ n ih =>
    intro b v b2 h
    unfold audioComponentLoop at h
    rw [exceptBind_ok] at h
    obtain ⟨⟨c, bA⟩, h1, h⟩ := h
    rw [exceptBind_ok] at h
    obtain ⟨⟨rest, bB⟩, h2, h⟩ := h
    injection h with hh
    injection hh with hv hb2
    subst hb2
    exact stateStep (state_audioComponent h1) (ih bA rest bB h2)

end Scte35

namespace Scte35

theorem dle_ok_elim {b : Bits} {ds : String}
    {e : DescriptorLengthExpectation} {b1 : Bits}
    (h : DescriptorLengthExpectation.tryFrom b ds = .ok (e, b1)) :
    8 ≤ b.data.length ∧
    (bitsVal (b.data.take 8) % 2 ^ 32) * 8 ≤ (b.data.drop 8).length ∧
    e = ⟨(bitsVal (b.data.take 8) % 2 ^ 32) * 8,
         (((b.data.drop 8).length : Nat) : Int),
         (((b.data.drop 8).length : Nat) : Int) -
           (((bitsVal (b.data.take 8) % 2 ^ 32) * 8 : Nat) : Int)⟩ ∧
    b1 = ⟨b.data.drop 8, b.nonFatalErrors⟩ := by
  unfold DescriptorLengthExpectation.tryFrom at h
  rw [exceptBind_ok] at h
  obtain ⟨⟨len8, bA⟩, hu, h⟩ := h
  rw [exceptBind_ok] at h
  obtain ⟨⟨w, bB⟩, hv, h⟩ := h
  obtain ⟨hl1, hr1⟩ := u32_ok_iff.mp hu
  injection hr1 with hlen8 hbA
  obtain ⟨hl2, hr2⟩ := validate_ok_iff.mp hv
  injection hr2 with hw hbB
  subst hbA
  subst hbB
  subst hlen8
  injection h with hh
  injection hh with he hb1
  exact ⟨hl1, hl2, he.symm, hb1.symm⟩

theorem validateNonFatal_spec (e : DescriptorLengthExpectation)
    (bodyEnd : Bits) (tag : SpliceDescriptorTag) (B D : Nat)
    (hB : e.bitsRemainingBeforeDescriptor = (B : Int))
    (hD : e.descriptorBitsLength = D)
    (hE : e.expectedBitsRemainingAfterDescriptor = (B : Int) - (D : Int))
    (hle : bodyEnd.data.length ≤ B) :
    (e.validateNonFatal bodyEnd tag).data = bodyEnd.data ∧
    (e.validateNonFatal bodyEnd tag).nonFatalErrors =
      bodyEnd.nonFatalErrors ++
      (if D = B - bodyEnd.data.length then []
       else [ParseError.unexpectedSpliceDescriptorLength D
         (B - bodyEnd.data.length) tag]) := by
  unfold DescriptorLengthExpectation.validateNonFatal Bits.pushNonFatalError
    Bits.bitsRemaining
  rw [hB, hD, hE]
  by_cases hc : D = B - bodyEnd.data.length
  · rw [if_neg (by simp only [ne_eq, not_not]; omega), if_pos hc]
    exact ⟨rfl, (List.append_nil _).symm⟩
  · rw [if_pos (by simp only [ne_eq]; omega), if_neg hc]
    refine ⟨rfl, ?_⟩
    rw [Int.toNat_natCast]

theorem frame_avail {b : Bits} {d : AvailDescriptor} {b2 : Bits}
    (h : AvailDescriptor.tryFrom b = .ok (d, b2)) :
    b2.data.length + 8 ≤ b.data.length ∧
    b2.nonFatalErrors = b.nonFatalErrors ++
      (if (bitsVal (b.data.take 8) % 2 ^ 32) * 8 =
          (b.data.length - 8) - b2.data.length then []
       else [ParseError.unexpectedSpliceDescriptorLength
         ((bitsVal (b.data.take 8) % 2 ^ 32) * 8)
         ((b.data.length - 8) - b2.data.length) .availDescriptor]) := by
  unfold AvailDescriptor.tryFrom at h
  rw [exceptBind_ok] at h
  obtain ⟨⟨e, b1⟩, hdle, h⟩ := h
  rw [exceptBind_ok] at h
  obtain ⟨⟨id1, bA⟩, h1, h⟩ := h
  rw [exceptBind_ok] at h
  obtain ⟨⟨pid, bB⟩, h2, h⟩ := h
  injection h with hh
  injection hh with hd hb2
  obtain ⟨hL8, hDle, he, hb1⟩ := dle_ok_elim hdle
  subst hb1
  have hbody := stateStep (state_u32 h1) (state_u32 h2)
  obtain ⟨hdata, hnf⟩ := validateNonFatal_spec e bB .availDescriptor
    ((b.data.drop 8).length) ((bitsVal (b.data.take 8) % 2 ^ 32) * 8)
    (by rw [he]) (by rw [he]) (by rw [he]) hbody.2
  subst hb2
  constructor
  · have hve : (e.validateNonFatal bB .availDescriptor).data.length =
        bB.data.length := congrArg List.length hdata
    have hb2le := hbody.2
    simp only [List.length_drop] at hb2le
    omega
  · have hve : (e.validateNonFatal bB .availDescriptor).data.length =
        bB.data.length := congrArg List.length hdata
    rw [hnf, hbody.1, hve]
    simp only [List.length_drop]

end Scte35

namespace Scte35

theorem frame_dtmf {b : Bits} {d : DTMFDescriptor} {b2 : Bits}
    (h : DTMFDescriptor.tryFrom b = .ok (d, b2)) :
    b2.data.length + 8 ≤ b.data.length ∧
    b2.nonFatalErrors = b.nonFatalErrors ++
      (if (bitsVal (b.data.take 8) % 2 ^ 32) * 8 =
          (b.data.length - 8) - b2.data.length then []
       else [ParseError.unexpectedSpliceDescriptorLength
         ((bitsVal (b.data.take 8) % 2 ^ 32) * 8)
         ((b.data.length - 8) - b2.data.length) .dtmfDescriptor]) := by
  unfold DTMFDescriptor.tryFrom at h
  rw [exceptBind_ok] at h
  obtain ⟨⟨e, b1⟩, hdle, h⟩ := h
  rw [exceptBind_ok] at h
  obtain ⟨⟨id1, bA⟩, h1, h⟩ := h
  rw [exceptBind_ok] at h
  obtain ⟨⟨pre, bB⟩, h2, h⟩ := h
  rw [exceptBind_ok] at h
  obtain ⟨⟨cnt, bC⟩, h3, h⟩ := h
  rw [exceptBind_ok] at h
  obtain ⟨⟨w, bD⟩, h4, h⟩ := h
  rw [exceptBind_ok] at h
  obtain ⟨⟨s, bE⟩, h5, h⟩ := h
  injection h with hh
  injection hh with hd hb2
  obtain ⟨hL8, hDle, he, hb1⟩ := dle_ok_elim hdle
  subst hb1
  have hbody := stateStep (state_u32 h1) (stateStep (state_byte h2)
    (stateStep (state_u8 h3) (stateStep (state_consume h4)
      (state_string h5))))
  obtain ⟨hdata, hnf⟩ := validateNonFatal_spec e bE .dtmfDescriptor
    ((b.data.drop 8).length) ((bitsVal (b.data.take 8) % 2 ^ 32) * 8)
    (by rw [he]) (by rw [he]) (by rw [he]) hbody.2
  subst hb2
  have hve : (e.validateNonFatal bE .dtmfDescriptor).data.length =
      bE.data.length := congrArg List.length hdata
  constructor
  · have hb2le := hbody.2
    simp only [List.length_drop] at hb2le
    omega
  · rw [hnf, hbody.1, hve]
    simp only [List.length_drop]

theorem frame_time {b : Bits} {d : TimeDescriptor} {b2 : Bits}
    (h : TimeDescriptor.tryFrom b = .ok (d, b2)) :
    b2.data.length + 8 ≤ b.data.length ∧
    b2.nonFatalErrors = b.nonFatalErrors ++
      (if (bitsVal (b.data.take 8) % 2 ^ 32) * 8 =
          (b.data.length - 8) - b2.data.length then []
       else [ParseError.unexpectedSpliceDescriptorLength
         ((bitsVal (b.data.take 8) % 2 ^ 32) * 8)
         ((b.data.length - 8) - b2.data.length) .timeDescriptor]) := by
  unfold TimeDescriptor.tryFrom at h
  rw [exceptBind_ok] at h
  obtain ⟨⟨e, b1⟩, hdle, h⟩ := h
  rw [exceptBind_ok] at h
  obtain ⟨⟨id1, bA⟩, h1, h⟩ := h
  rw [exceptBind_ok] at h
  obtain ⟨⟨tai, bB⟩, h2, h⟩ := h
  rw [exceptBind_ok] at h
  obtain ⟨⟨ns, bC⟩, h3, h⟩ := h
  rw [exceptBind_ok] at h
  obtain ⟨⟨off, bD⟩, h4, h⟩ := h
  injection h with hh
  injection hh with hd hb2
  obtain ⟨hL8, hDle, he, hb1⟩ := dle_ok_elim hdle
  subst hb1
  have hbody := stateStep (state_u32 h1) (stateStep (state_u64 h2)
    (stateStep (state_u32 h3) (state_u16 h4)))
  obtain ⟨hdata, hnf⟩ := validateNonFatal_spec e bD .timeDescriptor
    ((b.data.drop 8).length) ((bitsVal (b.data.take 8) % 2 ^ 32) * 8)
    (by rw [he]) (by rw [he]) (by rw [he]) hbody.2
  subst hb2
  have hve : (e.validateNonFatal bD .timeDescriptor).data.length =
      bD.data.length := congrArg List.length hdata
  constructor
  · have hb2le := hbody.2
    simp only [List.length_drop] at hb2le
    omega
  · rw [hnf, hbody.1, hve]
    simp only [List.length_drop]

theorem frame_audio {b : Bits} {d : AudioDescriptor} {b2 : Bits}
    (h : AudioDescriptor.tryFrom b = .ok (d, b2)) :
    b2.data.length + 8 ≤ b.data.length ∧
    b2.nonFatalErrors = b.nonFatalErrors ++
      (if (bitsVal (b.data.take 8) % 2 ^ 32) * 8 =
          (b.data.length - 8) - b2.data.length then []
       else [ParseError.unexpectedSpliceDescriptorLength
         ((bitsVal (b.data.take 8) % 2 ^ 32) * 8)
         ((b.data.length - 8) - b2.data.length) .audioDescriptor]) := by
  unfold AudioDescriptor.tryFrom at h
  rw [exceptBind_ok] at h
  obtain ⟨⟨e, b1⟩, hdle, h⟩ := h
  rw [exceptBind_ok] at h
  obtain ⟨⟨id1, bA⟩, h1, h⟩ := h
  rw [exceptBind_ok] at h
  obtain ⟨⟨cnt, bB⟩, h2, h⟩ := h
  rw [exceptBind_ok] at h
  obtain ⟨⟨w, bC⟩, h3, h⟩ := h
  rw [exceptBind_ok] at h
  obtain ⟨⟨cs, bD⟩, h4, h⟩ := h
  injection h with hh
  injection hh with hd hb2
  obtain ⟨hL8, hDle, he, hb1⟩ := dle_ok_elim hdle
  subst hb1
  have hbody := stateStep (state_u32 h1) (stateStep (state_u8 h2)
    (stateStep (state_consume h3) (state_audioComponentLoop cnt bC cs bD h4)))
  obtain ⟨hdata, hnf⟩ := validateNonFatal_spec e bD .audioDescriptor
    ((b.data.drop 8).length) ((bitsVal (b.data.take 8) % 2 ^ 32) * 8)
    (by rw [he]) (by rw [he]) (by rw [he]) hbody.2
  subst hb2
  have hve : (e.validateNonFatal bD .audioDescriptor).data.length =
      bD.data.length := congrArg List.length hdata
  constructor
  · have hb2le := hbody.2
    simp only [List.length_drop] at hb2le
    omega
  · rw [hnf, hbody.1, hve]
    simp only [List.length_drop]

theorem frame_segmentation {b : Bits} {d : SegmentationDescriptor}
    {b2 : Bits} (h : SegmentationDescriptor.tryFrom b = .ok (d, b2)) :
    b2.data.length + 8 ≤ b.data.length ∧
    b2.nonFatalErrors = b.nonFatalErrors ++
      (if (bitsVal (b.data.take 8) % 2 ^ 32) * 8 =
          (b.data.length - 8) - b2.data.length then []
       else [ParseError.unexpectedSpliceDescriptorLength
         ((bitsVal (b.data.take 8) % 2 ^ 32) * 8)
         ((b.data.length - 8) - b2.data.length) .segmentationDescriptor]) := by
  unfold SegmentationDescriptor.tryFrom at h
  rw [exceptBind_ok] at h
  obtain ⟨⟨e, b1⟩, hdle, h⟩ := h
  rw [exceptBind_ok] at h
  obtain ⟨⟨ident, bA⟩, h1, h⟩ := h
  simp only [] at h
  split at h
  · exact Except.noConfusion h
  · rw [exceptBind_ok] at h
    obtain ⟨⟨eid, bB⟩, h2, h⟩ := h
    rw [exceptBind_ok] at h
    obtain ⟨⟨sec, bC⟩, h3, h⟩ := h
    rw [exceptBind_ok] at h
    obtain ⟨⟨w, bD⟩, h4, h⟩ := h
    rw [exceptBind_ok] at h
    obtain ⟨⟨sev, bE⟩, h5, h⟩ := h
    injection h with hh
    injection hh with hd hb2
    obtain ⟨hL8, hDle, he, hb1⟩ := dle_ok_elim hdle
    subst hb1
    have hbody := stateStep (state_u32 h1) (stateStep (state_u32 h2)
      (stateStep (state_bool h3) (stateStep (state_consume h4)
        (state_readScheduledEvent h5))))
    obtain ⟨hdata, hnf⟩ := validateNonFatal_spec e bE .segmentationDescriptor
      ((b.data.drop 8).length) ((bitsVal (b.data.take 8) % 2 ^ 32) * 8)
      (by rw [he]) (by rw [he]) (by rw [he]) hbody.2
    subst hb2
    simp only []
    have hve : (e.validateNonFatal bE .segmentationDescriptor).data.length =
        bE.data.length := congrArg List.length hdata
    constructor
    · have hb2le := hbody.2
      simp only [List.length_drop] at hb2le
      omega
    · rw [hnf, hbody.1, hve]
      simp only [List.length_drop]

end Scte35

namespace Scte35

/-- C9: whenever a splice descriptor's body decoder returns successfully,
the parse still succeeds, the tag and length bytes plus body consume at
least 16 bits, and exactly one non-fatal
`UnexpectedSpliceDescriptorLength{declared, actual, tag}` record is
appended to the reader's non-fatal list when the bits consumed by the
body differ from `descriptor_length * 8` — and nothing is appended when
they match. -/
theorem c9_descriptor_length_validation (b : Bits) (d : SpliceDescriptor)
    (b2 : Bits) (h : SpliceDescriptor.tryFrom b = .ok (d, b2)) :
    b2.data.length + 16 ≤ b.data.length ∧
    b2.nonFatalErrors = b.nonFatalErrors ++
      (if (bitsVal ((b.data.drop 8).take 8) % 2 ^ 32) * 8 =
          (b.data.length - 16) - b2.data.length then []
       else [ParseError.unexpectedSpliceDescriptorLength
         ((bitsVal ((b.data.drop 8).take 8) % 2 ^ 32) * 8)
         ((b.data.length - 16) - b2.data.length) d.tag]) := by
  unfold SpliceDescriptor.tryFrom at h
  rw [exceptBind_ok] at h
  obtain ⟨⟨tagRaw, b1⟩, hbyte, h⟩ := h
  rw [exceptBind_ok] at h
  obtain ⟨tg, -, h⟩ := h
  obtain ⟨hL8, hr⟩ := byte_ok_iff.mp hbyte
  injection hr with htagRaw hb1
  subst hb1
  cases tg
  all_goals
    (simp only [] at h
     rw [exceptBind_ok] at h
     obtain ⟨⟨dX, bF⟩, hX, h⟩ := h
     injection h with hh
     injection hh with hd hb2
     subst hd
     subst hb2
     simp only [])
  · obtain ⟨hfr1, hfr2⟩ := frame_avail hX
    constructor
    · simp only [List.length_drop] at hfr1
      omega
    · rw [hfr2]
      simp only [List.length_drop, SpliceDescriptor.tag]
      rw [show b.data.length - 8 - 8 = b.data.length - 16 from by omega]
  · obtain ⟨hfr1, hfr2⟩ := frame_dtmf hX
    constructor
    · simp only [List.length_drop] at hfr1
      omega
    · rw [hfr2]
      simp only [List.length_drop, SpliceDescriptor.tag]
      rw [show b.data.length - 8 - 8 = b.data.length - 16 from by omega]
  · obtain ⟨hfr1, hfr2⟩ := frame_segmentation hX
    constructor
    · simp only [List.length_drop] at hfr1
      omega
    · rw [hfr2]
      simp only [List.length_drop, SpliceDescriptor.tag]
      rw [show b.data.length - 8 - 8 = b.data.length - 16 from by omega]
  · obtain ⟨hfr1, hfr2⟩ := frame_time hX
    constructor
    · simp only [List.length_drop] at hfr1
      omega
    · rw [hfr2]
      simp only [List.length_drop, SpliceDescriptor.tag]
      rw [show b.data.length - 8 - 8 = b.data.length - 16 from by omega]
  · obtain ⟨hfr1, hfr2⟩ := frame_audio hX
    constructor
    · simp only [List.length_drop] at hfr1
      omega
    · rw [hfr2]
      simp only [List.length_drop, SpliceDescriptor.tag]
      rw [show b.data.length - 8 - 8 = b.data.length - 16 from by omega]

/-- Witness for C9: an avail descriptor declaring 9 body bytes whose body
consumes 8, yielding exactly one non-fatal length record, and a well-sized
avail descriptor yielding none. -/
theorem c9_witness :
    SpliceDescriptor.tryFrom c9Input =
      .ok (.availDescriptor ⟨0, 0⟩,
        ⟨byteBits 0xAA,
         [.unexpectedSpliceDescriptorLength 72 64 .availDescriptor]⟩) ∧
    ((⟨byteBits 0xAA,
       [.unexpectedSpliceDescriptorLength 72 64 .availDescriptor]⟩ :
        Bits).data.length + 16 ≤ c9Input.data.length ∧
     (⟨byteBits 0xAA,
       [.unexpectedSpliceDescriptorLength 72 64 .availDescriptor]⟩ :
        Bits).nonFatalErrors = c9Input.nonFatalErrors ++
      (if (bitsVal ((c9Input.data.drop 8).take 8) % 2 ^ 32) * 8 =
          (c9Input.data.length - 16) -
            (⟨byteBits 0xAA,
              [.unexpectedSpliceDescriptorLength 72 64 .availDescriptor]⟩ :
              Bits).data.length then []
       else [ParseError.unexpectedSpliceDescriptorLength
         ((bitsVal ((c9Input.data.drop 8).take 8) % 2 ^ 32) * 8)
         ((c9Input.data.length - 16) -
           (⟨byteBits 0xAA,
             [.unexpectedSpliceDescriptorLength 72 64 .availDescriptor]⟩ :
             Bits).data.length)
         (SpliceDescriptor.availDescriptor ⟨0, 0⟩).tag])) :=
  ⟨rfl, c9_descriptor_length_validation c9Input
    (.availDescriptor ⟨0, 0⟩)
    ⟨byteBits 0xAA, [.unexpectedSpliceDescriptorLength 72 64 .availDescriptor]⟩
    rfl⟩

end Scte35

namespace Scte35

/-- C2: a section whose `encrypted_packet` flag (bit 32 of the input) is
set never parses to a section: every successful parse has the flag bit
clear, and whenever the 40-bit fixed header is readable (both indicator
bits clear, `section_length` validated) and the flag is set, parsing
returns exactly the fatal `EncryptedMessageNotSupported` error. -/
theorem c2_encrypted_packet_rejected :
    (∀ (data : List Nat) (s : SpliceInfoSection),
      SpliceInfoSection.from data = .ok s →
      bitsVal (((bytesToBits data).drop 32).take 1) % 2 ^ 8 ≠ 1) ∧
    (∀ data : List Nat,
      39 ≤ (bytesToBits data).length →
      bitsVal (((bytesToBits data).drop 8).take 1) % 2 ^ 8 ≠ 1 →
      bitsVal (((bytesToBits data).drop 9).take 1) % 2 ^ 8 ≠ 1 →
      (bitsVal (((bytesToBits data).drop 12).take 12) % 2 ^ 16) * 8 ≤
        (bytesToBits data).length - 24 →
      bitsVal (((bytesToBits data).drop 32).take 1) % 2 ^ 8 = 1 →
      SpliceInfoSection.from data =
        .error (.parse .encryptedMessageNotSupported)) := by
  constructor
  · intro data s h
    unfold SpliceInfoSection.from SpliceInfoSection.fromBits at h
    rw [exceptBind_ok] at h
    obtain ⟨⟨tid, b1⟩, h1, h⟩ := h
    rw [exceptBind_ok] at h
    obtain ⟨⟨ssi, b2⟩, h2, h⟩ := h
    simp only [] at h
    split at h
    · exact Except.noConfusion h
    rw [exceptBind_ok] at h
    obtain ⟨⟨pi, b3⟩, h3, h⟩ := h
    simp only [] at h
    split at h
    · exact Except.noConfusion h
    rw [exceptBind_ok] at h
    obtain ⟨⟨sap, b4⟩, h4, h⟩ := h
    rw [exceptBind_ok] at h
    obtain ⟨⟨slen, b5⟩, h5, h⟩ := h
    rw [exceptBind_ok] at h
    obtain ⟨⟨w6, b6⟩, h6, h⟩ := h
    rw [exceptBind_ok] at h
    obtain ⟨⟨proto, b7⟩, h7, h⟩ := h
    rw [exceptBind_ok] at h
    obtain ⟨⟨flag, b8⟩, h8, h⟩ := h
    rw [exceptBind_ok] at h
    obtain ⟨⟨alg, b9⟩, h9, h⟩ := h
    simp only [] at h
    split at h
    · exact Except.noConfusion h
    · next hflag =>
      obtain ⟨-, hr1⟩ := byte_ok_iff.mp h1
      injection hr1 with hv1 hs1
      subst hs1
      obtain ⟨-, hr2⟩ := bool_ok_iff.mp h2
      injection hr2 with hv2 hs2
      subst hs2
      obtain ⟨-, hr3⟩ := bool_ok_iff.mp h3
      injection hr3 with hv3 hs3
      subst hs3
      obtain ⟨-, hr4⟩ := u8_ok_iff.mp h4
      injection hr4 with hv4 hs4
      subst hs4
      obtain ⟨-, hr5⟩ := u16_ok_iff.mp h5
      injection hr5 with hv5 hs5
      subst hs5
      obtain ⟨-, hr6⟩ := validate_ok_iff.mp h6
      injection hr6 with hv6 hs6
      subst hs6
      obtain ⟨-, hr7⟩ := byte_ok_iff.mp h7
      injection hr7 with hv7 hs7
      subst hs7
      obtain ⟨-, hr8⟩ := bool_ok_iff.mp h8
      injection hr8 with hv8 hs8
      subst hv8
      intro hcon
      apply hflag
      simp only [List.drop_drop, beq_iff_eq]
      norm_num
      exact hcon
  · intro data h39 hssi hpi hval hflag
    unfold SpliceInfoSection.from SpliceInfoSection.fromBits
    generalize hgen : bytesToBits data = l at h39 hssi hpi hval hflag ⊢
    rw [show (⟨l, []⟩ : Bits).byte =
        .ok (bitsVal (l.take 8) % 2 ^ 8, ⟨l.drop 8, []⟩) from
      byte_ok_iff.mpr ⟨by show (8 : Nat) ≤ l.length; omega, rfl⟩]
    simp only [exceptBind_pure_ok]
    rw [show (⟨l.drop 8, []⟩ : Bits).bool =
        .ok (bitsVal ((l.drop 8).take 1) % 2 ^ 8 == 1,
          ⟨(l.drop 8).drop 1, []⟩) from
      bool_ok_iff.mpr ⟨by
        (show (1 : Nat) ≤ (l.drop 8).length
         simp only [List.length_drop]
         omega), rfl⟩]
    simp only [exceptBind_pure_ok]
    rw [if_neg (by simp only [beq_iff_eq]; exact hssi)]
    rw [show ((l.drop 8).drop 1 : List Bool) = l.drop 9 from by
      rw [List.drop_drop]]
    rw [show (⟨l.drop 9, []⟩ : Bits).bool =
        .ok (bitsVal ((l.drop 9).take 1) % 2 ^ 8 == 1,
          ⟨(l.drop 9).drop 1, []⟩) from
      bool_ok_iff.mpr ⟨by
        (show (1 : Nat) ≤ (l.drop 9).length
         simp only [List.length_drop]
         omega), rfl⟩]
    simp only [exceptBind_pure_ok]
    rw [if_neg (by simp only [beq_iff_eq]; exact hpi)]
    rw [show ((l.drop 9).drop 1 : List Bool) = l.drop 10 from by
      rw [List.drop_drop]]
    rw [show Bits.u8 2 (⟨l.drop 10, []⟩ : Bits) =
        .ok (bitsVal ((l.drop 10).take 2) % 2 ^ 8,
          ⟨(l.drop 10).drop 2, []⟩) from
      u8_ok_iff.mpr ⟨by
        (show (2 : Nat) ≤ (l.drop 10).length
         simp only [List.length_drop]
         omega), rfl⟩]
    simp only [exceptBind_pure_ok]
    rw [show ((l.drop 10).drop 2 : List Bool) = l.drop 12 from by
      rw [List.drop_drop]]
    rw [show Bits.u16 12 (⟨l.drop 12, []⟩ : Bits) =
        .ok (bitsVal ((l.drop 12).take 12) % 2 ^ 16,
          ⟨(l.drop 12).drop 12, []⟩) from
      u16_ok_iff.mpr ⟨by
        (show (12 : Nat) ≤ (l.drop 12).length
         simp only [List.length_drop]
         omega), rfl⟩]
    simp only [exceptBind_pure_ok]
    rw [show ((l.drop 12).drop 12 : List Bool) = l.drop 24 from by
      rw [List.drop_drop]]
    rw [show Bits.validate ((bitsVal ((l.drop 12).take 12) % 2 ^ 16) * 8)
        ("SpliceInfoSection; section_length") (⟨l.drop 24, []⟩ : Bits) =
        .ok ((), ⟨l.drop 24, []⟩) from
      validate_ok_iff.mpr ⟨by
        show (bitsVal ((l.drop 12).take 12) % 2 ^ 16) * 8 ≤
          (l.drop 24).length
        simp only [List.length_drop]
        omega, rfl⟩]
    simp only [exceptBind_pure_ok]
    rw [show (⟨l.drop 24, []⟩ : Bits).byte =
        .ok (bitsVal ((l.drop 24).take 8) % 2 ^ 8,
          ⟨(l.drop 24).drop 8, []⟩) from
      byte_ok_iff.mpr ⟨by
        (show (8 : Nat) ≤ (l.drop 24).length
         simp only [List.length_drop]
         omega), rfl⟩]
    simp only [exceptBind_pure_ok]
    rw [show ((l.drop 24).drop 8 : List Bool) = l.drop 32 from by
      rw [List.drop_drop]]
    rw [show (⟨l.drop 32, []⟩ : Bits).bool =
        .ok (bitsVal ((l.drop 32).take 1) % 2 ^ 8 == 1,
          ⟨(l.drop 32).drop 1, []⟩) from
      bool_ok_iff.mpr ⟨by
        (show (1 : Nat) ≤ (l.drop 32).length
         simp only [List.length_drop]
         omega), rfl⟩]
    simp only [exceptBind_pure_ok]
    rw [show ((l.drop 32).drop 1 : List Bool) = l.drop 33 from by
      rw [List.drop_drop]]
    rw [show Bits.u8 6 (⟨l.drop 33, []⟩ : Bits) =
        .ok (bitsVal ((l.drop 33).take 6) % 2 ^ 8,
          ⟨(l.drop 33).drop 6, []⟩) from
      u8_ok_iff.mpr ⟨by
        (show (6 : Nat) ≤ (l.drop 33).length
         simp only [List.length_drop]
         omega), rfl⟩]
    simp only [exceptBind_pure_ok]
    rw [if_pos (by simp only [beq_iff_eq]; exact hflag)]

/-- Witness for C2: the five-byte header `FC 30 02 00 80` has the
encrypted flag set and fails with `EncryptedMessageNotSupported`, while
the repository's splice-null sample parses and has the flag bit clear. -/
theorem c2_witness :
    (39 ≤ (bytesToBits c2Input).length ∧
     SpliceInfoSection.from c2Input =
       .error (.parse .encryptedMessageNotSupported)) ∧
    (SpliceInfoSection.from
        [0xFC, 0x30, 0x11, 0x00, 0x00, 0x00, 0x00, 0x00, 0x00, 0x00,
         0xFF, 0xFF, 0xFF, 0x00, 0x00, 0x00, 0x4F, 0x25, 0x33, 0x96] =
       .ok ⟨0xFC, .unspecified, 0, none, 0, 0xFFF, .spliceNull, [],
         1327838102,
         [.unexpectedSpliceCommandLength 32760 0 .spliceNull]⟩ ∧
     bitsVal (((bytesToBits
        [0xFC, 0x30, 0x11, 0x00, 0x00, 0x00, 0x00, 0x00, 0x00, 0x00,
         0xFF, 0xFF, 0xFF, 0x00, 0x00, 0x00, 0x4F, 0x25, 0x33,
         0x96]).drop 32).take 1) % 2 ^ 8 ≠ 1) :=
  ⟨⟨by decide,
    c2_encrypted_packet_rejected.2 c2Input (by decide) (by decide)
      (by decide) (by decide) (by decide)⟩,
   ⟨rfl,
    c2_encrypted_packet_rejected.1
      [0xFC, 0x30, 0x11, 0x00, 0x00, 0x00, 0x00, 0x00, 0x00, 0x00,
       0xFF, 0xFF, 0xFF, 0x00, 0x00, 0x00, 0x4F, 0x25, 0x33, 0x96]
      ⟨0xFC, .unspecified, 0, none, 0, 0xFFF, .spliceNull, [],
        1327838102, [.unexpectedSpliceCommandLength 32760 0 .spliceNull]⟩
      rfl⟩⟩

end Scte35
